import Mathlib

/-!  Verification of the incremental-synchronization core of KToolBox
(src/ktoolbox/action/utils.py, src/ktoolbox/configuration.py).

Python values are embedded shallowly: datetimes become integers ordered as
the source orders datetimes, optional fields become Option, Python dicts
become lookup functions (for the creator indices) or association lists (for
JSON values), and code paths that can raise TypeError are embedded as
Except values.  SHA-256 is implemented in full so that digests are the real
ones the source computes.  -/

namespace KTB

/-- The one exception the embedded code can raise while computing: Python
TypeError, from ordering incompatible values (None against a datetime,
an int against a str inside a list comparison, ...). -/
inductive PyError where
  | typeError
deriving DecidableEq, Repr

/-- Sequential effectful filter: Python list(filter(f, xs)) where the
predicate may raise; the first raise aborts the whole traversal. -/
def filterE (f : α → Except PyError Bool) : List α → Except PyError (List α)
  | [] => .ok []
  | a :: l =>
    match f a with
    | .error e => .error e
    | .ok b =>
      match filterE f l with
      | .error e => .error e
      | .ok r => if b then .ok (a :: r) else .ok r

/-- ktoolbox.api.model.Post, restricted to the fields the diffing,
filtering and naming code reads.  added/published/edited are optional
datetimes (modelled as integers). -/
structure Post where
  id : String
  user : String
  service : String
  title : String
  added : Option Int
  published : Option Int
  edited : Option Int
deriving DecidableEq, Repr

/-- ktoolbox.job.CreatorIndices: the persisted per-creator index, a dict
from post id to the last-synced Post, modelled as a lookup function. -/
structure CreatorIndices where
  posts : String → Option Post

/-- Python dict assignment new_indices.posts[post.id] = post. -/
def insertPost (m : String → Option Post) (p : Post) : String → Option Post :=
  fun k => if k = p.id then some p else m k

/-- The predicate of filter_posts_by_indices (utils.py line 87):
x.id not in indices.posts or x.edited > indices.posts[x.id].edited.
Python `or` short-circuits, so the edited comparison only runs when the id
is present; comparing None with a datetime (either side) raises TypeError. -/
def keptByIndices (indices : CreatorIndices) (x : Post) : Except PyError Bool :=
  match indices.posts x.id with
  | none => .ok true
  | some st =>
    match x.edited, st.edited with
    | some a, some b => .ok (decide (a > b))
    | _, _ => .error .typeError

/-- filter_posts_by_indices (utils.py lines 75-93): filter the posts
against the stored index, then write every retained post into a deep copy
of the indices.  The deep copy of a pure value is the value itself, so the
input indices are untouched by construction; the writes go into the fold
below. -/
def filterPostsByIndices (posts : List Post) (indices : CreatorIndices) :
    Except PyError (List Post × CreatorIndices) :=
  match filterE (keptByIndices indices) posts with
  | .error e => .error e
  | .ok newList => .ok (newList, ⟨newList.foldl insertPost indices.posts⟩)

/-- The second half of _match_post_time (utils.py lines 54-56): the
end_time check, reached when the start_time check passed.  `if end_time`
is datetime truthiness: None is falsy, every datetime is truthy. -/
def matchEndTime (post : Post) (endTime : Option Int) : Except PyError Bool :=
  match endTime, post.published with
  | none, _ => .ok true
  | some _, none => .error .typeError
  | some e, some p => .ok (decide (p ≤ e))

/-- _match_post_time (utils.py lines 39-56).  The start bound is checked
first: `if start_time and post.published < start_time: return False`; a
None published compared against a present bound raises TypeError. -/
def matchPostTime (post : Post) (startTime endTime : Option Int) :
    Except PyError Bool :=
  match startTime, post.published with
  | none, _ => matchEndTime post endTime
  | some _, none => .error .typeError
  | some s, some p =>
    if p < s then .ok false else matchEndTime post endTime

/-- filter_posts_by_time (utils.py lines 59-72), with the lazy generator
consumed into a list (the only way the callers use it). -/
def filterPostsByTime (postList : List Post) (startTime endTime : Option Int) :
    Except PyError (List Post) :=
  filterE (fun p => matchPostTime p startTime endTime) postList

/-!  ## Path namer (generate_post_path_name, utils.py lines 16-36)  -/

/-- One piece of the str.format template post_dirname_format: either
literal text or a named replacement field. -/
inductive TemplatePart where
  | lit (s : String)
  | field (name : String)
deriving DecidableEq, Repr

/-- The configuration surface generate_post_path_name dereferences:
config.job.post_id_as_path and config.job.post_dirname_format.
(configuration.py's JobConfiguration does not define these two fields --
see JobConfiguration below -- which is a mismatch inside the repository;
this structure embeds the fields utils.py reads.) -/
structure NamerConfig where
  post_id_as_path : Bool
  post_dirname_format : List TemplatePart

/-- JobConfiguration as configuration.py lines 79-86 actually defines it:
count, post_id_as_name and post_structure; there is no post_id_as_path and
no post_dirname_format field. -/
structure JobConfiguration where
  count : Int := 10
  post_id_as_name : Bool := false

/-- The field names JobConfiguration defines, for the record. -/
def jobConfigurationFields : List String :=
  ["count", "post_id_as_name", "post_structure"]

/-- The attribute names of config.job that generate_post_path_name reads. -/
def namerConsumedFields : List String :=
  ["post_id_as_path", "post_dirname_format"]

/-- Decimal digits, fuel-driven so that the kernel can evaluate it; the
fuel natDigits supplies always suffices. -/
def natDigitsAux : Nat → Nat → List Char
  | 0, n => [Char.ofNat (48 + n % 10)]
  | fuel + 1, n =>
    if n < 10 then [Char.ofNat (48 + n)]
    else natDigitsAux fuel (n / 10) ++ [Char.ofNat (48 + n % 10)]

/-- Decimal digits of a natural number, most significant first. -/
def natDigits (n : Nat) : List Char := natDigitsAux n n

/-- Decimal representation of a natural number. -/
def natRepr (n : Nat) : String := String.mk (natDigits n)

/-- Decimal representation of an integer. -/
def intRepr (i : Int) : String :=
  if i < 0 then String.mk (Char.ofNat 45 :: natDigits i.natAbs) else natRepr i.toNat

/-- Zero-padded two-digit rendering, for months and days. -/
def pad2 (n : Nat) : String :=
  if n < 10 then String.mk [Char.ofNat 48, Char.ofNat (48 + n)] else natRepr n

/-- Modelled: datetime.strftime("%Y-%m-%d").  Timestamps are modelled as a
day count from the epoch; the civil (year, month, day) triple is computed
with the standard days-from-civil inverse and rendered as
year-month-day separated by hyphens, zero-padded as strftime pads. -/
def strftimeYMD (t : Int) : String :=
  let z : Int := t + 719468
  let era : Int := (if z ≥ 0 then z else z - 146096) / 146097
  let doe : Int := z - era * 146097
  let yoe : Int := (doe - doe / 1460 + doe / 36524 - doe / 146096) / 365
  let y : Int := yoe + era * 400
  let doy : Int := doe - (365 * yoe + yoe / 4 - yoe / 100)
  let mp : Int := (5 * doy + 2) / 153
  let d : Int := doy - (153 * mp + 2) / 5 + 1
  let m : Int := mp + (if mp < 10 then 3 else -9)
  let year : Int := y + (if m ≤ 2 then 1 else 0)
  intRepr year ++ "-" ++ pad2 m.toNat ++ "-" ++ pad2 d.toNat

/-- The replacement value of one recognized placeholder; none for an
unrecognized name (str.format raises KeyError there).  The three timestamp
placeholders render as the empty string when absent, else as %Y-%m-%d
(utils.py lines 25-31). -/
def renderField (post : Post) (name : String) : Option String :=
  if name = "id" then some post.id
  else if name = "user" then some post.user
  else if name = "service" then some post.service
  else if name = "title" then some post.title
  else if name = "added" then
    some (match post.added with | none => "" | some t => strftimeYMD t)
  else if name = "published" then
    some (match post.published with | none => "" | some t => strftimeYMD t)
  else if name = "edited" then
    some (match post.edited with | none => "" | some t => strftimeYMD t)
  else none

/-- str.format over the parsed template: concatenate literal pieces and
rendered fields left to right; the first unrecognized field name raises
KeyError carrying that name. -/
def pyFormat (post : Post) : List TemplatePart → Except String String
  | [] => .ok ""
  | .lit s :: rest =>
    match pyFormat post rest with
    | .error k => .error k
    | .ok r => .ok (s ++ r)
  | .field n :: rest =>
    match renderField post n with
    | some v =>
      match pyFormat post rest with
      | .error k => .error k
      | .ok r => .ok (v ++ r)
    | none => .error n

/-- Characters legal in a file name: everything except ASCII control
characters, DEL, and the reserved set \ / : * ? " < > | . -/
def legalChar (c : Char) : Bool :=
  ¬(c.val < 32 ∨ c.val = 127 ∨
    c ∈ ['/', '\\', ':', '*', '?', '"', '<', '>', '|'])

/-- Modelled: pathvalidate.sanitize_filename with its default empty
replacement text deletes every character that is illegal in a file name. -/
def sanitizeFilename (s : String) : String :=
  String.mk (s.data.filter legalChar)

/-- The outcome of exit(1) after logger.error: the run terminates; the
error value records the messages logged before exiting (exactly the ones
the except-branch logs). -/
inductive FatalExit where
  | exit1 (loggedErrors : List String)
deriving DecidableEq, Repr

/-- The single message the except-branch logs for an invalid key. -/
def invalidKeyMsg (key : String) : String :=
  "JobConfiguration.post_dirname_format contains invalid key: " ++ key

/-- generate_post_path_name (utils.py lines 16-36): the id branch when
post_id_as_path is set or the title is falsy (empty); otherwise render the
template and sanitize; a KeyError from format is logged once and the
process exits with status 1. -/
def generatePostPathName (cfg : NamerConfig) (post : Post) :
    Except FatalExit String :=
  if cfg.post_id_as_path || post.title == "" then .ok post.id
  else
    match pyFormat post cfg.post_dirname_format with
    | .ok s => .ok (sanitizeFilename s)
    | .error key => .error (.exit1 [invalidKeyMsg key])

/-- The recognized placeholder names of the naming template. -/
def recognizedFields : List String :=
  ["id", "user", "service", "title", "added", "published", "edited"]

/-- A template uses only recognized placeholders. -/
def templateRecognized (tpl : List TemplatePart) : Bool :=
  tpl.all fun part =>
    match part with
    | .lit _ => true
    | .field n => recognizedFields.contains n

/-- The first unrecognized field name of a template, if any: the key of
the KeyError str.format raises. -/
def firstUnknownField : List TemplatePart → Option String
  | [] => none
  | .lit _ :: rest => firstUnknownField rest
  | .field n :: rest =>
    if recognizedFields.contains n then firstUnknownField rest else some n

/-!  ## JSON values (json_hash, utils.py lines 95-139)

A JSON-like tree: scalars (null, bool, int, str), ordered sequences, and
mappings with string keys.  Floats are outside the modelled domain.  -/

/-- A Python JSON-like value. -/
inductive JVal where
  | null : JVal
  | bool : Bool → JVal
  | int : Int → JVal
  | str : String → JVal
  | arr : List JVal → JVal
  | obj : List (String × JVal) → JVal

mutual
/-- Structural (Lean-level) equality test on JSON values. -/
def JVal.beq : JVal → JVal → Bool
  | .null, .null => true
  | .bool a, .bool b => a = b
  | .int a, .int b => a = b
  | .str a, .str b => a = b
  | .arr l₁, .arr l₂ => JVal.beqList l₁ l₂
  | .obj e₁, .obj e₂ => JVal.beqEntries e₁ e₂
  | _, _ => false
def JVal.beqList : List JVal → List JVal → Bool
  | [], [] => true
  | a :: l, b :: m => JVal.beq a b && JVal.beqList l m
  | _, _ => false
def JVal.beqEntries : List (String × JVal) → List (String × JVal) → Bool
  | [], [] => true
  | (k₁, v₁) :: l, (k₂, v₂) :: m => k₁ = k₂ && JVal.beq v₁ v₂ && JVal.beqEntries l m
  | _, _ => false
end

/-- An ASCII apostrophe, kept out of string literals. -/
def sq : String := String.singleton (Char.ofNat 39)

/-- Python str(type(x)) for the values that can appear as sort elements.
Only the relative order of these strings matters to the sort. -/
def tagOf : JVal → String
  | .null => "<class " ++ sq ++ "NoneType" ++ sq ++ ">"
  | .bool _ => "<class " ++ sq ++ "bool" ++ sq ++ ">"
  | .int _ => "<class " ++ sq ++ "int" ++ sq ++ ">"
  | .str _ => "<class " ++ sq ++ "str" ++ sq ++ ">"
  | .arr _ => "<class " ++ sq ++ "list" ++ sq ++ ">"
  | .obj _ => "<class " ++ sq ++ "dict" ++ sq ++ ">"

mutual
/-- Python == on JSON values: None equals None, bools and ints compare
numerically (True == 1), strings compare as strings, lists compare
elementwise.  == never raises.  Dicts are replaced by placeholder strings
before json_hash performs any comparison, so the dict case is unreachable
there and is left False. -/
def pyEq : JVal → JVal → Bool
  | .null, .null => true
  | .bool a, .bool b => a = b
  | .bool a, .int n => (if a then (1 : Int) else 0) = n
  | .int n, .bool b => n = (if b then (1 : Int) else 0)
  | .int a, .int b => a = b
  | .str a, .str b => a = b
  | .arr l₁, .arr l₂ => pyEqList l₁ l₂
  | _, _ => false
/-- Python == on lists: equal lengths and elementwise ==. -/
def pyEqList : List JVal → List JVal → Bool
  | [], [] => true
  | a :: l, b :: m => pyEq a b && pyEqList l m
  | _, _ => false
end

/-- Numeric view of a bool, for Python bool/int comparisons. -/
def boolInt (b : Bool) : Int := if b then 1 else 0

mutual
/-- Python < on JSON values: defined between numbers (bool counts as its
numeric value), between strings, and between lists; every other pair
raises TypeError (None included: None < None raises). -/
def pyLt : JVal → JVal → Except PyError Bool
  | .bool a, .bool b => .ok (decide (boolInt a < boolInt b))
  | .bool a, .int n => .ok (decide (boolInt a < n))
  | .int n, .bool b => .ok (decide (n < boolInt b))
  | .int a, .int b => .ok (decide (a < b))
  | .str a, .str b => .ok (decide (a < b))
  | .arr l₁, .arr l₂ => pyLtList l₁ l₂
  | _, _ => .error .typeError
/-- Python < on lists: skip the longest common (by ==) prefix, then compare
the first differing elements with <; a strict prefix is smaller. -/
def pyLtList : List JVal → List JVal → Except PyError Bool
  | [], [] => .ok false
  | [], _ :: _ => .ok true
  | _ :: _, [] => .ok false
  | a :: l, b :: m => if pyEq a b then pyLtList l m else pyLt a b
end

/-- Three-way comparison of the sort keys (str(type(x)), x) used by
sort_list (utils.py line 114): tuple comparison first decides on the type
tag strings; on equal tags, == then < on the values themselves.  An error
is Python TypeError raised by the value comparison. -/
def tcmp (a b : JVal) : Except PyError Ordering :=
  if tagOf a < tagOf b then .ok .lt
  else if tagOf b < tagOf a then .ok .gt
  else if pyEq a b then .ok .eq
  else
    match pyLt a b with
    | .error e => .error e
    | .ok lt => if lt then .ok .lt else .ok .gt

/-- Insert a into an ascending list, before the first element it is
le-related to: later elements go after earlier tied ones, which is the
stability CPython's sort guarantees. -/
def insertLe (le : α → α → Bool) (a : α) : List α → List α
  | [] => [a]
  | b :: l => if le a b then a :: b :: l else b :: insertLe le a l

/-- Stable insertion sort. -/
def isortLe (le : α → α → Bool) : List α → List α
  | [] => []
  | a :: l => insertLe le a (isortLe le l)

/-- key(a) does not exceed key(b): the sort keeps a before b. -/
def sortKeyLe (a b : JVal) : Bool :=
  match tcmp a b with
  | .ok .gt => false
  | _ => true

/-- Every unordered pair of the list is comparable. -/
def pairsComparableB : List JVal → Bool
  | [] => true
  | a :: t => (t.all fun b => (tcmp a b).isOk) && pairsComparableB t

/-- Python sorted(l, key=lambda x: (str(type(x)), x)).  Modelled as: if
some pair of elements has incomparable sort keys the sort raises TypeError
(CPython discovers such a pair while sorting: only same-tag pairs can be
incomparable and same-tag tied elements are adjacent in the key order);
otherwise a stable sort by the key order.  Ties (distinct values whose
keys compare equal, e.g. [true] and [1]) keep their input order, as
CPython's stable sort does. -/
def pySorted (l : List JVal) : Except PyError (List JVal) :=
  if pairsComparableB l then .ok (isortLe sortKeyLe l) else .error .typeError

/-- Lowercase hex digit of n mod 16. -/
def hexLowerChar (n : Nat) : Char :=
  Char.ofNat (if n % 16 < 10 then 48 + n % 16 else 87 + n % 16)

/-- A json.dumps \uXXXX escape (n taken mod 65536). -/
def uEscape (n : Nat) : String :=
  "\\u" ++ String.mk [hexLowerChar (n / 4096), hexLowerChar (n / 256),
    hexLowerChar (n / 16), hexLowerChar n]

/-- json.dumps escaping of one character, with ensure_ascii=True: printable
ASCII passes through, the two-character escapes are used where Python uses
them, everything else becomes \uXXXX (surrogate pairs above 0xFFFF). -/
def escapeChar (c : Char) : String :=
  if c.toNat = 34 then "\\\""
  else if c.toNat = 92 then "\\\\"
  else if c.toNat = 10 then "\\n"
  else if c.toNat = 13 then "\\r"
  else if c.toNat = 9 then "\\t"
  else if c.toNat = 8 then "\\b"
  else if c.toNat = 12 then "\\f"
  else if 32 ≤ c.toNat ∧ c.toNat ≤ 126 then String.singleton c
  else if c.toNat < 65536 then uEscape c.toNat
  else uEscape (55296 + (c.toNat - 65536) / 1024) ++
       uEscape (56320 + (c.toNat - 65536) % 1024)

/-- json.dumps of a string: quoted and escaped. -/
def dumpsStr (s : String) : String :=
  "\"" ++ String.join (s.data.map escapeChar) ++ "\""

mutual
/-- json.dumps with the default separators (", " and ": ") and without
sort_keys; dict entries are serialized in the order given. -/
def dumps : JVal → String
  | .null => "null"
  | .bool true => "true"
  | .bool false => "false"
  | .int n => intRepr n
  | .str s => dumpsStr s
  | .arr l => "[" ++ dumpsList l ++ "]"
  | .obj es => "\x7b" ++ dumpsEntries es ++ "\x7d"
def dumpsList : List JVal → String
  | [] => ""
  | [v] => dumps v
  | v :: w :: rest => dumps v ++ ", " ++ dumpsList (w :: rest)
def dumpsEntries : List (String × JVal) → String
  | [] => ""
  | [(k, v)] => dumpsStr k ++ ": " ++ dumps v
  | (k, v) :: e :: rest => dumpsStr k ++ ": " ++ dumps v ++ ", " ++ dumpsEntries (e :: rest)
end

/-- Ascending key order on dict entries, for sort_keys=True. -/
def entryLe (a b : String × JVal) : Bool := decide (a.1 ≤ b.1)

/-- The entry order json.dumps(-, sort_keys=True) serializes: entries
sorted by key. -/
def sortEntries (es : List (String × JVal)) : List (String × JVal) :=
  isortLe entryLe es

/-!  ## SHA-256 (hashlib.sha256(...).hexdigest())

A complete executable SHA-256 over byte lists, with 32-bit words as
naturals reduced mod 2^32.  The round constants are derived, as the
standard derives them, from the fractional parts of the cube and square
roots of the first primes.  -/

/-- Truncate to a 32-bit word. -/
def w32 (n : Nat) : Nat := n % 4294967296

/-- Rotate a 32-bit word right by n bits. -/
def rotr (n x : Nat) : Nat := w32 ((x >>> n) ||| (x <<< (32 - n)))

/-- Bitwise complement of a 32-bit word. -/
def wnot (x : Nat) : Nat := x ^^^ 4294967295

def bsig0 (x : Nat) : Nat := rotr 2 x ^^^ rotr 13 x ^^^ rotr 22 x
def bsig1 (x : Nat) : Nat := rotr 6 x ^^^ rotr 11 x ^^^ rotr 25 x
def ssig0 (x : Nat) : Nat := rotr 7 x ^^^ rotr 18 x ^^^ (x >>> 3)
def ssig1 (x : Nat) : Nat := rotr 17 x ^^^ rotr 19 x ^^^ (x >>> 10)
def chf (x y z : Nat) : Nat := (x &&& y) ^^^ (wnot x &&& z)
def majf (x y z : Nat) : Nat := (x &&& y) ^^^ (x &&& z) ^^^ (y &&& z)

/-- Integer cube root by binary descent (exact for every n < 2^192). -/
def icbrt (n : Nat) : Nat :=
  (List.range 64).foldl
    (fun r i =>
      let c := r + 2 ^ (63 - i)
      if c ^ 3 ≤ n then c else r) 0

/-- The first 32 bits of the fractional part of the cube root of p. -/
def fracCbrt32 (p : Nat) : Nat := w32 (icbrt (p * 2 ^ 96))

/-- The first 32 bits of the fractional part of the square root of p. -/
def fracSqrt32 (p : Nat) : Nat := w32 (Nat.sqrt (p * 2 ^ 64))

/-- The first 64 primes, sources of the SHA-256 round constants. -/
def first64Primes : List Nat :=
  [2, 3, 5, 7, 11, 13, 17, 19, 23, 29, 31, 37, 41, 43, 47, 53,
   59, 61, 67, 71, 73, 79, 83, 89, 97, 101, 103, 107, 109, 113, 127, 131,
   137, 139, 149, 151, 157, 163, 167, 173, 179, 181, 191, 193, 197, 199, 211, 223,
   227, 229, 233, 239, 241, 251, 257, 263, 269, 271, 277, 281, 283, 293, 307, 311]

/-- The 64 SHA-256 round constants. -/
def sha256K : List Nat := first64Primes.map fracCbrt32

/-- The 8 initial hash words. -/
def sha256H0 : List Nat := [2, 3, 5, 7, 11, 13, 17, 19].map fracSqrt32

/-- Big-endian bytes of n, `count` bytes wide. -/
def beBytes (count n : Nat) : List Nat :=
  (List.range count).map fun i => (n >>> (8 * (count - 1 - i))) % 256

/-- SHA-256 message padding: a 0x80 byte, zeros to 56 mod 64, then the
bit length as a 64-bit big-endian count. -/
def padMessage (msg : List Nat) : List Nat :=
  msg ++ 128 :: List.replicate ((119 - msg.length % 64) % 64) 0 ++
    beBytes 8 (8 * msg.length)

/-- Split into chunks of size n+1, fuel-driven for kernel evaluation. -/
def chunksOfAux (n : Nat) : Nat → List α → List (List α)
  | _, [] => []
  | 0, a :: l => [a :: l]
  | fuel + 1, a :: l => (a :: l).take (n + 1) :: chunksOfAux n fuel (l.drop n)

/-- Split a list into chunks of size n+1 (the last chunk may be short). -/
def chunksOf (n : Nat) (l : List α) : List (List α) := chunksOfAux n l.length l

/-- A big-endian 32-bit word from 4 bytes. -/
def wordOfBytes (bs : List Nat) : Nat := bs.foldl (fun acc b => acc * 256 + b) 0

/-- The eight working variables of the compression function. -/
structure SHAState where
  a : Nat
  b : Nat
  c : Nat
  d : Nat
  e : Nat
  f : Nat
  g : Nat
  h : Nat

/-- Extend the 16 block words by one scheduled word. -/
def scheduleStep (w : List Nat) : List Nat :=
  let i := w.length
  w ++ [w32 (ssig1 (w.getD (i - 2) 0) + w.getD (i - 7) 0 +
             ssig0 (w.getD (i - 15) 0) + w.getD (i - 16) 0)]

/-- Apply scheduleStep n times. -/
def extendN : Nat → List Nat → List Nat
  | 0, w => w
  | n + 1, w => extendN n (scheduleStep w)

/-- The 64-word message schedule of one block. -/
def schedule (blockWords : List Nat) : List Nat := extendN 48 blockWords

/-- One SHA-256 round. -/
def compressStep (st : SHAState) (kw : Nat × Nat) : SHAState :=
  let t1 := w32 (st.h + bsig1 st.e + chf st.e st.f st.g + kw.1 + kw.2)
  let t2 := w32 (bsig0 st.a + majf st.a st.b st.c)
  ⟨w32 (t1 + t2), st.a, st.b, st.c, w32 (st.d + t1), st.e, st.f, st.g⟩

/-- Compress one 16-word block into the running hash. -/
def processBlock (hs : SHAState) (blockWords : List Nat) : SHAState :=
  let st := (sha256K.zip (schedule blockWords)).foldl compressStep hs
  ⟨w32 (hs.a + st.a), w32 (hs.b + st.b), w32 (hs.c + st.c), w32 (hs.d + st.d),
   w32 (hs.e + st.e), w32 (hs.f + st.f), w32 (hs.g + st.g), w32 (hs.h + st.h)⟩

/-- The initial hash value as a state. -/
def shaInit : SHAState :=
  ⟨sha256H0.getD 0 0, sha256H0.getD 1 0, sha256H0.getD 2 0, sha256H0.getD 3 0,
   sha256H0.getD 4 0, sha256H0.getD 5 0, sha256H0.getD 6 0, sha256H0.getD 7 0⟩

/-- SHA-256 of a byte list, as the eight 32-bit hash words. -/
def sha256Words (msg : List Nat) : List Nat :=
  let fin := (chunksOf 63 (padMessage msg)).foldl
    (fun hs blk => processBlock hs ((chunksOf 3 blk).map wordOfBytes)) shaInit
  [fin.a, fin.b, fin.c, fin.d, fin.e, fin.f, fin.g, fin.h]

/-- Eight lowercase hex digits of a 32-bit word. -/
def wordHex (w : Nat) : String :=
  String.mk ((List.range 8).map fun i => hexLowerChar ((w >>> (28 - 4 * i)) % 16))

/-- UTF-8 bytes of one character. -/
def utf8Char (c : Char) : List Nat :=
  let n := c.toNat
  if n < 128 then [n]
  else if n < 2048 then [192 + n / 64, 128 + n % 64]
  else if n < 65536 then [224 + n / 4096, 128 + (n / 64) % 64, 128 + n % 64]
  else [240 + n / 262144, 128 + (n / 4096) % 64, 128 + (n / 64) % 64, 128 + n % 64]

/-- UTF-8 bytes of a string (str.encode()). -/
def utf8 (s : String) : List Nat := (s.data.map utf8Char).flatten

/-- hashlib.sha256(s.encode()).hexdigest(): the 64-character lowercase
hexadecimal SHA-256 digest of a string. -/
def sha256Hex (s : String) : String :=
  String.join ((sha256Words (utf8 s)).map wordHex)

/-- A lowercase hexadecimal digit. -/
def isHexChar (c : Char) : Bool :=
  (48 ≤ c.toNat ∧ c.toNat ≤ 57) ∨ (97 ≤ c.toNat ∧ c.toNat ≤ 102)

/-!  ## json_hash (utils.py lines 95-139)

json_hash mutates its argument while hashing: hash_dict rewrites every
dict value that is itself a dict into the placeholder string
"dict-<subdigest>" and every list value into sort_list's return value;
sort_list does the same to list elements in place and, when sorted_list
is set, returns a new sorted list.  The digest is computed from the
rewritten structure; postJson below gives the rewritten value the caller
is left holding.  -/

mutual
/-- The rewriting hash_dict and sort_list apply to a child value: a dict
becomes the string "dict-" ++ hash_dict(dict), a list becomes sort_list's
return value, scalars stay.  Raises whatever the nested hashing raises. -/
def substElem (sl : Bool) : JVal → Except PyError JVal
  | .obj es =>
    match hashDict sl es with
    | .error e => .error e
    | .ok h => .ok (.str ("dict-" ++ h))
  | .arr l =>
    match sortListF sl l with
    | .error e => .error e
    | .ok l' => .ok (.arr l')
  | v => .ok v
/-- The element loop of sort_list / the value loop of hash_dict over a
list, left to right, aborting at the first raise. -/
def substL (sl : Bool) : List JVal → Except PyError (List JVal)
  | [] => .ok []
  | v :: t =>
    match substElem sl v with
    | .error e => .error e
    | .ok v' =>
      match substL sl t with
      | .error e => .error e
      | .ok t' => .ok (v' :: t')
/-- sort_list (utils.py lines 107-115): rewrite the elements, then sort
them by (str(type(x)), x) when sorted_list is set, else keep the order. -/
def sortListF (sl : Bool) (l : List JVal) : Except PyError (List JVal) :=
  match substL sl l with
  | .error e => .error e
  | .ok l' => if sl then pySorted l' else .ok l'
/-- The entry loop of hash_dict: rewrite each value in order. -/
def substEntries (sl : Bool) :
    List (String × JVal) → Except PyError (List (String × JVal))
  | [] => .ok []
  | (k, v) :: t =>
    match substElem sl v with
    | .error e => .error e
    | .ok v' =>
      match substEntries sl t with
      | .error e => .error e
      | .ok t' => .ok ((k, v') :: t')
/-- hash_dict (utils.py lines 120-126): rewrite the values, then hash
json.dumps(d, sort_keys=True). -/
def hashDict (sl : Bool) (es : List (String × JVal)) : Except PyError String :=
  match substEntries sl es with
  | .error e => .error e
  | .ok es' => .ok (sha256Hex (dumps (.obj (sortEntries es'))))
end

/-- hash_list (utils.py lines 117-118): hash json.dumps(sort_list(l)). -/
def hashList (sl : Bool) (l : List JVal) : Except PyError String :=
  match sortListF sl l with
  | .error e => .error e
  | .ok l' => .ok (sha256Hex (dumps (.arr l')))

/-- Python str() of a scalar; hash_value only ever receives scalars
(hash_json dispatches dicts and lists first), the container cases are
unreachable there. -/
def pyStr : JVal → String
  | .null => "None"
  | .bool true => "True"
  | .bool false => "False"
  | .int n => intRepr n
  | .str s => s
  | v => dumps v

/-- json_hash (utils.py lines 95-139): hash_json's dispatch over the three
shapes.  The sorted_list flag is the order-insensitivity policy. -/
def jsonHash (d : JVal) (sortedList : Bool) : Except PyError String :=
  match d with
  | .obj es => hashDict sortedList es
  | .arr l => hashList sortedList l
  | v => .ok (sha256Hex (pyStr v))

/-- The value the caller's argument holds after json_hash returns: dict
values and list elements are rewritten in place; the top-level container
itself is never reordered (the sorted copy built for a top-level list is
consumed by json.dumps and discarded), while nested lists are replaced by
sort_list's return value via the l[i] / d[k] assignments. -/
def postJson (sl : Bool) : JVal → Except PyError JVal
  | .obj es =>
    match substEntries sl es with
    | .error e => .error e
    | .ok es' => .ok (.obj es')
  | .arr l =>
    match substL sl l with
    | .error e => .error e
    | .ok l' => .ok (.arr l')
  | v => .ok v

mutual
/-- Key-order canonical form: dict entries sorted by key at every level,
sequences untouched.  Two trees are structurally equal regardless of key
order exactly when their canonical forms coincide. -/
def canonKeys : JVal → JVal
  | .obj es => .obj (sortEntries (canonEntries es))
  | .arr l => .arr (canonList l)
  | v => v
def canonList : List JVal → List JVal
  | [] => []
  | v :: t => canonKeys v :: canonList t
def canonEntries : List (String × JVal) → List (String × JVal)
  | [] => []
  | (k, v) :: t => (k, canonKeys v) :: canonEntries t
end

mutual
/-- Every mapping in the tree has pairwise distinct keys (always true of
values arising from Python dicts). -/
def nodupKeysRec : JVal → Bool
  | .obj es => decide ((es.map Prod.fst).Nodup) && nodupKeysEntries es
  | .arr l => nodupKeysList l
  | _ => true
def nodupKeysList : List JVal → Bool
  | [] => true
  | v :: t => nodupKeysRec v && nodupKeysList t
def nodupKeysEntries : List (String × JVal) → Bool
  | [] => true
  | (_, v) :: t => nodupKeysRec v && nodupKeysEntries t
end

mutual
/-- A value legal strictly inside a container if json_hash is to leave it
untouched in order-sensitive mode: not a dict, and a list only of such
values. -/
def childOk : JVal → Bool
  | .obj _ => false
  | .arr l => childOkList l
  | _ => true
def childOkList : List JVal → Bool
  | [] => true
  | v :: t => childOk v && childOkList t
end

/-- No mapping occurs strictly inside a container: json_hash with the
order-sensitive policy leaves such a value unchanged. -/
def noInnerObj : JVal → Bool
  | .obj es => es.all fun kv => childOk kv.2
  | .arr l => childOkList l
  | _ => true

/-- One sort-key pair is harmless: comparable, and tied only if the two
elements are the very same value. -/
def goodPair (a b : JVal) : Bool :=
  match tcmp a b with
  | .error _ => false
  | .ok .eq => JVal.beq a b
  | .ok _ => true

/-- Every unordered pair of the list is harmless. -/
def goodPairsB : List JVal → Bool
  | [] => true
  | a :: t => (t.all fun b => goodPair a b) && goodPairsB t

mutual
/-- The order-insensitive sort behaves canonically everywhere in the tree:
at every sequence, the rewritten elements are pairwise comparable and only
tied when identical. -/
def goodSortV : JVal → Bool
  | .obj es => goodSortEntries es
  | .arr l =>
    goodSortList l &&
      (match substL true l with
       | .error _ => false
       | .ok l' => goodPairsB l')
  | _ => true
def goodSortList : List JVal → Bool
  | [] => true
  | v :: t => goodSortV v && goodSortList t
def goodSortEntries : List (String × JVal) → Bool
  | [] => true
  | (_, v) :: t => goodSortV v && goodSortEntries t
end

mutual
/-- Equality of JSON trees up to permuting the elements of sequences, at
any depth (mapping keys stay put, values are compared recursively). -/
inductive PEq : JVal → JVal → Prop where
  | null : PEq .null .null
  | bool (b : Bool) : PEq (.bool b) (.bool b)
  | int (n : Int) : PEq (.int n) (.int n)
  | str (s : String) : PEq (.str s) (.str s)
  | arr {l₁ lm l₂ : List JVal} :
      PListEq l₁ lm → List.Perm lm l₂ → PEq (.arr l₁) (.arr l₂)
  | obj {e₁ e₂ : List (String × JVal)} : PEntriesEq e₁ e₂ → PEq (.obj e₁) (.obj e₂)
/-- Pointwise PEq on sequences. -/
inductive PListEq : List JVal → List JVal → Prop where
  | nil : PListEq [] []
  | cons {a b : JVal} {l₁ l₂ : List JVal} :
      PEq a b → PListEq l₁ l₂ → PListEq (a :: l₁) (b :: l₂)
/-- Pointwise PEq of entry lists with identical keys in identical order. -/
inductive PEntriesEq : List (String × JVal) → List (String × JVal) → Prop where
  | nil : PEntriesEq [] []
  | cons {k : String} {v₁ v₂ : JVal} {t₁ t₂ : List (String × JVal)} :
      PEq v₁ v₂ → PEntriesEq t₁ t₂ → PEntriesEq ((k, v₁) :: t₁) ((k, v₂) :: t₂)
end

/-!  ## Claim-level derived definitions and concrete inputs  -/

/-- The computation did not raise. -/
def exceptOk : Except PyError β → Bool
  | .ok _ => true
  | .error _ => false

/-- The boolean a fallible predicate returned (false if it raised). -/
def exceptVal : Except PyError Bool → Bool
  | .ok b => b
  | .error _ => false

/-- The retention predicate of the indices differ, as the claim states it:
the id is absent from the index, or the fetched edited timestamp is
strictly newer than the stored one (defined comparisons only). -/
def keptPred (indices : CreatorIndices) (x : Post) : Bool :=
  match indices.posts x.id with
  | none => true
  | some st =>
    match x.edited, st.edited with
    | some a, some b => decide (a > b)
    | _, _ => false

/-- The window predicate of the time filter, as the claim states it:
published within whichever bounds are present. -/
def timePred (startTime endTime : Option Int) (p : Post) : Bool :=
  match p.published with
  | none => false
  | some pv =>
    (startTime.all fun s => decide (s ≤ pv)) && (endTime.all fun e => decide (pv ≤ e))

/-- The last post of the list carrying the given id, if any: what a
left-to-right sequence of dict writes leaves under that key. -/
def findLastById (l : List Post) (k : String) : Option Post :=
  l.foldl (fun acc p => if p.id = k then some p else acc) none

/-- Run the differ, then run it again on the same posts with the updated
indices the first run returned; the result is the second run's changed
list. -/
def diffTwice (posts : List Post) (indices : CreatorIndices) :
    Except PyError (List Post) :=
  match filterPostsByIndices posts indices with
  | .error e => .error e
  | .ok (_, u) =>
    match filterPostsByIndices posts u with
    | .error e => .error e
    | .ok (c₂, _) => .ok c₂

/-- A stored record whose edited timestamp is present. -/
def cexStored : Post := ⟨"a", "u", "s", "t", none, none, some 0⟩

/-- A fetched post with the same id and an absent edited timestamp. -/
def cexNoEdited : Post := ⟨"a", "u", "s", "t", none, none, none⟩

/-- An index holding cexStored under its id. -/
def cexIdxA : CreatorIndices := ⟨fun k => if k = "a" then some cexStored else none⟩

/-- A post with an absent published timestamp. -/
def c3post : Post := ⟨"1", "u", "s", "t", none, none, none⟩

/-- Two fetched posts sharing one id, the earlier one edited later. -/
def c6p1 : Post := ⟨"a", "u", "s", "t", none, none, some 5⟩

/-- The second post under the shared id, with the older edited stamp. -/
def c6p2 : Post := ⟨"a", "u", "s", "t2", none, none, some 3⟩

/-- An empty creator index. -/
def emptyIndices : CreatorIndices := ⟨fun _ => none⟩

/-- A single fresh post used by the witnesses. -/
def w6post : Post := ⟨"b", "u", "s", "t", none, none, some 7⟩

/-- A post with a present published timestamp. -/
def w5post : Post := ⟨"p", "u", "s", "t", none, some 10, none⟩

/-- A post with a non-empty title, for the path namer. -/
def c2post : Post := ⟨"7", "u", "s", "Title", none, none, none⟩

/-- Another post with a non-empty title. -/
def c10post : Post := ⟨"9", "u", "s", "T", none, none, none⟩

/-!  ## Theorems  -/

theorem exceptOk_ok {r : Except PyError β} (h : exceptOk r = true) : ∃ b, r = .ok b := by
  cases r with
  | ok b => exact ⟨b, rfl⟩
  | error e => simp [exceptOk] at h

theorem filterE_ok_of_forall {f : α → Except PyError Bool} {g : α → Bool} :
    ∀ {l : List α}, (∀ a ∈ l, f a = .ok (g a)) → filterE f l = .ok (l.filter g) := by
  intro l
  induction l with
  | nil => intro _; rfl
  | cons a t ih =>
    intro h
    have ha := h a (List.mem_cons_self a t)
    have ht := ih fun b hb => h b (List.mem_cons_of_mem a hb)
    cases hg : g a <;> simp [filterE, ha, ht, hg, List.filter_cons]

theorem filterE_ok_eq {f : α → Except PyError Bool} :
    ∀ {l : List α} {r : List α}, filterE f l = .ok r →
      (∀ a ∈ l, exceptOk (f a) = true) ∧ r = l.filter fun a => exceptVal (f a) := by
  intro l
  induction l with
  | nil =>
    intro r h
    refine ⟨by simp, ?_⟩
    simpa [filterE] using h.symm
  | cons a t ih =>
    intro r h
    rw [filterE] at h
    cases hfa : f a with
    | error e => rw [hfa] at h; cases h
    | ok b =>
      rw [hfa] at h
      cases hft : filterE f t with
      | error e => rw [hft] at h; cases h
      | ok rt =>
        rw [hft] at h
        obtain ⟨hall, hrt⟩ := ih hft
        refine ⟨?_, ?_⟩
        · intro x hx
          rcases List.mem_cons.mp hx with hx | hx
          · subst hx; simp [exceptOk, hfa]
          · exact hall x hx
        · cases b with
          | true =>
            simp at h
            simp [List.filter_cons, exceptVal, hfa, ← h, hrt]
          | false =>
            simp at h
            simp [List.filter_cons, exceptVal, hfa, ← h, hrt]

theorem findLastById_cons (p : Post) (t : List Post) (k : String) :
    findLastById (p :: t) k =
      match findLastById t k with
      | some q => some q
      | none => if p.id = k then some p else none := by
  have gen : ∀ (l : List Post) (a : Option Post),
      l.foldl (fun acc p => if p.id = k then some p else acc) a =
        match findLastById l k with
        | some q => some q
        | none => a := by
    intro l
    induction l with
    | nil => intro a; rfl
    | cons r t ih =>
      intro a
      rw [List.foldl_cons, ih]
      have hr : findLastById (r :: t) k =
          match findLastById t k with
          | some q => some q
          | none => if r.id = k then some r else none := by
        rw [findLastById, List.foldl_cons, ih]
      rw [hr]
      cases hft : findLastById t k with
      | some q => rfl
      | none => by_cases hpk : r.id = k <;> simp [hpk]
  rw [findLastById, List.foldl_cons, gen]

theorem lookup_foldl_insertPost (k : String) :
    ∀ (l : List Post) (m : String → Option Post),
      (l.foldl insertPost m) k =
        match findLastById l k with
        | some q => some q
        | none => m k := by
  intro l
  induction l with
  | nil => intro m; rfl
  | cons p t ih =>
    intro m
    rw [List.foldl_cons, ih, findLastById_cons]
    cases hft : findLastById t k with
    | some q => rfl
    | none =>
      show insertPost m p k = _
      unfold insertPost
      by_cases hpk : p.id = k
      · simp [hpk]
      · have hkp : ¬(k = p.id) := fun hh => hpk hh.symm
        simp [hpk, hkp]

theorem findLastById_mem {l : List Post} {k : String} {q : Post}
    (h : findLastById l k = some q) : q ∈ l ∧ q.id = k := by
  induction l with
  | nil => cases h
  | cons p t ih =>
    rw [findLastById_cons] at h
    cases hft : findLastById t k with
    | some r =>
      simp only [hft] at h
      cases h
      obtain ⟨hmem, hid⟩ := ih hft
      exact ⟨List.mem_cons_of_mem _ hmem, hid⟩
    | none =>
      simp only [hft] at h
      by_cases hpk : p.id = k
      · simp only [if_pos hpk] at h
        cases h
        exact ⟨List.mem_cons_self _ _, hpk⟩
      · simp only [if_neg hpk] at h
        cases h

theorem findLastById_eq_some {l : List Post} {k : String} {q : Post}
    (hnd : (l.map Post.id).Nodup) (hq : q ∈ l) (hk : q.id = k) :
    findLastById l k = some q := by
  induction l with
  | nil => cases hq
  | cons p t ih =>
    rw [List.map_cons, List.nodup_cons] at hnd
    rw [findLastById_cons]
    rcases List.mem_cons.mp hq with hq | hq
    · subst hq
      cases hft : findLastById t k with
      | some r =>
        obtain ⟨hmem, hid⟩ := findLastById_mem hft
        have hrmem : r.id ∈ List.map Post.id t := List.mem_map_of_mem Post.id hmem
        rw [hid, ← hk] at hrmem
        exact absurd hrmem hnd.1
      | none => simp [hk]
    · rw [ih hnd.2 hq]

theorem findLastById_eq_none {l : List Post} {k : String}
    (h : k ∉ l.map Post.id) : findLastById l k = none := by
  induction l with
  | nil => rfl
  | cons p t ih =>
    rw [List.map_cons, List.mem_cons] at h
    push_neg at h
    rw [findLastById_cons, ih h.2]
    have hpk : ¬(p.id = k) := fun hh => h.1 hh.symm
    simp [hpk]

/-- Claim C1, original form, counterexample: a fetched post whose id is in
the index but whose edited timestamp is absent makes the comparison raise
TypeError, so no changed list at all is returned. -/
theorem C1_counterexample :
    ¬ ∃ res, filterPostsByIndices [cexNoEdited] cexIdxA = .ok res := by
  rintro ⟨res, h⟩
  have he : filterPostsByIndices [cexNoEdited] cexIdxA = .error .typeError := rfl
  rw [he] at h
  cases h

/-- Claim C1 (amended): whenever every edited comparison the differ makes
is defined, the changed list is exactly the stable filter of the input by
"id absent or fetched edited strictly newer", in input order. -/
theorem keptByIndices_eq_ok {indices : CreatorIndices} {p : Post} {b : Bool}
    (h : keptByIndices indices p = .ok b) : keptPred indices p = b := by
  unfold keptByIndices at h
  unfold keptPred
  cases hl : indices.posts p.id with
  | none =>
    simp only [hl] at h ⊢
    cases h
    rfl
  | some st =>
    simp only [hl] at h ⊢
    cases he : p.edited with
    | none =>
      simp only [he] at h ⊢
      cases h
    | some a =>
      simp only [he] at h ⊢
      cases hse : st.edited with
      | none => simp only [hse] at h; cases h
      | some b' =>
        simp only [hse] at h ⊢
        cases h
        rfl

theorem C1_indices_differ (posts : List Post) (indices : CreatorIndices)
    (h : ∀ p ∈ posts, exceptOk (keptByIndices indices p) = true) :
    ∃ upd, filterPostsByIndices posts indices =
        .ok (posts.filter (keptPred indices), upd) ∧
      (posts.filter (keptPred indices)).Sublist posts := by
  have hf : ∀ p ∈ posts, keptByIndices indices p = .ok (keptPred indices p) := by
    intro p hp
    obtain ⟨b, hb⟩ := exceptOk_ok (h p hp)
    rw [hb, keptByIndices_eq_ok hb]
  have hfe := filterE_ok_of_forall hf
  refine ⟨⟨(posts.filter (keptPred indices)).foldl insertPost indices.posts⟩, ?_, ?_⟩
  · unfold filterPostsByIndices
    rw [hfe]
  · exact List.filter_sublist posts

/-- Claim C1 witness at a concrete input: one new post and one unchanged
post against a one-entry index. -/
theorem C1_witness :
    ∃ upd, filterPostsByIndices [w6post, cexStored] cexIdxA =
        .ok ([w6post, cexStored].filter (keptPred cexIdxA), upd) ∧
      ([w6post, cexStored].filter (keptPred cexIdxA)).Sublist [w6post, cexStored] :=
  C1_indices_differ [w6post, cexStored] cexIdxA (by decide)

/-- Claim C3: a post with an absent published timestamp and a present
bound makes _match_post_time raise TypeError (on either side), and the
raise propagates out of filter_posts_by_time; the post is not silently
excluded as the specification requires. -/
theorem C3_absent_published_raises :
    matchPostTime c3post (some 0) none = .error .typeError ∧
    matchPostTime c3post none (some 0) = .error .typeError ∧
    filterPostsByTime [c3post] (some 0) none = .error .typeError :=
  ⟨rfl, rfl, rfl⟩

/-- Claim C5: with every published timestamp present, the time filter
returns, in input order, exactly the posts inside whichever bounds are
set. -/
theorem C5_time_filter (posts : List Post) (startTime endTime : Option Int)
    (h : ∀ p ∈ posts, p.published.isSome = true) :
    filterPostsByTime posts startTime endTime =
        .ok (posts.filter (timePred startTime endTime)) ∧
      (posts.filter (timePred startTime endTime)).Sublist posts := by
  refine ⟨?_, List.filter_sublist posts⟩
  apply filterE_ok_of_forall
  intro p hp
  obtain ⟨pv, hpv⟩ := Option.isSome_iff_exists.mp (h p hp)
  unfold matchPostTime matchEndTime timePred
  rw [hpv]
  cases startTime with
  | none =>
    cases endTime with
    | none => simp
    | some e => simp
  | some s =>
    cases endTime with
    | none =>
      by_cases hlt : pv < s
      · simp [hlt, show ¬(s ≤ pv) by omega]
      · simp [hlt, show s ≤ pv by omega]
    | some e =>
      by_cases hlt : pv < s
      · simp [hlt, show ¬(s ≤ pv) by omega]
      · simp [hlt, show s ≤ pv by omega]

/-- Claim C5 witness at a concrete input: one post inside and the bounds
on both sides. -/
theorem C5_witness :
    filterPostsByTime [w5post] (some 0) (some 20) =
        .ok ([w5post].filter (timePred (some 0) (some 20))) ∧
      ([w5post].filter (timePred (some 0) (some 20))).Sublist [w5post] :=
  C5_time_filter [w5post] (some 0) (some 20) (by decide)

theorem keptByIndices_congr {u indices : CreatorIndices} {p : Post}
    (h : u.posts p.id = indices.posts p.id) :
    keptByIndices u p = keptByIndices indices p := by
  unfold keptByIndices
  rw [h]

/-- Claim C9: a successful diff never deletes an index entry (every stored
id stays present), and every key outside the changed posts' ids still maps
to exactly the record the input index held; the input value itself is
untouched, the embedding being pure and the source writing only into its
deep copy. -/
theorem C9_frame (posts : List Post) (indices : CreatorIndices)
    (c : List Post) (u : CreatorIndices)
    (h : filterPostsByIndices posts indices = .ok (c, u)) :
    (∀ k, (indices.posts k).isSome = true → (u.posts k).isSome = true) ∧
    (∀ k, k ∉ c.map Post.id → u.posts k = indices.posts k) := by
  unfold filterPostsByIndices at h
  cases hf : filterE (keptByIndices indices) posts with
  | error e => rw [hf] at h; cases h
  | ok newList =>
    rw [hf] at h
    cases h
    constructor
    · intro k hk
      show ((c.foldl insertPost indices.posts) k).isSome = true
      rw [lookup_foldl_insertPost]
      cases hfl : findLastById c k with
      | some q => simp
      | none => simpa using hk
    · intro k hnk
      show (c.foldl insertPost indices.posts) k = indices.posts k
      rw [lookup_foldl_insertPost, findLastById_eq_none hnk]

/-- Claim C9 witness at a concrete input: one fresh post against a
one-entry index. -/
theorem C9_witness :
    (∀ k, (cexIdxA.posts k).isSome = true →
      ((CreatorIndices.mk ([w6post].foldl insertPost cexIdxA.posts)).posts k).isSome
        = true) ∧
    (∀ k, k ∉ [w6post].map Post.id →
      (CreatorIndices.mk ([w6post].foldl insertPost cexIdxA.posts)).posts k
        = cexIdxA.posts k) :=
  C9_frame [w6post] cexIdxA [w6post] ⟨[w6post].foldl insertPost cexIdxA.posts⟩ rfl

/-- Claim C6, original form, counterexample: two fetched posts sharing one
id (the earlier one edited later) defeat idempotence, because the filter
tests both against the original index while the writes go in list order:
the second diff still reports the first post as changed. -/
theorem C6_counterexample :
    (∀ p ∈ [c6p1, c6p2], p.edited.isSome = true) ∧
    diffTwice [c6p1, c6p2] emptyIndices = .ok [c6p1] ∧
    diffTwice [c6p1, c6p2] emptyIndices ≠ .ok [] := by
  have heval : diffTwice [c6p1, c6p2] emptyIndices = .ok [c6p1] := rfl
  refine ⟨by decide, heval, ?_⟩
  rw [heval]
  intro hcontra
  cases hcontra

theorem keptByIndices_self {u : CreatorIndices} {p : Post} {a : Int}
    (hl : u.posts p.id = some p) (ha : p.edited = some a) :
    keptByIndices u p = .ok false := by
  unfold keptByIndices
  simp only [hl, ha]
  simp

/-- Claim C6 (amended): with pairwise distinct post ids, every edited
timestamp present, and the first diff succeeding, running the differ again
on the updated indices yields an empty changed list. -/
theorem C6_idempotent (posts : List Post) (indices : CreatorIndices)
    (hnd : (posts.map Post.id).Nodup)
    (hed : ∀ p ∈ posts, p.edited.isSome = true)
    (h : exceptOk (filterPostsByIndices posts indices) = true) :
    diffTwice posts indices = .ok [] := by
  unfold filterPostsByIndices at h
  cases hf : filterE (keptByIndices indices) posts with
  | error e =>
    rw [hf] at h
    simp [exceptOk] at h
  | ok c =>
    obtain ⟨hallok, hchar⟩ := filterE_ok_eq hf
    have hndnew : (c.map Post.id).Nodup := by
      have hsub : c.Sublist posts := by
        rw [hchar]; exact List.filter_sublist posts
      exact List.Nodup.sublist (List.Sublist.map Post.id hsub) hnd
    set u : CreatorIndices := ⟨c.foldl insertPost indices.posts⟩ with hu
    have hsecond : ∀ p ∈ posts, keptByIndices u p = .ok false := by
      intro p hp
      have hlook : u.posts p.id =
          match findLastById c p.id with
          | some q => some q
          | none => indices.posts p.id := lookup_foldl_insertPost p.id c indices.posts
      cases hfl : findLastById c p.id with
      | some q =>
        rw [hfl] at hlook
        obtain ⟨hqmem, hqid⟩ := findLastById_mem hfl
        have hqposts : q ∈ posts := by
          rw [hchar] at hqmem
          exact (List.mem_filter.mp hqmem).1
        have hqp : q = p := List.inj_on_of_nodup_map hnd hqposts hp hqid
        subst hqp
        obtain ⟨a, ha⟩ := Option.isSome_iff_exists.mp (hed q hp)
        exact keptByIndices_self hlook ha
      | none =>
        rw [hfl] at hlook
        have hnotmem : p ∉ c := by
          intro hmem
          rw [findLastById_eq_some hndnew hmem rfl] at hfl
          cases hfl
        have hfalse : exceptVal (keptByIndices indices p) = false := by
          by_contra hcontra
          have htrue : exceptVal (keptByIndices indices p) = true := by
            cases hv : exceptVal (keptByIndices indices p)
            · exact absurd hv hcontra
            · rfl
          exact hnotmem (by
            rw [hchar]
            exact List.mem_filter.mpr ⟨hp, htrue⟩)
        obtain ⟨b, hb⟩ := exceptOk_ok (hallok p hp)
        have hbval : b = false := by
          rw [hb] at hfalse
          exact hfalse
        subst hbval
        rw [keptByIndices_congr hlook]
        exact hb
    have hfe : filterE (keptByIndices u) posts = .ok (posts.filter fun _ => false) :=
      filterE_ok_of_forall fun p hp => hsecond p hp
    have hfirst : filterPostsByIndices posts indices = .ok (c, u) := by
      unfold filterPostsByIndices
      rw [hf]
    have hsecondCall : filterPostsByIndices posts u =
        .ok (posts.filter fun _ => false,
          ⟨(posts.filter fun _ => false).foldl insertPost u.posts⟩) := by
      unfold filterPostsByIndices
      rw [hfe]
    have hempty : posts.filter (fun _ => false) = [] := by simp
    unfold diffTwice
    rw [hfirst]
    show (match filterPostsByIndices posts u with
      | Except.error e => Except.error e
      | Except.ok (c₂, _) => Except.ok c₂) = Except.ok []
    rw [hsecondCall]
    simp [hempty]

/-- Claim C6 witness at a concrete input: one fresh post over an empty
index diffs to itself once and to nothing the second time. -/
theorem C6_witness : diffTwice [w6post] emptyIndices = .ok [] :=
  C6_idempotent [w6post] emptyIndices (by decide) (by decide) (by decide)

theorem renderField_recognized {post : Post} {n : String}
    (h : recognizedFields.contains n = true) : (renderField post n).isSome = true := by
  have h' : n ∈ recognizedFields := List.mem_of_elem_eq_true h
  simp only [recognizedFields, List.mem_cons, List.not_mem_nil, or_false] at h'
  rcases h' with h' | h' | h' | h' | h' | h' | h' <;> subst h' <;> rfl

theorem renderField_unrecognized {post : Post} {n : String}
    (h : recognizedFields.contains n = false) : renderField post n = none := by
  have h' : n ∉ recognizedFields := by
    intro hm
    have he : List.elem n recognizedFields = false := h
    rw [List.elem_eq_true_of_mem hm] at he
    cases he
  simp only [recognizedFields, List.mem_cons, List.not_mem_nil, or_false] at h'
  push_neg at h'
  obtain ⟨h1, h2, h3, h4, h5, h6, h7⟩ := h'
  simp [renderField, h1, h2, h3, h4, h5, h6, h7]

theorem pyFormat_recognized_ok {post : Post} :
    ∀ {tpl : List TemplatePart}, templateRecognized tpl = true →
      ∃ s, pyFormat post tpl = .ok s := by
  intro tpl
  induction tpl with
  | nil => intro _; exact ⟨"", rfl⟩
  | cons part rest ih =>
    intro h
    rw [templateRecognized, List.all_cons, Bool.and_eq_true] at h
    obtain ⟨hpart, hrest⟩ := h
    cases part with
    | lit s0 =>
      obtain ⟨s, hs⟩ := ih hrest
      exact ⟨s0 ++ s, by simp only [pyFormat, hs]⟩
    | field n =>
      have hsome := @renderField_recognized post _ hpart
      obtain ⟨v, hv⟩ := Option.isSome_iff_exists.mp hsome
      obtain ⟨s, hs⟩ := ih hrest
      exact ⟨v ++ s, by simp only [pyFormat, hv, hs]⟩

theorem pyFormat_first_unknown {post : Post} :
    ∀ {tpl : List TemplatePart} {k : String}, firstUnknownField tpl = some k →
      pyFormat post tpl = .error k := by
  intro tpl
  induction tpl with
  | nil => intro k h; cases h
  | cons part rest ih =>
    intro k h
    cases part with
    | lit s0 =>
      rw [firstUnknownField] at h
      simp only [pyFormat, ih h]
    | field n =>
      rw [firstUnknownField] at h
      cases hr : recognizedFields.contains n with
      | true =>
        rw [hr] at h
        simp only [if_pos rfl] at h
        have hsome := @renderField_recognized post _ hr
        obtain ⟨v, hv⟩ := Option.isSome_iff_exists.mp hsome
        simp only [pyFormat, hv, ih h]
      | false =>
        rw [hr] at h
        simp only [Bool.false_eq_true, if_false] at h
        cases h
        simp only [pyFormat, renderField_unrecognized hr]

theorem sanitizeFilename_legal (s : String) :
    ∀ c ∈ (sanitizeFilename s).data, legalChar c = true := by
  intro c hc
  have hdata : (sanitizeFilename s).data = s.data.filter legalChar := rfl
  rw [hdata] at hc
  exact List.of_mem_filter hc

/-- Claim C2, original form, counterexample: a template of recognized
parts only (here a bare literal) can render to a string that sanitization
empties, so the returned name is the empty string, not a non-empty one. -/
theorem C2_counterexample :
    templateRecognized [TemplatePart.lit "/"] = true ∧
    c2post.title = "Title" ∧
    generatePostPathName ⟨false, [TemplatePart.lit "/"]⟩ c2post = .ok "" :=
  ⟨rfl, rfl, rfl⟩

/-- Claim C2 (amended): with only recognized placeholders the namer never
fails: it returns exactly post.id when post_id_as_path is set or the title
is empty, and otherwise a sanitized, filesystem-legal (possibly empty)
string. -/
theorem C2_path_namer (cfg : NamerConfig) (post : Post)
    (h : templateRecognized cfg.post_dirname_format = true) :
    ∃ s, generatePostPathName cfg post = .ok s ∧
      ((cfg.post_id_as_path || post.title == "") = true → s = post.id) ∧
      ((cfg.post_id_as_path || post.title == "") = false →
        ∀ c ∈ s.data, legalChar c = true) := by
  unfold generatePostPathName
  cases hc : (cfg.post_id_as_path || post.title == "") with
  | true =>
    exact ⟨post.id, by simp, fun _ => rfl, fun h' => Bool.noConfusion h'⟩
  | false =>
    obtain ⟨s, hs⟩ := @pyFormat_recognized_ok post _ h
    refine ⟨sanitizeFilename s, ?_, fun h' => Bool.noConfusion h',
      fun _ => sanitizeFilename_legal s⟩
    simp [hs]

/-- Claim C2 witness at a concrete input: the template is the bare title
placeholder. -/
theorem C2_witness :
    ∃ s, generatePostPathName ⟨false, [TemplatePart.field "title"]⟩ c2post = .ok s ∧
      ((false || c2post.title == "") = true → s = c2post.id) ∧
      ((false || c2post.title == "") = false →
        ∀ c ∈ s.data, legalChar c = true) :=
  C2_path_namer ⟨false, [TemplatePart.field "title"]⟩ c2post (by decide)

/-- Claim C10, original form, counterexample: with post_id_as_path set the
template is never rendered, so an unrecognized placeholder neither gets
reported nor terminates anything - the namer happily returns the id. -/
theorem C10_counterexample :
    firstUnknownField [TemplatePart.field "bogus"] = some "bogus" ∧
    generatePostPathName ⟨true, [TemplatePart.field "bogus"]⟩ c10post = .ok "9" := by
  exact ⟨rfl, rfl⟩

/-- Claim C10 (amended): when the template is actually rendered (the id
branch does not apply), the first unrecognized placeholder is fatal: the
error is logged exactly once and the run exits with status 1 instead of
returning a name. -/
theorem C10_unknown_placeholder (cfg : NamerConfig) (post : Post) (k : String)
    (hpath : cfg.post_id_as_path = false)
    (htitle : (post.title == "") = false)
    (hk : firstUnknownField cfg.post_dirname_format = some k) :
    generatePostPathName cfg post = .error (.exit1 [invalidKeyMsg k]) := by
  unfold generatePostPathName
  rw [hpath, htitle]
  simp only [Bool.or_self, Bool.false_eq_true, if_false]
  rw [@pyFormat_first_unknown post _ _ hk]

/-- Claim C10 witness at a concrete input: an unknown placeholder with the
identifier branch not taken. -/
theorem C10_witness :
    generatePostPathName ⟨false, [TemplatePart.field "bogus"]⟩ c10post =
      .error (.exit1 [invalidKeyMsg "bogus"]) :=
  C10_unknown_placeholder ⟨false, [TemplatePart.field "bogus"]⟩ c10post "bogus"
    rfl rfl rfl

/-!  ### json_hash: mutation (claim C4)  -/

mutual
theorem substElem_flat (v : JVal) (h : childOk v = true) : substElem false v = .ok v := by
  cases v with
  | obj es => simp [childOk] at h
  | arr l =>
    have hl : childOkList l = true := by rw [childOk] at h; exact h
    have hs := substL_flat l hl
    simp [substElem, sortListF, hs]
  | null => simp [substElem]
  | bool b => simp [substElem]
  | int n => simp [substElem]
  | str s => simp [substElem]
theorem substL_flat (l : List JVal) (h : childOkList l = true) : substL false l = .ok l := by
  cases l with
  | nil => simp [substL]
  | cons v t =>
    rw [childOkList, Bool.and_eq_true] at h
    simp only [substL, substElem_flat v h.1, substL_flat t h.2]
end

/-- Claim C4, original form, counterexample: hashing a mapping that
contains a nested mapping rewrites the nested mapping into its
"dict-<digest>" placeholder string inside the caller's value. -/
theorem C4_counterexample :
    postJson false (JVal.obj [("a", JVal.obj [("b", JVal.int 1)])]) ≠
      .ok (JVal.obj [("a", JVal.obj [("b", JVal.int 1)])]) := by
  intro h
  simp only [postJson, substEntries, substElem, hashDict, substL] at h
  simp at h

/-- Claim C4 (amended): with the order-sensitive policy, json_hash leaves
its input unchanged exactly when no mapping sits strictly inside another
container; scalars and mappings/sequences of scalars (and of
scalar-sequences) are safe. -/
theorem C4_mutation_free (v : JVal) (h : noInnerObj v = true) :
    postJson false v = .ok v := by
  cases v with
  | obj es =>
    have hall : ∀ kv ∈ es, childOk kv.2 = true := by
      simp only [noInnerObj, List.all_eq_true] at h
      exact h
    have hsub : substEntries false es = .ok es := by
      clear h
      induction es with
      | nil => simp [substEntries]
      | cons kv t ih =>
        obtain ⟨k, v⟩ := kv
        simp only [substEntries,
          substElem_flat v (hall (k, v) (List.mem_cons_self _ _)),
          ih fun kv hm => hall kv (List.mem_cons_of_mem _ hm)]
    simp only [postJson, hsub]
  | arr l =>
    simp only [noInnerObj] at h
    simp only [postJson, substL_flat l h]
  | null => rfl
  | bool b => rfl
  | int n => rfl
  | str s => rfl

/-- Claim C4 witness at a concrete input: a flat mapping with a scalar and
a scalar sequence survives hashing untouched. -/
theorem C4_witness :
    postJson false
        (JVal.obj [("a", JVal.int 1), ("b", JVal.arr [JVal.int 2, JVal.str "x"])]) =
      .ok (JVal.obj [("a", JVal.int 1), ("b", JVal.arr [JVal.int 2, JVal.str "x"])]) :=
  C4_mutation_free _ (by simp [noInnerObj, childOk, childOkList])

/-!  ### The Python comparison semantics: basic laws  -/

mutual
theorem beq_eq (a b : JVal) (h : JVal.beq a b = true) : a = b := by
  cases a with
  | null => cases b <;> simp_all [JVal.beq]
  | bool x => cases b <;> simp_all [JVal.beq]
  | int x => cases b <;> simp_all [JVal.beq]
  | str x => cases b <;> simp_all [JVal.beq]
  | arr l =>
    cases b with
    | arr m =>
      have hm : JVal.beqList l m = true := by simpa [JVal.beq] using h
      rw [beqList_eq l m hm]
    | null => simp [JVal.beq] at h
    | bool y => simp [JVal.beq] at h
    | int y => simp [JVal.beq] at h
    | str y => simp [JVal.beq] at h
    | obj e => simp [JVal.beq] at h
  | obj e =>
    cases b with
    | obj e₂ =>
      have hm : JVal.beqEntries e e₂ = true := by simpa [JVal.beq] using h
      rw [beqEntries_eq e e₂ hm]
    | null => simp [JVal.beq] at h
    | bool y => simp [JVal.beq] at h
    | int y => simp [JVal.beq] at h
    | str y => simp [JVal.beq] at h
    | arr m => simp [JVal.beq] at h
theorem beqList_eq (l m : List JVal) (h : JVal.beqList l m = true) : l = m := by
  cases l with
  | nil =>
    cases m with
    | nil => rfl
    | cons b t => simp [JVal.beqList] at h
  | cons a s =>
    cases m with
    | nil => simp [JVal.beqList] at h
    | cons b t =>
      rw [JVal.beqList, Bool.and_eq_true] at h
      rw [beq_eq a b h.1, beqList_eq s t h.2]
theorem beqEntries_eq (l m : List (String × JVal)) (h : JVal.beqEntries l m = true) :
    l = m := by
  cases l with
  | nil =>
    cases m with
    | nil => rfl
    | cons b t => simp [JVal.beqEntries] at h
  | cons a s =>
    obtain ⟨k₁, v₁⟩ := a
    cases m with
    | nil => simp [JVal.beqEntries] at h
    | cons b t =>
      obtain ⟨k₂, v₂⟩ := b
      rw [JVal.beqEntries] at h
      simp only [Bool.and_eq_true] at h
      obtain ⟨⟨hk, hv⟩, ht⟩ := h
      rw [of_decide_eq_true hk, beq_eq v₁ v₂ hv, beqEntries_eq s t ht]
end

mutual
/-- Python == is reflexive on dict-free values (dicts never reach the
comparisons inside json_hash, having been replaced by strings). -/
theorem pyEq_refl (a : JVal) (h : childOk a = true) : pyEq a a = true := by
  cases a with
  | null => rfl
  | bool x => simp [pyEq]
  | int x => simp [pyEq]
  | str x => simp [pyEq]
  | arr l =>
    rw [childOk] at h
    simp only [pyEq]
    exact pyEqList_refl l h
  | obj e => simp [childOk] at h
theorem pyEqList_refl (l : List JVal) (h : childOkList l = true) :
    pyEqList l l = true := by
  cases l with
  | nil => rfl
  | cons a t =>
    rw [childOkList, Bool.and_eq_true] at h
    rw [pyEqList, Bool.and_eq_true]
    exact ⟨pyEq_refl a h.1, pyEqList_refl t h.2⟩
end

mutual
theorem pyEq_symm (a b : JVal) : pyEq a b = pyEq b a := by
  cases a with
  | null => cases b <;> simp [pyEq]
  | bool x => cases b <;> simp [pyEq, eq_comm]
  | int x => cases b <;> simp [pyEq, eq_comm]
  | str x => cases b <;> simp [pyEq, eq_comm]
  | arr l =>
    cases b with
    | null => simp [pyEq]
    | bool y => simp [pyEq]
    | int y => simp [pyEq]
    | str y => simp [pyEq]
    | arr m => simp only [pyEq]; exact pyEqList_symm l m
    | obj e => simp [pyEq]
  | obj e => cases b <;> simp [pyEq]
theorem pyEqList_symm (l m : List JVal) : pyEqList l m = pyEqList m l := by
  cases l with
  | nil => cases m <;> simp [pyEqList]
  | cons a s =>
    cases m with
    | nil => simp [pyEqList]
    | cons b t =>
      rw [pyEqList, pyEqList, pyEq_symm a b, pyEqList_symm s t]
end

mutual
theorem pyEq_trans (a b c : JVal) (h1 : pyEq a b = true) (h2 : pyEq b c = true) :
    pyEq a c = true := by
  cases a with
  | null =>
    cases b with
    | null => exact h2
    | bool y => simp [pyEq] at h1
    | int y => simp [pyEq] at h1
    | str y => simp [pyEq] at h1
    | arr m => simp [pyEq] at h1
    | obj e => simp [pyEq] at h1
  | bool x =>
    cases b with
    | bool y => cases c <;> simp_all [pyEq]
    | int n =>
      cases c with
      | bool z => cases x <;> cases z <;> simp_all [pyEq]
      | int k => cases x <;> simp_all [pyEq]
      | null => simp [pyEq] at h2
      | str y => simp [pyEq] at h2
      | arr m => simp [pyEq] at h2
      | obj e => simp [pyEq] at h2
    | null => simp [pyEq] at h1
    | str y => simp [pyEq] at h1
    | arr m => simp [pyEq] at h1
    | obj e => simp [pyEq] at h1
  | int k =>
    cases b with
    | bool y =>
      cases c with
      | bool z => cases y <;> cases z <;> simp_all [pyEq]
      | int n => cases y <;> simp_all [pyEq]
      | null => simp [pyEq] at h2
      | str s => simp [pyEq] at h2
      | arr m => simp [pyEq] at h2
      | obj e => simp [pyEq] at h2
    | int n => cases c <;> simp_all [pyEq]
    | null => simp [pyEq] at h1
    | str y => simp [pyEq] at h1
    | arr m => simp [pyEq] at h1
    | obj e => simp [pyEq] at h1
  | str x =>
    cases b with
    | str y => cases c <;> simp_all [pyEq]
    | null => simp [pyEq] at h1
    | bool y => simp [pyEq] at h1
    | int n => simp [pyEq] at h1
    | arr m => simp [pyEq] at h1
    | obj e => simp [pyEq] at h1
  | arr l =>
    cases b with
    | arr m =>
      cases c with
      | arr n =>
        simp only [pyEq] at h1 h2 ⊢
        exact pyEqList_trans l m n h1 h2
      | null => simp [pyEq] at h2
      | bool y => simp [pyEq] at h2
      | int k => simp [pyEq] at h2
      | str y => simp [pyEq] at h2
      | obj e => simp [pyEq] at h2
    | null => simp [pyEq] at h1
    | bool y => simp [pyEq] at h1
    | int n => simp [pyEq] at h1
    | str y => simp [pyEq] at h1
    | obj e => simp [pyEq] at h1
  | obj e => simp [pyEq] at h1
theorem pyEqList_trans (l m n : List JVal) (h1 : pyEqList l m = true)
    (h2 : pyEqList m n = true) : pyEqList l n = true := by
  cases l with
  | nil =>
    cases m with
    | nil => exact h2
    | cons y t => simp [pyEqList] at h1
  | cons x s =>
    cases m with
    | nil => simp [pyEqList] at h1
    | cons y t =>
      cases n with
      | nil => simp [pyEqList] at h2
      | cons z u =>
        rw [pyEqList, Bool.and_eq_true] at h1 h2 ⊢
        exact ⟨pyEq_trans x y z h1.1 h2.1, pyEqList_trans s t u h1.2 h2.2⟩
end

theorem pyEq_congr_left {a a' : JVal} (h : pyEq a a' = true) (c : JVal) :
    pyEq a c = pyEq a' c := by
  cases hac : pyEq a c with
  | true =>
    have ha'a : pyEq a' a = true := by rw [pyEq_symm]; exact h
    exact (pyEq_trans a' a c ha'a hac).symm
  | false =>
    cases hac' : pyEq a' c with
    | false => rfl
    | true =>
      have : pyEq a c = true := pyEq_trans a a' c h hac'
      rw [hac] at this
      cases this

theorem int_lt_antisym {x y : Int} (h : x ≠ y) : decide (y < x) = !decide (x < y) := by
  by_cases hxy : x < y
  · simp [hxy, show ¬(y < x) by omega]
  · simp [hxy, show y < x by omega]

theorem str_lt_antisym {x y : String} (h : ¬(x = y)) :
    decide (y < x) = !decide (x < y) := by
  by_cases hxy : x < y
  · simp [hxy, lt_asymm hxy]
  · have hyx : y < x := (lt_or_gt_of_ne h).resolve_left hxy
    simp [hxy, hyx]

mutual
theorem pyLt_antisym (a b : JVal) (h : pyEq a b = false) :
    pyLt b a = match pyLt a b with
      | .ok x => .ok (!x)
      | .error e => .error e := by
  cases a with
  | null => cases b <;> simp [pyLt]
  | bool x =>
    cases b with
    | bool y =>
      have hne : boolInt y ≠ boolInt x := by
        cases x <;> cases y <;> simp_all [pyEq, boolInt]
      simp only [pyLt]
      simp [int_lt_antisym hne]
    | int n =>
      have hne : n ≠ boolInt x := by
        cases x <;> simp_all [pyEq, boolInt] <;> omega
      simp only [pyLt]
      simp [int_lt_antisym hne]
    | null => simp [pyLt]
    | str y => simp [pyLt]
    | arr m => simp [pyLt]
    | obj e => simp [pyLt]
  | int k =>
    cases b with
    | bool y =>
      have hne : boolInt y ≠ k := by
        cases y <;> simp_all [pyEq, boolInt] <;> omega
      simp only [pyLt]
      simp [int_lt_antisym hne]
    | int n =>
      have hne : n ≠ k := by
        simp_all [pyEq]
        omega
      simp only [pyLt]
      simp [int_lt_antisym hne]
    | null => simp [pyLt]
    | str y => simp [pyLt]
    | arr m => simp [pyLt]
    | obj e => simp [pyLt]
  | str x =>
    cases b with
    | str y =>
      have hne : ¬(x = y) := by simpa [pyEq] using h
      simp only [pyLt]
      rw [str_lt_antisym hne]
    | null => simp [pyLt]
    | bool y => simp [pyLt]
    | int n => simp [pyLt]
    | arr m => simp [pyLt]
    | obj e => simp [pyLt]
  | arr l =>
    cases b with
    | arr m =>
      have h' : pyEqList l m = false := by simpa [pyEq] using h
      simp only [pyLt]
      exact pyLtList_antisym l m h'
    | null => simp [pyLt]
    | bool y => simp [pyLt]
    | int n => simp [pyLt]
    | str y => simp [pyLt]
    | obj e => simp [pyLt]
  | obj e => cases b <;> simp [pyLt]
theorem pyLtList_antisym (l m : List JVal) (h : pyEqList l m = false) :
    pyLtList m l = match pyLtList l m with
      | .ok x => .ok (!x)
      | .error e => .error e := by
  cases l with
  | nil =>
    cases m with
    | nil => simp [pyEqList] at h
    | cons y t => simp [pyLtList]
  | cons x s =>
    cases m with
    | nil => simp [pyLtList]
    | cons y t =>
      rw [pyEqList] at h
      cases hxy : pyEq x y with
      | true =>
        have ht : pyEqList s t = false := by
          rw [hxy] at h
          simpa using h
        have hyx : pyEq y x = true := by rw [pyEq_symm]; exact hxy
        simp only [pyLtList, hxy, hyx, if_true]
        exact pyLtList_antisym s t ht
      | false =>
        have hyx : pyEq y x = false := by rw [pyEq_symm]; exact hxy
        simp only [pyLtList, hxy, hyx, Bool.false_eq_true, if_false]
        exact pyLt_antisym x y hxy
end

mutual
theorem pyLt_congr_left (a a' c : JVal) (h : pyEq a a' = true) :
    pyLt a c = pyLt a' c := by
  cases a with
  | null =>
    cases a' with
    | null => rfl
    | bool y => simp [pyEq] at h
    | int n => simp [pyEq] at h
    | str y => simp [pyEq] at h
    | arr m => simp [pyEq] at h
    | obj e => simp [pyEq] at h
  | bool x =>
    cases a' with
    | bool y =>
      have hxy : x = y := by simpa [pyEq] using h
      rw [hxy]
    | int n =>
      have hn : boolInt x = n := by simpa [pyEq, boolInt] using h
      cases c <;> simp [pyLt, hn]
    | null => simp [pyEq] at h
    | str y => simp [pyEq] at h
    | arr m => simp [pyEq] at h
    | obj e => simp [pyEq] at h
  | int k =>
    cases a' with
    | bool y =>
      have hn : k = boolInt y := by simpa [pyEq, boolInt] using h
      cases c <;> simp [pyLt, hn]
    | int n =>
      have hn : k = n := by simpa [pyEq] using h
      rw [hn]
    | null => simp [pyEq] at h
    | str y => simp [pyEq] at h
    | arr m => simp [pyEq] at h
    | obj e => simp [pyEq] at h
  | str x =>
    cases a' with
    | str y =>
      have hxy : x = y := by simpa [pyEq] using h
      rw [hxy]
    | null => simp [pyEq] at h
    | bool y => simp [pyEq] at h
    | int n => simp [pyEq] at h
    | arr m => simp [pyEq] at h
    | obj e => simp [pyEq] at h
  | arr l =>
    cases a' with
    | arr m =>
      have h' : pyEqList l m = true := by simpa [pyEq] using h
      cases c with
      | arr n =>
        simp only [pyLt]
        exact pyLtList_congr_left l m n h'
      | null => simp [pyLt]
      | bool y => simp [pyLt]
      | int k => simp [pyLt]
      | str y => simp [pyLt]
      | obj e => simp [pyLt]
    | null => simp [pyEq] at h
    | bool y => simp [pyEq] at h
    | int n => simp [pyEq] at h
    | str y => simp [pyEq] at h
    | obj e => simp [pyEq] at h
  | obj e => simp [pyEq] at h
theorem pyLtList_congr_left (l l' m : List JVal) (h : pyEqList l l' = true) :
    pyLtList l m = pyLtList l' m := by
  cases l with
  | nil =>
    cases l' with
    | nil => rfl
    | cons y t => simp [pyEqList] at h
  | cons x s =>
    cases l' with
    | nil => simp [pyEqList] at h
    | cons x' s' =>
      rw [pyEqList, Bool.and_eq_true] at h
      cases m with
      | nil => simp [pyLtList]
      | cons y t =>
        have hcond : pyEq x y = pyEq x' y := pyEq_congr_left h.1 y
        cases hxy : pyEq x y with
        | true =>
          have hx'y : pyEq x' y = true := by rw [← hcond]; exact hxy
          simp only [pyLtList, hxy, hx'y, if_true]
          exact pyLtList_congr_left s s' t h.2
        | false =>
          have hx'y : pyEq x' y = false := by rw [← hcond]; exact hxy
          simp only [pyLtList, hxy, hx'y, Bool.false_eq_true, if_false]
          exact pyLt_congr_left x x' y h.1
end

theorem pyEq_congr_right (c : JVal) {a a' : JVal} (h : pyEq a a' = true) :
    pyEq c a = pyEq c a' := by
  rw [pyEq_symm c a, pyEq_symm c a']
  exact pyEq_congr_left h c

mutual
theorem pyLt_congr_right (c a a' : JVal) (h : pyEq a a' = true) :
    pyLt c a = pyLt c a' := by
  cases a with
  | null =>
    cases a' with
    | null => rfl
    | bool y => simp [pyEq] at h
    | int n => simp [pyEq] at h
    | str y => simp [pyEq] at h
    | arr m => simp [pyEq] at h
    | obj e => simp [pyEq] at h
  | bool x =>
    cases a' with
    | bool y =>
      have hxy : x = y := by simpa [pyEq] using h
      rw [hxy]
    | int n =>
      have hn : boolInt x = n := by simpa [pyEq, boolInt] using h
      cases c <;> simp [pyLt, ← hn]
    | null => simp [pyEq] at h
    | str y => simp [pyEq] at h
    | arr m => simp [pyEq] at h
    | obj e => simp [pyEq] at h
  | int k =>
    cases a' with
    | bool y =>
      have hn : k = boolInt y := by simpa [pyEq, boolInt] using h
      cases c <;> simp [pyLt, hn]
    | int n =>
      have hn : k = n := by simpa [pyEq] using h
      rw [hn]
    | null => simp [pyEq] at h
    | str y => simp [pyEq] at h
    | arr m => simp [pyEq] at h
    | obj e => simp [pyEq] at h
  | str x =>
    cases a' with
    | str y =>
      have hxy : x = y := by simpa [pyEq] using h
      rw [hxy]
    | null => simp [pyEq] at h
    | bool y => simp [pyEq] at h
    | int n => simp [pyEq] at h
    | arr m => simp [pyEq] at h
    | obj e => simp [pyEq] at h
  | arr l =>
    cases a' with
    | arr m =>
      have h' : pyEqList l m = true := by simpa [pyEq] using h
      cases c with
      | arr n =>
        simp only [pyLt]
        exact pyLtList_congr_right n l m h'
      | null => simp [pyLt]
      | bool y => simp [pyLt]
      | int k => simp [pyLt]
      | str y => simp [pyLt]
      | obj e => simp [pyLt]
    | null => simp [pyEq] at h
    | bool y => simp [pyEq] at h
    | int n => simp [pyEq] at h
    | str y => simp [pyEq] at h
    | obj e => simp [pyEq] at h
  | obj e => simp [pyEq] at h
theorem pyLtList_congr_right (m l l' : List JVal) (h : pyEqList l l' = true) :
    pyLtList m l = pyLtList m l' := by
  cases l with
  | nil =>
    cases l' with
    | nil => rfl
    | cons y t => simp [pyEqList] at h
  | cons x s =>
    cases l' with
    | nil => simp [pyEqList] at h
    | cons x' s' =>
      rw [pyEqList, Bool.and_eq_true] at h
      cases m with
      | nil => simp [pyLtList]
      | cons y t =>
        have hcond : pyEq y x = pyEq y x' := pyEq_congr_right y h.1
        cases hyx : pyEq y x with
        | true =>
          have hyx' : pyEq y x' = true := by rw [← hcond]; exact hyx
          simp only [pyLtList, hyx, hyx', if_true]
          exact pyLtList_congr_right t s s' h.2
        | false =>
          have hyx' : pyEq y x' = false := by rw [← hcond]; exact hyx
          simp only [pyLtList, hyx, hyx', Bool.false_eq_true, if_false]
          exact pyLt_congr_right y x x' h.1
end

mutual
theorem pyLt_trans (a b c : JVal) (h1 : pyLt a b = .ok true) (h2 : pyLt b c = .ok true)
    {x : Bool} (h3 : pyLt a c = .ok x) : x = true := by
  cases a with
  | null => simp [pyLt] at h1
  | bool xa =>
    cases b with
    | bool yb =>
      cases c with
      | bool zc =>
        simp only [pyLt] at h1 h2 h3
        rw [← Except.ok.inj h3]
        exact decide_eq_true (lt_trans (of_decide_eq_true (Except.ok.inj h1))
          (of_decide_eq_true (Except.ok.inj h2)))
      | int n =>
        simp only [pyLt] at h1 h2 h3
        rw [← Except.ok.inj h3]
        exact decide_eq_true (lt_trans (of_decide_eq_true (Except.ok.inj h1))
          (of_decide_eq_true (Except.ok.inj h2)))
      | null => simp [pyLt] at h3
      | str y => simp [pyLt] at h3
      | arr m => simp [pyLt] at h3
      | obj e => simp [pyLt] at h3
    | int nb =>
      cases c with
      | bool zc =>
        simp only [pyLt] at h1 h2 h3
        rw [← Except.ok.inj h3]
        exact decide_eq_true (lt_trans (of_decide_eq_true (Except.ok.inj h1))
          (of_decide_eq_true (Except.ok.inj h2)))
      | int n =>
        simp only [pyLt] at h1 h2 h3
        rw [← Except.ok.inj h3]
        exact decide_eq_true (lt_trans (of_decide_eq_true (Except.ok.inj h1))
          (of_decide_eq_true (Except.ok.inj h2)))
      | null => simp [pyLt] at h3
      | str y => simp [pyLt] at h3
      | arr m => simp [pyLt] at h3
      | obj e => simp [pyLt] at h3
    | null => simp [pyLt] at h1
    | str y => simp [pyLt] at h1
    | arr m => simp [pyLt] at h1
    | obj e => simp [pyLt] at h1
  | int ka =>
    cases b with
    | bool yb =>
      cases c with
      | bool zc =>
        simp only [pyLt] at h1 h2 h3
        rw [← Except.ok.inj h3]
        exact decide_eq_true (lt_trans (of_decide_eq_true (Except.ok.inj h1))
          (of_decide_eq_true (Except.ok.inj h2)))
      | int n =>
        simp only [pyLt] at h1 h2 h3
        rw [← Except.ok.inj h3]
        exact decide_eq_true (lt_trans (of_decide_eq_true (Except.ok.inj h1))
          (of_decide_eq_true (Except.ok.inj h2)))
      | null => simp [pyLt] at h3
      | str y => simp [pyLt] at h3
      | arr m => simp [pyLt] at h3
      | obj e => simp [pyLt] at h3
    | int nb =>
      cases c with
      | bool zc =>
        simp only [pyLt] at h1 h2 h3
        rw [← Except.ok.inj h3]
        exact decide_eq_true (lt_trans (of_decide_eq_true (Except.ok.inj h1))
          (of_decide_eq_true (Except.ok.inj h2)))
      | int n =>
        simp only [pyLt] at h1 h2 h3
        rw [← Except.ok.inj h3]
        exact decide_eq_true (lt_trans (of_decide_eq_true (Except.ok.inj h1))
          (of_decide_eq_true (Except.ok.inj h2)))
      | null => simp [pyLt] at h3
      | str y => simp [pyLt] at h3
      | arr m => simp [pyLt] at h3
      | obj e => simp [pyLt] at h3
    | null => simp [pyLt] at h1
    | str y => simp [pyLt] at h1
    | arr m => simp [pyLt] at h1
    | obj e => simp [pyLt] at h1
  | str sa =>
    cases b with
    | str sb =>
      cases c with
      | str sc =>
        simp only [pyLt] at h1 h2 h3
        rw [← Except.ok.inj h3]
        exact decide_eq_true (lt_trans (of_decide_eq_true (Except.ok.inj h1))
          (of_decide_eq_true (Except.ok.inj h2)))
      | null => simp [pyLt] at h3
      | bool y => simp [pyLt] at h3
      | int n => simp [pyLt] at h3
      | arr m => simp [pyLt] at h3
      | obj e => simp [pyLt] at h3
    | null => simp [pyLt] at h1
    | bool y => simp [pyLt] at h1
    | int n => simp [pyLt] at h1
    | arr m => simp [pyLt] at h1
    | obj e => simp [pyLt] at h1
  | arr la =>
    cases b with
    | arr mb =>
      cases c with
      | arr nc =>
        simp only [pyLt] at h1 h2 h3
        exact pyLtList_trans la mb nc h1 h2 h3
      | null => simp [pyLt] at h3
      | bool y => simp [pyLt] at h3
      | int n => simp [pyLt] at h3
      | str y => simp [pyLt] at h3
      | obj e => simp [pyLt] at h3
    | null => simp [pyLt] at h1
    | bool y => simp [pyLt] at h1
    | int n => simp [pyLt] at h1
    | str y => simp [pyLt] at h1
    | obj e => simp [pyLt] at h1
  | obj e => simp [pyLt] at h1
theorem pyLtList_trans (l m n : List JVal) (h1 : pyLtList l m = .ok true)
    (h2 : pyLtList m n = .ok true) {x : Bool} (h3 : pyLtList l n = .ok x) : x = true := by
  cases l with
  | nil =>
    cases n with
    | nil =>
      cases m with
      | nil => simp [pyLtList] at h1
      | cons y t => simp [pyLtList] at h2
    | cons z u =>
      rw [pyLtList] at h3
      cases h3
      rfl
  | cons a s =>
    cases m with
    | nil => simp [pyLtList] at h1
    | cons b t =>
      cases n with
      | nil => simp [pyLtList] at h2
      | cons c u =>
        rw [pyLtList] at h1 h2 h3
        cases hab : pyEq a b with
        | true =>
          simp only [hab, if_true] at h1
          have hcong : pyEq a c = pyEq b c := pyEq_congr_left hab c
          cases hbc : pyEq b c with
          | true =>
            simp only [hbc, if_true] at h2
            have hac : pyEq a c = true := by rw [hcong]; exact hbc
            simp only [hac, if_true] at h3
            exact pyLtList_trans s t u h1 h2 h3
          | false =>
            simp only [hbc, Bool.false_eq_true, if_false] at h2
            have hac : pyEq a c = false := by rw [hcong]; exact hbc
            simp only [hac, Bool.false_eq_true, if_false] at h3
            have hlt : pyLt a c = pyLt b c := pyLt_congr_left a b c hab
            rw [hlt, h2] at h3
            cases h3
            rfl
        | false =>
          simp only [hab, Bool.false_eq_true, if_false] at h1
          cases hbc : pyEq b c with
          | true =>
            have hac : pyEq a c = false := by
              rw [← pyEq_congr_right a hbc]
              exact hab
            simp only [hac, Bool.false_eq_true, if_false] at h3
            have hlt : pyLt a c = pyLt a b := (pyLt_congr_right a b c hbc).symm
            rw [hlt, h1] at h3
            cases h3
            rfl
          | false =>
            simp only [hbc, Bool.false_eq_true, if_false] at h2
            cases hac : pyEq a c with
            | true =>
              have e1 : pyLt a b = pyLt c b := pyLt_congr_left a c b hac
              have e2 : pyLt c b = match pyLt b c with
                  | .ok x => .ok (!x)
                  | .error e => .error e := pyLt_antisym b c hbc
              rw [h2] at e2
              rw [e1, e2] at h1
              cases h1
            | false =>
              simp only [hac, Bool.false_eq_true, if_false] at h3
              exact pyLt_trans a b c h1 h2 h3
end

theorem tag_eq_of_not_lt {s t : String} (h1 : ¬s < t) (h2 : ¬t < s) : s = t :=
  le_antisymm (not_lt.mp h2) (not_lt.mp h1)

theorem tcmp_swap (a b : JVal) :
    tcmp b a = match tcmp a b with
      | .ok .lt => .ok .gt
      | .ok .gt => .ok .lt
      | .ok .eq => .ok .eq
      | .error e => .error e := by
  unfold tcmp
  by_cases h1 : tagOf a < tagOf b
  · have h2 : ¬(tagOf b < tagOf a) := lt_asymm h1
    simp [h1, h2]
  · by_cases h2 : tagOf b < tagOf a
    · simp [h1, h2]
    · rw [pyEq_symm b a]
      cases hq : pyEq a b with
      | true => simp [h1, h2, hq]
      | false =>
        have hanti := pyLt_antisym a b hq
        cases hlt : pyLt a b with
        | ok v =>
          rw [hlt] at hanti
          cases v <;> simp [h1, h2, hq, hanti, hlt]
        | error e =>
          rw [hlt] at hanti
          simp [h1, h2, hq, hanti, hlt]

theorem tcmp_eq_inv {a b : JVal} (h : tcmp a b = .ok .eq) : pyEq a b = true := by
  unfold tcmp at h
  by_cases h1 : tagOf a < tagOf b
  · simp [h1] at h
  · by_cases h2 : tagOf b < tagOf a
    · simp [h1, h2] at h
    · cases hq : pyEq a b with
      | true => rfl
      | false =>
        simp only [h1, h2, hq, Bool.false_eq_true, if_false] at h
        cases hlt : pyLt a b with
        | ok v => rw [hlt] at h; cases v <;> simp at h
        | error e => rw [hlt] at h; cases h

theorem tcmp_refl {a : JVal} (h : childOk a = true) : tcmp a a = .ok .eq := by
  unfold tcmp
  simp [lt_irrefl, pyEq_refl a h]

theorem tcmp_lt_tag_or_val {a b : JVal} (h : tcmp a b = .ok .lt) :
    tagOf a < tagOf b ∨
      (¬tagOf a < tagOf b ∧ ¬tagOf b < tagOf a ∧
        pyEq a b = false ∧ pyLt a b = .ok true) := by
  unfold tcmp at h
  by_cases h1 : tagOf a < tagOf b
  · exact Or.inl h1
  · by_cases h2 : tagOf b < tagOf a
    · simp [h1, h2] at h
    · cases hq : pyEq a b with
      | true => simp [h1, h2, hq] at h
      | false =>
        cases hlt : pyLt a b with
        | ok v =>
          cases v with
          | true => exact Or.inr ⟨h1, h2, rfl, rfl⟩
          | false => simp [h1, h2, hq, hlt] at h
        | error e => simp [h1, h2, hq, hlt] at h

theorem tcmp_trans {a b c : JVal} (h1 : tcmp a b = .ok .lt) (h2 : tcmp b c = .ok .lt)
    (hok : exceptOk (tcmp a c) = true) : tcmp a c = .ok .lt := by
  rcases tcmp_lt_tag_or_val h1 with ht1 | ⟨hn1, hn1', hq1, hl1⟩
  · rcases tcmp_lt_tag_or_val h2 with ht2 | ⟨hn2, hn2', hq2, hl2⟩
    · have hat : tagOf a < tagOf c := lt_trans ht1 ht2
      unfold tcmp
      simp [hat]
    · have hbc : tagOf b = tagOf c := tag_eq_of_not_lt hn2 hn2'
      have hat : tagOf a < tagOf c := hbc ▸ ht1
      unfold tcmp
      simp [hat]
  · have hab : tagOf a = tagOf b := tag_eq_of_not_lt hn1 hn1'
    rcases tcmp_lt_tag_or_val h2 with ht2 | ⟨hn2, hn2', hq2, hl2⟩
    · have hat : tagOf a < tagOf c := hab ▸ ht2
      unfold tcmp
      simp [hat]
    · have hbc : tagOf b = tagOf c := tag_eq_of_not_lt hn2 hn2'
      have hac : tagOf a = tagOf c := hab.trans hbc
      have hnac : ¬tagOf a < tagOf c := by rw [hac]; exact lt_irrefl _
      have hnca : ¬tagOf c < tagOf a := by rw [hac]; exact lt_irrefl _
      have hqac : pyEq a c = false := by
        cases hqac : pyEq a c with
        | false => rfl
        | true =>
          have e1 : pyLt a b = pyLt c b := pyLt_congr_left a c b hqac
          have e2 : pyLt c b = match pyLt b c with
              | .ok x => .ok (!x)
              | .error e => .error e := pyLt_antisym b c hq2
          rw [hl2] at e2
          rw [e1, e2] at hl1
          cases hl1
      unfold tcmp at hok ⊢
      simp only [hnac, hnca, hqac, Bool.false_eq_true, if_false] at hok ⊢
      cases hlac : pyLt a c with
      | error e => rw [hlac] at hok; simp [exceptOk] at hok
      | ok v =>
        have hv := pyLt_trans a b c hl1 hl2 hlac
        rw [hv]
        simp

/-!  ### A stable insertion sort: generic laws  -/

theorem insertLe_perm {α : Type} (le : α → α → Bool) (a : α) (l : List α) :
    List.Perm (insertLe le a l) (a :: l) := by
  induction l with
  | nil => exact List.Perm.refl _
  | cons b t ih =>
    rw [insertLe]
    by_cases h : le a b = true
    · rw [if_pos h]
    · rw [if_neg h]
      exact (ih.cons b).trans (List.Perm.swap a b t)

theorem isortLe_perm {α : Type} (le : α → α → Bool) (l : List α) :
    List.Perm (isortLe le l) l := by
  induction l with
  | nil => exact List.Perm.refl _
  | cons a t ih =>
    rw [isortLe]
    exact (insertLe_perm le a (isortLe le t)).trans (ih.cons a)

theorem insertLe_comm {α : Type} (le : α → α → Bool) (S : α → Prop)
    (htot : ∀ x y, S x → S y → le x y = true ∨ le y x = true)
    (htrans : ∀ x y z, S x → S y → S z →
      le x y = true → le y z = true → le x z = true)
    (hanti : ∀ x y, S x → S y → le x y = true → le y x = true → x = y)
    (a b : α) (ha : S a) (hb : S b) :
    ∀ (l : List α), (∀ z ∈ l, S z) →
      insertLe le a (insertLe le b l) = insertLe le b (insertLe le a l) := by
  intro l
  induction l with
  | nil =>
    intro _
    by_cases hab : le a b = true
    · by_cases hba : le b a = true
      · have hEq : a = b := hanti a b ha hb hab hba
        subst hEq
        rfl
      · show insertLe le a [b] = insertLe le b [a]
        rw [insertLe, if_pos hab, insertLe, if_neg hba, insertLe]
    · have hba : le b a = true := (htot a b ha hb).resolve_left hab
      show insertLe le a [b] = insertLe le b [a]
      rw [insertLe, if_neg hab, insertLe, insertLe, if_pos hba]
  | cons c t ih =>
    intro hS
    have hc : S c := hS c (List.mem_cons_self _ _)
    have ht : ∀ z ∈ t, S z := fun z hz => hS z (List.mem_cons_of_mem _ hz)
    by_cases hbc : le b c = true
    · have e1 : insertLe le b (c :: t) = b :: c :: t := by
        rw [insertLe, if_pos hbc]
      by_cases hac : le a c = true
      · have e2 : insertLe le a (c :: t) = a :: c :: t := by
          rw [insertLe, if_pos hac]
        rw [e1, e2]
        by_cases hab : le a b = true
        · by_cases hba : le b a = true
          · have hEq : a = b := hanti a b ha hb hab hba
            subst hEq
            rfl
          · rw [insertLe, if_pos hab, insertLe, if_neg hba, e1]
        · have hba : le b a = true := (htot a b ha hb).resolve_left hab
          rw [insertLe, if_neg hab, e2, insertLe, if_pos hba]
      · have hca : le c a = true := (htot a c ha hc).resolve_left hac
        have hab : ¬le a b = true := fun hh => hac (htrans a b c ha hb hc hh hbc)
        have e2 : insertLe le a (c :: t) = c :: insertLe le a t := by
          rw [insertLe, if_neg hac]
        rw [e1, e2]
        rw [insertLe, if_neg hab, insertLe, if_neg hac, insertLe, if_pos hbc]
    · have hcb : le c b = true := (htot b c hb hc).resolve_left hbc
      have e1 : insertLe le b (c :: t) = c :: insertLe le b t := by
        rw [insertLe, if_neg hbc]
      by_cases hac : le a c = true
      · have hba : ¬le b a = true := fun hh => hbc (htrans b a c hb ha hc hh hac)
        have e2 : insertLe le a (c :: t) = a :: c :: t := by
          rw [insertLe, if_pos hac]
        rw [e1, e2]
        rw [insertLe, if_pos hac, insertLe, if_neg hba, insertLe, if_neg hbc]
      · have e2 : insertLe le a (c :: t) = c :: insertLe le a t := by
          rw [insertLe, if_neg hac]
        rw [e1, e2]
        rw [insertLe, if_neg hac, insertLe, if_neg hbc, ih ht]

theorem isortLe_congr_perm {α : Type} (le : α → α → Bool) (S : α → Prop)
    (htot : ∀ x y, S x → S y → le x y = true ∨ le y x = true)
    (htrans : ∀ x y z, S x → S y → S z →
      le x y = true → le y z = true → le x z = true)
    (hanti : ∀ x y, S x → S y → le x y = true → le y x = true → x = y) :
    ∀ {l₁ l₂ : List α}, List.Perm l₁ l₂ → (∀ z ∈ l₁, S z) →
      isortLe le l₁ = isortLe le l₂ := by
  intro l₁ l₂ hp
  induction hp with
  | nil => intro _; rfl
  | cons x hp ih =>
    intro hS
    rw [isortLe, isortLe,
      ih fun z hz => hS z (List.mem_cons_of_mem _ hz)]
  | swap x y l =>
    intro hS
    have hx : S x := hS x (List.mem_cons_of_mem _ (List.mem_cons_self _ _))
    have hy : S y := hS y (List.mem_cons_self _ _)
    have hl : ∀ z ∈ isortLe le l, S z := by
      intro z hz
      exact hS z (List.mem_cons_of_mem _ (List.mem_cons_of_mem _
        ((isortLe_perm le l).subset hz)))
    show insertLe le y (insertLe le x (isortLe le l)) =
      insertLe le x (insertLe le y (isortLe le l))
    exact insertLe_comm le S htot htrans hanti y x hy hx (isortLe le l) hl
  | trans h12 h23 ih12 ih23 =>
    intro hS
    exact (ih12 hS).trans (ih23 fun z hz => hS z (h12.symm.subset hz))

/-!  ### Harmless sort keys: the tie-free comparability layer  -/

mutual

theorem beq_refl (a : JVal) : JVal.beq a a = true := by
  cases a with
  | null => simp [JVal.beq]
  | bool b => simp [JVal.beq]
  | int n => simp [JVal.beq]
  | str s => simp [JVal.beq]
  | arr l => simp only [JVal.beq]; exact beqList_refl l
  | obj es => simp only [JVal.beq]; exact beqEntries_refl es

theorem beqList_refl (l : List JVal) : JVal.beqList l l = true := by
  cases l with
  | nil => simp [JVal.beqList]
  | cons a t =>
    simp only [JVal.beqList, Bool.and_eq_true]
    exact ⟨beq_refl a, beqList_refl t⟩

theorem beqEntries_refl (es : List (String × JVal)) : JVal.beqEntries es es = true := by
  cases es with
  | nil => simp [JVal.beqEntries]
  | cons kv t =>
    obtain ⟨k, v⟩ := kv
    simp only [JVal.beqEntries, Bool.and_eq_true]
    exact ⟨⟨by simp, beq_refl v⟩, beqEntries_refl t⟩

end

theorem goodPair_comparable {a b : JVal} (h : goodPair a b = true) :
    (tcmp a b).isOk = true := by
  cases ht : tcmp a b with
  | error e => simp only [goodPair, ht] at h; exact Bool.noConfusion h
  | ok o => rfl

theorem goodPair_tie_eq {a b : JVal} (h : goodPair a b = true)
    (he : tcmp a b = .ok .eq) : a = b := by
  rw [goodPair] at h
  simp only [he] at h
  exact beq_eq a b h

theorem goodPair_refl {a : JVal} (h : childOk a = true) : goodPair a a = true := by
  rw [goodPair]
  simp only [tcmp_refl h]
  exact beq_refl a

theorem goodPair_symm {a b : JVal} (h : goodPair a b = true) :
    goodPair b a = true := by
  cases ht : tcmp a b with
  | error e => simp only [goodPair, ht] at h; exact Bool.noConfusion h
  | ok o =>
    cases o with
    | eq =>
      have hab : a = b := goodPair_tie_eq h ht
      subst hab
      exact h
    | lt => rw [goodPair, tcmp_swap a b]; simp only [ht]
    | gt => rw [goodPair, tcmp_swap a b]; simp only [ht]

theorem goodPairsB_all {m : List JVal} (hg : goodPairsB m = true)
    (hc : ∀ x ∈ m, childOk x = true) :
    ∀ x ∈ m, ∀ y ∈ m, goodPair x y = true := by
  induction m with
  | nil => intro x hx; cases hx
  | cons a t ih =>
    simp only [goodPairsB, Bool.and_eq_true, List.all_eq_true] at hg
    obtain ⟨hall, hgt⟩ := hg
    intro x hx y hy
    rcases List.mem_cons.mp hx with hxa | hxt
    · rcases List.mem_cons.mp hy with hya | hyt
      · rw [hxa, hya]
        exact goodPair_refl (hc a (List.mem_cons_self a t))
      · rw [hxa]
        exact hall y hyt
    · rcases List.mem_cons.mp hy with hya | hyt
      · rw [hya]
        exact goodPair_symm (hall x hxt)
      · exact ih hgt (fun z hz => hc z (List.mem_cons_of_mem a hz)) x hxt y hyt

theorem pairsComparableB_of_all {m : List JVal}
    (h : ∀ x ∈ m, ∀ y ∈ m, (tcmp x y).isOk = true) :
    pairsComparableB m = true := by
  induction m with
  | nil => rfl
  | cons a t ih =>
    rw [pairsComparableB, Bool.and_eq_true]
    constructor
    · rw [List.all_eq_true]
      intro x hx
      exact h a (List.mem_cons_self a t) x (List.mem_cons_of_mem a hx)
    · exact ih fun x hx y hy =>
        h x (List.mem_cons_of_mem a hx) y (List.mem_cons_of_mem a hy)

theorem sortKeyLe_total {a b : JVal} (h : goodPair a b = true) :
    sortKeyLe a b = true ∨ sortKeyLe b a = true := by
  cases ht : tcmp a b with
  | error e => simp only [goodPair, ht] at h; exact Bool.noConfusion h
  | ok o =>
    cases o with
    | lt => left; rw [sortKeyLe]; simp only [ht]
    | eq => left; rw [sortKeyLe]; simp only [ht]
    | gt => right; rw [sortKeyLe, tcmp_swap a b]; simp only [ht]

theorem sortKeyLe_trans_good {a b c : JVal}
    (hab : goodPair a b = true) (hbc : goodPair b c = true)
    (hac : goodPair a c = true)
    (h1 : sortKeyLe a b = true) (h2 : sortKeyLe b c = true) :
    sortKeyLe a c = true := by
  cases htab : tcmp a b with
  | error e => simp only [goodPair, htab] at hab; exact Bool.noConfusion hab
  | ok o =>
    cases o with
    | gt => simp only [sortKeyLe, htab] at h1; exact Bool.noConfusion h1
    | eq =>
      have hEq : a = b := goodPair_tie_eq hab htab
      subst hEq
      exact h2
    | lt =>
      cases htbc : tcmp b c with
      | error e => simp only [goodPair, htbc] at hbc; exact Bool.noConfusion hbc
      | ok o2 =>
        cases o2 with
        | gt => simp only [sortKeyLe, htbc] at h2; exact Bool.noConfusion h2
        | eq =>
          have hEq : b = c := goodPair_tie_eq hbc htbc
          subst hEq
          exact h1
        | lt =>
          have hok : exceptOk (tcmp a c) = true := by
            cases htac : tcmp a c with
            | error e =>
              simp only [goodPair, htac] at hac
              exact Bool.noConfusion hac
            | ok _ => rfl
          have hlt := tcmp_trans htab htbc hok
          simp only [sortKeyLe, hlt]

theorem sortKeyLe_antisymm_good {a b : JVal}
    (hab : goodPair a b = true)
    (h1 : sortKeyLe a b = true) (h2 : sortKeyLe b a = true) : a = b := by
  cases ht : tcmp a b with
  | error e => simp only [goodPair, ht] at hab; exact Bool.noConfusion hab
  | ok o =>
    cases o with
    | eq => exact goodPair_tie_eq hab ht
    | lt =>
      rw [sortKeyLe, tcmp_swap a b] at h2
      simp only [ht] at h2
      exact Bool.noConfusion h2
    | gt =>
      simp only [sortKeyLe, ht] at h1
      exact Bool.noConfusion h1

theorem childOkList_forall {l : List JVal} :
    childOkList l = true ↔ ∀ x ∈ l, childOk x = true := by
  induction l with
  | nil => simp [childOkList]
  | cons a t ih =>
    simp only [childOkList, Bool.and_eq_true]
    constructor
    · rintro ⟨h1, h2⟩ x hx
      rcases List.mem_cons.mp hx with hxa | hx
      · subst hxa; exact h1
      · exact ih.mp h2 x hx
    · intro h
      exact ⟨h a (List.mem_cons_self a t),
        ih.mpr fun x hx => h x (List.mem_cons_of_mem a hx)⟩

/-!  ### The rewriting leaves only dict-free values behind  -/

mutual

theorem substElem_childOk (sl : Bool) (v v' : JVal)
    (h : substElem sl v = .ok v') : childOk v' = true := by
  cases v with
  | obj es =>
    cases hd : hashDict sl es with
    | error e =>
      simp only [substElem, hd] at h
      exact Except.noConfusion h
    | ok hh =>
      simp only [substElem, hd] at h
      rw [← Except.ok.inj h]
      simp [childOk]
  | arr l =>
    cases hl : substL sl l with
    | error e =>
      simp only [substElem, sortListF, hl] at h
      exact Except.noConfusion h
    | ok lm =>
      have hcl : childOkList lm = true := substL_childOk sl l lm hl
      cases hs : sortListF sl l with
      | error e =>
        simp only [substElem, hs] at h
        exact Except.noConfusion h
      | ok l₂ =>
        simp only [substElem, hs] at h
        rw [← Except.ok.inj h]
        have h2 : childOkList l₂ = true := by
          simp only [sortListF, hl] at hs
          cases hsl : sl with
          | false =>
            rw [hsl, if_neg Bool.false_ne_true] at hs
            rw [← Except.ok.inj hs]
            exact hcl
          | true =>
            rw [hsl, if_pos rfl, pySorted] at hs
            cases hpc : pairsComparableB lm with
            | false =>
              rw [hpc, if_neg Bool.false_ne_true] at hs
              exact Except.noConfusion hs
            | true =>
              rw [if_pos hpc] at hs
              rw [← Except.ok.inj hs]
              exact childOkList_forall.mpr fun x hx =>
                childOkList_forall.mp hcl x
                  ((isortLe_perm sortKeyLe lm).subset hx)
        simp only [childOk]
        exact h2
  | null =>
    simp only [substElem] at h
    rw [← Except.ok.inj h]
    simp [childOk]
  | bool b =>
    simp only [substElem] at h
    rw [← Except.ok.inj h]
    simp [childOk]
  | int n =>
    simp only [substElem] at h
    rw [← Except.ok.inj h]
    simp [childOk]
  | str s =>
    simp only [substElem] at h
    rw [← Except.ok.inj h]
    simp [childOk]

theorem substL_childOk (sl : Bool) (l l' : List JVal)
    (h : substL sl l = .ok l') : childOkList l' = true := by
  cases l with
  | nil =>
    simp only [substL] at h
    rw [← Except.ok.inj h]
    simp [childOkList]
  | cons v t =>
    cases hv : substElem sl v with
    | error e =>
      simp only [substL, hv] at h
      exact Except.noConfusion h
    | ok v₂ =>
      cases ht : substL sl t with
      | error e =>
        simp only [substL, hv, ht] at h
        exact Except.noConfusion h
      | ok t₂ =>
        simp only [substL, hv, ht] at h
        rw [← Except.ok.inj h]
        simp only [childOkList, Bool.and_eq_true]
        exact ⟨substElem_childOk sl v v₂ hv, substL_childOk sl t t₂ ht⟩

end

/-!  ### The modelled CPython sort is permutation-congruent on good lists  -/

theorem pySorted_congr {m₁ m₂ : List JVal} (hp : List.Perm m₁ m₂)
    (hg : goodPairsB m₁ = true) (hc : ∀ x ∈ m₁, childOk x = true) :
    pySorted m₁ = pySorted m₂ := by
  have hrel := goodPairsB_all hg hc
  have hrel₂ : ∀ x ∈ m₂, ∀ y ∈ m₂, goodPair x y = true :=
    fun x hx y hy => hrel x (hp.symm.subset hx) y (hp.symm.subset hy)
  have hcmp₁ : pairsComparableB m₁ = true :=
    pairsComparableB_of_all fun x hx y hy => goodPair_comparable (hrel x hx y hy)
  have hcmp₂ : pairsComparableB m₂ = true :=
    pairsComparableB_of_all fun x hx y hy => goodPair_comparable (hrel₂ x hx y hy)
  rw [pySorted, pySorted, if_pos hcmp₁, if_pos hcmp₂]
  have hsort := isortLe_congr_perm sortKeyLe (fun z => z ∈ m₁)
    (fun x y hx hy => sortKeyLe_total (hrel x hx y hy))
    (fun x y z hx hy hz =>
      sortKeyLe_trans_good (hrel x hx y hy) (hrel y hy z hz) (hrel x hx z hz))
    (fun x y hx hy => sortKeyLe_antisymm_good (hrel x hx y hy))
    hp (fun z hz => hz)
  rw [hsort]

theorem substL_perm_ok (sl : Bool) :
    ∀ {l l' : List JVal}, List.Perm l l' → ∀ {r : List JVal},
      substL sl l = .ok r →
      ∃ r', substL sl l' = .ok r' ∧ List.Perm r r' := by
  intro l l' hp
  induction hp with
  | nil =>
    intro r h
    exact ⟨r, h, List.Perm.refl r⟩
  | cons x hp ih =>
    rename_i t₁ t₂
    intro r h
    cases he : substElem sl x with
    | error e =>
      simp only [substL, he] at h
      exact Except.noConfusion h
    | ok v =>
      cases ht : substL sl t₁ with
      | error e =>
        simp only [substL, he, ht] at h
        exact Except.noConfusion h
      | ok t₁ =>
        simp only [substL, he, ht] at h
        obtain ⟨t₂, h2, hp2⟩ := ih ht
        refine ⟨v :: t₂, ?_, ?_⟩
        · simp only [substL, he, h2]
        · rw [← Except.ok.inj h]
          exact hp2.cons v
  | swap x y t =>
    intro r h
    cases hy : substElem sl y with
    | error e =>
      simp only [substL, hy] at h
      exact Except.noConfusion h
    | ok vy =>
      cases hx : substElem sl x with
      | error e =>
        simp only [substL, hy, hx] at h
        exact Except.noConfusion h
      | ok vx =>
        cases ht : substL sl t with
        | error e =>
          simp only [substL, hy, hx, ht] at h
          exact Except.noConfusion h
        | ok t' =>
          simp only [substL, hy, hx, ht] at h
          refine ⟨vx :: vy :: t', ?_, ?_⟩
          · simp only [substL, hy, hx, ht]
          · rw [← Except.ok.inj h]
            exact List.Perm.swap vx vy t'
  | trans h12 h23 ih12 ih23 =>
    intro r h
    obtain ⟨r₂, h2, hp12⟩ := ih12 h
    obtain ⟨r₃, h3, hp23⟩ := ih23 h2
    exact ⟨r₃, h3, hp12.trans hp23⟩

/-!  ### json_hash respects sequence permutation on good trees  -/

theorem sizeOf_snd_lt_of_mem {k : String} {v : JVal}
    {es : List (String × JVal)} (h : (k, v) ∈ es) : sizeOf v < sizeOf es := by
  have h1 : sizeOf (k, v) < sizeOf es := List.sizeOf_lt_of_mem h
  have h2 : sizeOf v < sizeOf (k, v) := by
    simp only [Prod.mk.sizeOf_spec]
    omega
  omega

theorem substL_pointwise_congr {l₁ l₂ : List JVal}
    (h : PListEq l₁ l₂)
    (helem : ∀ a b, a ∈ l₁ → PEq a b → goodSortV a = true →
      substElem true a = substElem true b)
    (hg : goodSortList l₁ = true) :
    substL true l₁ = substL true l₂ := by
  induction l₁ generalizing l₂ with
  | nil => cases h; rfl
  | cons a t ih =>
    cases h with
    | cons hab htail =>
      rename_i b t₂
      simp only [goodSortList, Bool.and_eq_true] at hg
      have h1 : substElem true a = substElem true b :=
        helem a b (List.mem_cons_self a t) hab hg.1
      have h2 : substL true t = substL true t₂ :=
        ih htail (fun x y hx => helem x y (List.mem_cons_of_mem a hx)) hg.2
      simp only [substL, h1, h2]

theorem substEntries_pointwise_congr {e₁ e₂ : List (String × JVal)}
    (h : PEntriesEq e₁ e₂)
    (helem : ∀ (k : String) (a b : JVal), (k, a) ∈ e₁ → PEq a b →
      goodSortV a = true → substElem true a = substElem true b)
    (hg : goodSortEntries e₁ = true) :
    substEntries true e₁ = substEntries true e₂ := by
  induction e₁ generalizing e₂ with
  | nil => cases h; rfl
  | cons kv t ih =>
    cases h with
    | cons hv htail =>
      rename_i k v₁ v₂ t₂
      simp only [goodSortEntries, Bool.and_eq_true] at hg
      have h1 : substElem true v₁ = substElem true v₂ :=
        helem k v₁ v₂ (List.mem_cons_self _ _) hv hg.1
      have h2 : substEntries true t = substEntries true t₂ :=
        ih htail (fun x a b hm => helem x a b (List.mem_cons_of_mem _ hm)) hg.2
      simp only [substEntries, h1, h2]

theorem sortListF_congr_of {l₁ lm l₂ : List JVal}
    (helem : ∀ a b, a ∈ l₁ → PEq a b → goodSortV a = true →
      substElem true a = substElem true b)
    (hl : PListEq l₁ lm) (hp : List.Perm lm l₂)
    (hg : goodSortV (JVal.arr l₁) = true) :
    sortListF true l₁ = sortListF true l₂ := by
  simp only [goodSortV, Bool.and_eq_true] at hg
  obtain ⟨hgl, hmatch⟩ := hg
  cases hm : substL true l₁ with
  | error e =>
    simp only [hm] at hmatch
    exact Bool.noConfusion hmatch
  | ok m₁ =>
    have hgp : goodPairsB m₁ = true := by
      simp only [hm] at hmatch
      exact hmatch
    have hmid : substL true lm = .ok m₁ := by
      rw [← substL_pointwise_congr hl helem hgl]
      exact hm
    obtain ⟨m₂, h2, hpm⟩ := substL_perm_ok true hp hmid
    have hchild : ∀ x ∈ m₁, childOk x = true :=
      childOkList_forall.mp (substL_childOk true l₁ m₁ hm)
    have hps : pySorted m₁ = pySorted m₂ := pySorted_congr hpm hgp hchild
    simp only [sortListF, hm, h2, if_true]
    exact hps

theorem peq_subst_bounded :
    ∀ n : Nat, ∀ v₁ v₂ : JVal, sizeOf v₁ ≤ n → PEq v₁ v₂ →
      goodSortV v₁ = true → substElem true v₁ = substElem true v₂ := by
  intro n
  induction n with
  | zero =>
    intro v₁ v₂ hsz _ _
    exfalso
    cases v₁ <;> simp_arith at hsz
  | succ n ih =>
    intro v₁ v₂ hsz h hg
    cases h with
    | null => rfl
    | bool b => rfl
    | int i => rfl
    | str s => rfl
    | obj he =>
      rename_i e₁ e₂
      have hsze : sizeOf e₁ ≤ n := by
        have hs := JVal.obj.sizeOf_spec e₁
        omega
      have hd : substEntries true e₁ = substEntries true e₂ :=
        substEntries_pointwise_congr he
          (fun k a b hm hab hga =>
            ih a b (by
              have h1 := sizeOf_snd_lt_of_mem hm
              omega) hab hga)
          (by simpa [goodSortV] using hg)
      simp only [substElem, hashDict, hd]
    | arr hl hperm =>
      rename_i l₁ lm l₂
      have hszl : sizeOf l₁ ≤ n := by
        have hs := JVal.arr.sizeOf_spec l₁
        omega
      have hsort : sortListF true l₁ = sortListF true l₂ :=
        sortListF_congr_of
          (fun a b ha hab hga =>
            ih a b (by
              have h1 := List.sizeOf_lt_of_mem ha
              omega) hab hga)
          hl hperm hg
      simp only [substElem, hsort]

theorem peq_substElem {v₁ v₂ : JVal} (h : PEq v₁ v₂) (hg : goodSortV v₁ = true) :
    substElem true v₁ = substElem true v₂ :=
  peq_subst_bounded (sizeOf v₁) v₁ v₂ le_rfl h hg

theorem jsonHash_peq {v₁ v₂ : JVal} (h : PEq v₁ v₂) (hg : goodSortV v₁ = true) :
    jsonHash v₁ true = jsonHash v₂ true := by
  cases h with
  | null => rfl
  | bool b => rfl
  | int i => rfl
  | str s => rfl
  | obj he =>
    rename_i e₁ e₂
    have hd : substEntries true e₁ = substEntries true e₂ :=
      substEntries_pointwise_congr he
        (fun k a b hm hab hga => peq_substElem hab hga)
        (by simpa [goodSortV] using hg)
    simp only [jsonHash, hashDict, hd]
  | arr hl hperm =>
    rename_i l₁ lm l₂
    have hsort : sortListF true l₁ = sortListF true l₂ :=
      sortListF_congr_of (fun a b ha hab hga => peq_substElem hab hga) hl hperm hg
    simp only [jsonHash, hashList, hsort]

/-!  ### SHA-256 digests of the concrete serializations, evaluated  -/

/-- The fractional square-root word of 2: Nat.sqrt is pinned through its
characterization, since its well-founded definition is not kernel-reducible. -/
theorem fracSqrt32_p2 : fracSqrt32 2 = 1779033703 := by
  have hs : Nat.sqrt (2 * 2 ^ 64) = 6074000999 :=
    ((Nat.eq_sqrt).mpr ⟨by decide, by decide⟩).symm
  rw [fracSqrt32, hs]
  decide

/-- The fractional square-root word of 3: Nat.sqrt is pinned through its
characterization, since its well-founded definition is not kernel-reducible. -/
theorem fracSqrt32_p3 : fracSqrt32 3 = 3144134277 := by
  have hs : Nat.sqrt (3 * 2 ^ 64) = 7439101573 :=
    ((Nat.eq_sqrt).mpr ⟨by decide, by decide⟩).symm
  rw [fracSqrt32, hs]
  decide

/-- The fractional square-root word of 5: Nat.sqrt is pinned through its
characterization, since its well-founded definition is not kernel-reducible. -/
theorem fracSqrt32_p5 : fracSqrt32 5 = 1013904242 := by
  have hs : Nat.sqrt (5 * 2 ^ 64) = 9603838834 :=
    ((Nat.eq_sqrt).mpr ⟨by decide, by decide⟩).symm
  rw [fracSqrt32, hs]
  decide

/-- The fractional square-root word of 7: Nat.sqrt is pinned through its
characterization, since its well-founded definition is not kernel-reducible. -/
theorem fracSqrt32_p7 : fracSqrt32 7 = 2773480762 := by
  have hs : Nat.sqrt (7 * 2 ^ 64) = 11363415354 :=
    ((Nat.eq_sqrt).mpr ⟨by decide, by decide⟩).symm
  rw [fracSqrt32, hs]
  decide

/-- The fractional square-root word of 11: Nat.sqrt is pinned through its
characterization, since its well-founded definition is not kernel-reducible. -/
theorem fracSqrt32_p11 : fracSqrt32 11 = 1359893119 := by
  have hs : Nat.sqrt (11 * 2 ^ 64) = 14244795007 :=
    ((Nat.eq_sqrt).mpr ⟨by decide, by decide⟩).symm
  rw [fracSqrt32, hs]
  decide

/-- The fractional square-root word of 13: Nat.sqrt is pinned through its
characterization, since its well-founded definition is not kernel-reducible. -/
theorem fracSqrt32_p13 : fracSqrt32 13 = 2600822924 := by
  have hs : Nat.sqrt (13 * 2 ^ 64) = 15485724812 :=
    ((Nat.eq_sqrt).mpr ⟨by decide, by decide⟩).symm
  rw [fracSqrt32, hs]
  decide

/-- The fractional square-root word of 17: Nat.sqrt is pinned through its
characterization, since its well-founded definition is not kernel-reducible. -/
theorem fracSqrt32_p17 : fracSqrt32 17 = 528734635 := by
  have hs : Nat.sqrt (17 * 2 ^ 64) = 17708603819 :=
    ((Nat.eq_sqrt).mpr ⟨by decide, by decide⟩).symm
  rw [fracSqrt32, hs]
  decide

/-- The fractional square-root word of 19: Nat.sqrt is pinned through its
characterization, since its well-founded definition is not kernel-reducible. -/
theorem fracSqrt32_p19 : fracSqrt32 19 = 1541459225 := by
  have hs : Nat.sqrt (19 * 2 ^ 64) = 18721328409 :=
    ((Nat.eq_sqrt).mpr ⟨by decide, by decide⟩).symm
  rw [fracSqrt32, hs]
  decide

/-- The eight initial SHA-256 hash words, as literals. -/
theorem sha256H0_eval : sha256H0 = [1779033703, 3144134277, 1013904242, 2773480762, 1359893119, 2600822924, 528734635, 1541459225] := by
  rw [sha256H0]
  simp only [List.map_cons, List.map_nil, fracSqrt32_p2, fracSqrt32_p3, fracSqrt32_p5, fracSqrt32_p7, fracSqrt32_p11, fracSqrt32_p13, fracSqrt32_p17, fracSqrt32_p19]

/-- The initial compression state, as literal words. -/
theorem shaInit_eval : shaInit = (⟨1779033703, 3144134277, 1013904242, 2773480762, 1359893119, 2600822924, 528734635, 1541459225⟩ : SHAState) := by
  rw [shaInit, sha256H0_eval]
  rfl

set_option maxRecDepth 4000 in
/-- The 64 round constants, evaluated (the cube-root descent is
kernel-reducible). -/
theorem sha256K_eval : sha256K = (1116352408 :: 1899447441 :: 3049323471 :: 3921009573 :: 961987163 :: 1508970993 :: 2453635748 :: 2870763221 :: 3624381080 :: 310598401 :: 607225278 :: 1426881987 :: 1925078388 :: 2162078206 :: 2614888103 :: 3248222580 :: 3835390401 :: 4022224774 :: 264347078 :: 604807628 :: 770255983 :: 1249150122 :: 1555081692 :: 1996064986 :: 2554220882 :: 2821834349 :: 2952996808 :: 3210313671 :: 3336571891 :: 3584528711 :: 113926993 :: 338241895 :: 666307205 :: 773529912 :: 1294757372 :: 1396182291 :: 1695183700 :: 1986661051 :: 2177026350 :: 2456956037 :: 2730485921 :: 2820302411 :: 3259730800 :: 3345764771 :: 3516065817 :: 3600352804 :: 4094571909 :: 275423344 :: 430227734 :: 506948616 :: 659060556 :: 883997877 :: 958139571 :: 1322822218 :: 1537002063 :: 1747873779 :: 1955562222 :: 2024104815 :: 2227730452 :: 2361852424 :: 2428436474 :: 2756734187 :: 3204031479 :: 3329325298 :: ([] : List Nat)) := by decide

set_option maxRecDepth 8000 in
/-- hashlib digest of the serialization '[1, 2]', evaluated in stages (a
one-shot kernel reduction of SHA-256 recurses too deeply). -/
theorem sha256Hex_evalA : sha256Hex "[1, 2]" = "3a316d6d3226f84c1e46e4447fa8d5fd800bff4a1bc6498152523cd4a602b69b" := by
  have hu : utf8 "[1, 2]" = (91 :: 49 :: 44 :: 32 :: 50 :: 93 :: ([] : List Nat)) := by decide
  have hpad : padMessage (91 :: 49 :: 44 :: 32 :: 50 :: 93 :: ([] : List Nat)) = (91 :: 49 :: 44 :: 32 :: 50 :: 93 :: 128 :: 0 :: 0 :: 0 :: 0 :: 0 :: 0 :: 0 :: 0 :: 0 :: 0 :: 0 :: 0 :: 0 :: 0 :: 0 :: 0 :: 0 :: 0 :: 0 :: 0 :: 0 :: 0 :: 0 :: 0 :: 0 :: 0 :: 0 :: 0 :: 0 :: 0 :: 0 :: 0 :: 0 :: 0 :: 0 :: 0 :: 0 :: 0 :: 0 :: 0 :: 0 :: 0 :: 0 :: 0 :: 0 :: 0 :: 0 :: 0 :: 0 :: 0 :: 0 :: 0 :: 0 :: 0 :: 0 :: 0 :: 48 :: ([] : List Nat)) := by decide
  have hch : chunksOf 63 (91 :: 49 :: 44 :: 32 :: 50 :: 93 :: 128 :: 0 :: 0 :: 0 :: 0 :: 0 :: 0 :: 0 :: 0 :: 0 :: 0 :: 0 :: 0 :: 0 :: 0 :: 0 :: 0 :: 0 :: 0 :: 0 :: 0 :: 0 :: 0 :: 0 :: 0 :: 0 :: 0 :: 0 :: 0 :: 0 :: 0 :: 0 :: 0 :: 0 :: 0 :: 0 :: 0 :: 0 :: 0 :: 0 :: 0 :: 0 :: 0 :: 0 :: 0 :: 0 :: 0 :: 0 :: 0 :: 0 :: 0 :: 0 :: 0 :: 0 :: 0 :: 0 :: 0 :: 48 :: ([] : List Nat)) = [(91 :: 49 :: 44 :: 32 :: 50 :: 93 :: 128 :: 0 :: 0 :: 0 :: 0 :: 0 :: 0 :: 0 :: 0 :: 0 :: 0 :: 0 :: 0 :: 0 :: 0 :: 0 :: 0 :: 0 :: 0 :: 0 :: 0 :: 0 :: 0 :: 0 :: 0 :: 0 :: 0 :: 0 :: 0 :: 0 :: 0 :: 0 :: 0 :: 0 :: 0 :: 0 :: 0 :: 0 :: 0 :: 0 :: 0 :: 0 :: 0 :: 0 :: 0 :: 0 :: 0 :: 0 :: 0 :: 0 :: 0 :: 0 :: 0 :: 0 :: 0 :: 0 :: 0 :: 48 :: ([] : List Nat))] := by decide
  have hw16 : (chunksOf 3 (91 :: 49 :: 44 :: 32 :: 50 :: 93 :: 128 :: 0 :: 0 :: 0 :: 0 :: 0 :: 0 :: 0 :: 0 :: 0 :: 0 :: 0 :: 0 :: 0 :: 0 :: 0 :: 0 :: 0 :: 0 :: 0 :: 0 :: 0 :: 0 :: 0 :: 0 :: 0 :: 0 :: 0 :: 0 :: 0 :: 0 :: 0 :: 0 :: 0 :: 0 :: 0 :: 0 :: 0 :: 0 :: 0 :: 0 :: 0 :: 0 :: 0 :: 0 :: 0 :: 0 :: 0 :: 0 :: 0 :: 0 :: 0 :: 0 :: 0 :: 0 :: 0 :: 0 :: 48 :: ([] : List Nat))).map wordOfBytes = (1529949216 :: 844988416 :: 0 :: 0 :: 0 :: 0 :: 0 :: 0 :: 0 :: 0 :: 0 :: 0 :: 0 :: 0 :: 0 :: 48 :: ([] : List Nat)) := by
    decide
  have hsch : schedule (1529949216 :: 844988416 :: 0 :: 0 :: 0 :: 0 :: 0 :: 0 :: 0 :: 0 :: 0 :: 0 :: 0 :: 0 :: 0 :: 48 :: ([] : List Nat)) = (1529949216 :: 844988416 :: 0 :: 0 :: 0 :: 0 :: 0 :: 0 :: 0 :: 0 :: 0 :: 0 :: 0 :: 0 :: 0 :: 48 :: 3244307383 :: 846954496 :: 530399376 :: 2953609618 :: 140372845 :: 3503754535 :: 1222193807 :: 677600105 :: 4051696443 :: 3866159739 :: 3000195840 :: 1890123577 :: 2544109836 :: 2839605005 :: 233933715 :: 3608175463 :: 2192917748 :: 2535605734 :: 2920276312 :: 1406869806 :: 1430148931 :: 781710362 :: 46992742 :: 1185059983 :: 2170402980 :: 1867026517 :: 3041859148 :: 700189631 :: 1706595168 :: 1978739831 :: 2112834015 :: 3028625106 :: 2390534624 :: 3772469815 :: 944962947 :: 2530628153 :: 3107507748 :: 520832291 :: 3922034640 :: 3595671894 :: 4119067736 :: 4053796114 :: 1196072994 :: 3450905324 :: 873508113 :: 134293600 :: 2444599180 :: 1441953892 :: ([] : List Nat)) := by decide
  have hzip : List.zip (1116352408 :: 1899447441 :: 3049323471 :: 3921009573 :: 961987163 :: 1508970993 :: 2453635748 :: 2870763221 :: 3624381080 :: 310598401 :: 607225278 :: 1426881987 :: 1925078388 :: 2162078206 :: 2614888103 :: 3248222580 :: 3835390401 :: 4022224774 :: 264347078 :: 604807628 :: 770255983 :: 1249150122 :: 1555081692 :: 1996064986 :: 2554220882 :: 2821834349 :: 2952996808 :: 3210313671 :: 3336571891 :: 3584528711 :: 113926993 :: 338241895 :: 666307205 :: 773529912 :: 1294757372 :: 1396182291 :: 1695183700 :: 1986661051 :: 2177026350 :: 2456956037 :: 2730485921 :: 2820302411 :: 3259730800 :: 3345764771 :: 3516065817 :: 3600352804 :: 4094571909 :: 275423344 :: 430227734 :: 506948616 :: 659060556 :: 883997877 :: 958139571 :: 1322822218 :: 1537002063 :: 1747873779 :: 1955562222 :: 2024104815 :: 2227730452 :: 2361852424 :: 2428436474 :: 2756734187 :: 3204031479 :: 3329325298 :: ([] : List Nat)) (1529949216 :: 844988416 :: 0 :: 0 :: 0 :: 0 :: 0 :: 0 :: 0 :: 0 :: 0 :: 0 :: 0 :: 0 :: 0 :: 48 :: 3244307383 :: 846954496 :: 530399376 :: 2953609618 :: 140372845 :: 3503754535 :: 1222193807 :: 677600105 :: 4051696443 :: 3866159739 :: 3000195840 :: 1890123577 :: 2544109836 :: 2839605005 :: 233933715 :: 3608175463 :: 2192917748 :: 2535605734 :: 2920276312 :: 1406869806 :: 1430148931 :: 781710362 :: 46992742 :: 1185059983 :: 2170402980 :: 1867026517 :: 3041859148 :: 700189631 :: 1706595168 :: 1978739831 :: 2112834015 :: 3028625106 :: 2390534624 :: 3772469815 :: 944962947 :: 2530628153 :: 3107507748 :: 520832291 :: 3922034640 :: 3595671894 :: 4119067736 :: 4053796114 :: 1196072994 :: 3450905324 :: 873508113 :: 134293600 :: 2444599180 :: 1441953892 :: ([] : List Nat)) = ((1116352408, 1529949216) :: (1899447441, 844988416) :: (3049323471, 0) :: (3921009573, 0) :: (961987163, 0) :: (1508970993, 0) :: (2453635748, 0) :: (2870763221, 0) :: (3624381080, 0) :: (310598401, 0) :: (607225278, 0) :: (1426881987, 0) :: (1925078388, 0) :: (2162078206, 0) :: (2614888103, 0) :: (3248222580, 48) :: (3835390401, 3244307383) :: (4022224774, 846954496) :: (264347078, 530399376) :: (604807628, 2953609618) :: (770255983, 140372845) :: (1249150122, 3503754535) :: (1555081692, 1222193807) :: (1996064986, 677600105) :: (2554220882, 4051696443) :: (2821834349, 3866159739) :: (2952996808, 3000195840) :: (3210313671, 1890123577) :: (3336571891, 2544109836) :: (3584528711, 2839605005) :: (113926993, 233933715) :: (338241895, 3608175463) :: (666307205, 2192917748) :: (773529912, 2535605734) :: (1294757372, 2920276312) :: (1396182291, 1406869806) :: (1695183700, 1430148931) :: (1986661051, 781710362) :: (2177026350, 46992742) :: (2456956037, 1185059983) :: (2730485921, 2170402980) :: (2820302411, 1867026517) :: (3259730800, 3041859148) :: (3345764771, 700189631) :: (3516065817, 1706595168) :: (3600352804, 1978739831) :: (4094571909, 2112834015) :: (275423344, 3028625106) :: (430227734, 2390534624) :: (506948616, 3772469815) :: (659060556, 944962947) :: (883997877, 2530628153) :: (958139571, 3107507748) :: (1322822218, 520832291) :: (1537002063, 3922034640) :: (1747873779, 3595671894) :: (1955562222, 4119067736) :: (2024104815, 4053796114) :: (2227730452, 1196072994) :: (2361852424, 3450905324) :: (2428436474, 873508113) :: (2756734187, 134293600) :: (3204031479, 2444599180) :: (3329325298, 1441953892) :: ([] : List (Nat × Nat))) := by decide
  have hfold : List.foldl compressStep (⟨1779033703, 3144134277, 1013904242, 2773480762, 1359893119, 2600822924, 528734635, 1541459225⟩ : SHAState) ((1116352408, 1529949216) :: (1899447441, 844988416) :: (3049323471, 0) :: (3921009573, 0) :: (961987163, 0) :: (1508970993, 0) :: (2453635748, 0) :: (2870763221, 0) :: (3624381080, 0) :: (310598401, 0) :: (607225278, 0) :: (1426881987, 0) :: (1925078388, 0) :: (2162078206, 0) :: (2614888103, 0) :: (3248222580, 48) :: (3835390401, 3244307383) :: (4022224774, 846954496) :: (264347078, 530399376) :: (604807628, 2953609618) :: (770255983, 140372845) :: (1249150122, 3503754535) :: (1555081692, 1222193807) :: (1996064986, 677600105) :: (2554220882, 4051696443) :: (2821834349, 3866159739) :: (2952996808, 3000195840) :: (3210313671, 1890123577) :: (3336571891, 2544109836) :: (3584528711, 2839605005) :: (113926993, 233933715) :: (338241895, 3608175463) :: (666307205, 2192917748) :: (773529912, 2535605734) :: (1294757372, 2920276312) :: (1396182291, 1406869806) :: (1695183700, 1430148931) :: (1986661051, 781710362) :: (2177026350, 46992742) :: (2456956037, 1185059983) :: (2730485921, 2170402980) :: (2820302411, 1867026517) :: (3259730800, 3041859148) :: (3345764771, 700189631) :: (3516065817, 1706595168) :: (3600352804, 1978739831) :: (4094571909, 2112834015) :: (275423344, 3028625106) :: (430227734, 2390534624) :: (506948616, 3772469815) :: (659060556, 944962947) :: (883997877, 2530628153) :: (958139571, 3107507748) :: (1322822218, 520832291) :: (1537002063, 3922034640) :: (1747873779, 3595671894) :: (1955562222, 4119067736) :: (2024104815, 4053796114) :: (2227730452, 1196072994) :: (2361852424, 3450905324) :: (2428436474, 873508113) :: (2756734187, 134293600) :: (3204031479, 2444599180) :: (3329325298, 1441953892) :: ([] : List (Nat × Nat))) = (⟨3492251398, 1992247751, 3789025490, 3663257795, 788376779, 2160124149, 852386601, 1243736450⟩ : SHAState) := by
    rfl
  have hblk : processBlock (⟨1779033703, 3144134277, 1013904242, 2773480762, 1359893119, 2600822924, 528734635, 1541459225⟩ : SHAState) (1529949216 :: 844988416 :: 0 :: 0 :: 0 :: 0 :: 0 :: 0 :: 0 :: 0 :: 0 :: 0 :: 0 :: 0 :: 0 :: 48 :: ([] : List Nat)) = (⟨976317805, 841414732, 507962436, 2141771261, 2148269898, 465979777, 1381121236, 2785195675⟩ : SHAState) := by
    simp only [processBlock, sha256K_eval, hsch, hzip, hfold]
    rfl
  have hW : sha256Words (91 :: 49 :: 44 :: 32 :: 50 :: 93 :: ([] : List Nat)) = (976317805 :: 841414732 :: 507962436 :: 2141771261 :: 2148269898 :: 465979777 :: 1381121236 :: 2785195675 :: ([] : List Nat)) := by
    simp only [sha256Words, hpad, hch, List.foldl_cons, List.foldl_nil,
      hw16, shaInit_eval, hblk]
  rw [sha256Hex, hu, hW]
  decide

set_option maxRecDepth 8000 in
/-- hashlib digest of the serialization '[2, 1]', evaluated in stages (a
one-shot kernel reduction of SHA-256 recurses too deeply). -/
theorem sha256Hex_evalB : sha256Hex "[2, 1]" = "22e7e927f66095ec7fff4b388f9d5f02bf47db28052a3ee866a29c168d4cc4e9" := by
  have hu : utf8 "[2, 1]" = (91 :: 50 :: 44 :: 32 :: 49 :: 93 :: ([] : List Nat)) := by decide
  have hpad : padMessage (91 :: 50 :: 44 :: 32 :: 49 :: 93 :: ([] : List Nat)) = (91 :: 50 :: 44 :: 32 :: 49 :: 93 :: 128 :: 0 :: 0 :: 0 :: 0 :: 0 :: 0 :: 0 :: 0 :: 0 :: 0 :: 0 :: 0 :: 0 :: 0 :: 0 :: 0 :: 0 :: 0 :: 0 :: 0 :: 0 :: 0 :: 0 :: 0 :: 0 :: 0 :: 0 :: 0 :: 0 :: 0 :: 0 :: 0 :: 0 :: 0 :: 0 :: 0 :: 0 :: 0 :: 0 :: 0 :: 0 :: 0 :: 0 :: 0 :: 0 :: 0 :: 0 :: 0 :: 0 :: 0 :: 0 :: 0 :: 0 :: 0 :: 0 :: 0 :: 48 :: ([] : List Nat)) := by decide
  have hch : chunksOf 63 (91 :: 50 :: 44 :: 32 :: 49 :: 93 :: 128 :: 0 :: 0 :: 0 :: 0 :: 0 :: 0 :: 0 :: 0 :: 0 :: 0 :: 0 :: 0 :: 0 :: 0 :: 0 :: 0 :: 0 :: 0 :: 0 :: 0 :: 0 :: 0 :: 0 :: 0 :: 0 :: 0 :: 0 :: 0 :: 0 :: 0 :: 0 :: 0 :: 0 :: 0 :: 0 :: 0 :: 0 :: 0 :: 0 :: 0 :: 0 :: 0 :: 0 :: 0 :: 0 :: 0 :: 0 :: 0 :: 0 :: 0 :: 0 :: 0 :: 0 :: 0 :: 0 :: 0 :: 48 :: ([] : List Nat)) = [(91 :: 50 :: 44 :: 32 :: 49 :: 93 :: 128 :: 0 :: 0 :: 0 :: 0 :: 0 :: 0 :: 0 :: 0 :: 0 :: 0 :: 0 :: 0 :: 0 :: 0 :: 0 :: 0 :: 0 :: 0 :: 0 :: 0 :: 0 :: 0 :: 0 :: 0 :: 0 :: 0 :: 0 :: 0 :: 0 :: 0 :: 0 :: 0 :: 0 :: 0 :: 0 :: 0 :: 0 :: 0 :: 0 :: 0 :: 0 :: 0 :: 0 :: 0 :: 0 :: 0 :: 0 :: 0 :: 0 :: 0 :: 0 :: 0 :: 0 :: 0 :: 0 :: 0 :: 48 :: ([] : List Nat))] := by decide
  have hw16 : (chunksOf 3 (91 :: 50 :: 44 :: 32 :: 49 :: 93 :: 128 :: 0 :: 0 :: 0 :: 0 :: 0 :: 0 :: 0 :: 0 :: 0 :: 0 :: 0 :: 0 :: 0 :: 0 :: 0 :: 0 :: 0 :: 0 :: 0 :: 0 :: 0 :: 0 :: 0 :: 0 :: 0 :: 0 :: 0 :: 0 :: 0 :: 0 :: 0 :: 0 :: 0 :: 0 :: 0 :: 0 :: 0 :: 0 :: 0 :: 0 :: 0 :: 0 :: 0 :: 0 :: 0 :: 0 :: 0 :: 0 :: 0 :: 0 :: 0 :: 0 :: 0 :: 0 :: 0 :: 0 :: 48 :: ([] : List Nat))).map wordOfBytes = (1530014752 :: 828211200 :: 0 :: 0 :: 0 :: 0 :: 0 :: 0 :: 0 :: 0 :: 0 :: 0 :: 0 :: 0 :: 0 :: 48 :: ([] : List Nat)) := by
    decide
  have hsch : schedule (1530014752 :: 828211200 :: 0 :: 0 :: 0 :: 0 :: 0 :: 0 :: 0 :: 0 :: 0 :: 0 :: 0 :: 0 :: 0 :: 48 :: ([] : List Nat)) = (1530014752 :: 828211200 :: 0 :: 0 :: 0 :: 0 :: 0 :: 0 :: 0 :: 0 :: 0 :: 0 :: 0 :: 0 :: 0 :: 48 :: 3246076791 :: 830177280 :: 4293215838 :: 2953592946 :: 198924639 :: 2820345111 :: 3347485296 :: 2826853188 :: 3435338391 :: 3871745284 :: 2654367665 :: 3791042449 :: 2720300637 :: 1418281944 :: 3109570451 :: 2444590498 :: 3114590575 :: 3565700386 :: 2987228506 :: 3849056514 :: 1789257485 :: 1173338137 :: 3007831890 :: 2112242862 :: 1376759632 :: 1858597344 :: 940721472 :: 67885475 :: 1021871598 :: 3245562311 :: 2449592619 :: 2613882041 :: 1232190351 :: 3438981608 :: 2246343053 :: 2677106116 :: 3021980972 :: 3142162988 :: 731902701 :: 117905183 :: 1470735078 :: 1950117945 :: 1841259474 :: 1758562528 :: 2543301281 :: 330839755 :: 327839580 :: 2324519839 :: ([] : List Nat)) := by decide
  have hzip : List.zip (1116352408 :: 1899447441 :: 3049323471 :: 3921009573 :: 961987163 :: 1508970993 :: 2453635748 :: 2870763221 :: 3624381080 :: 310598401 :: 607225278 :: 1426881987 :: 1925078388 :: 2162078206 :: 2614888103 :: 3248222580 :: 3835390401 :: 4022224774 :: 264347078 :: 604807628 :: 770255983 :: 1249150122 :: 1555081692 :: 1996064986 :: 2554220882 :: 2821834349 :: 2952996808 :: 3210313671 :: 3336571891 :: 3584528711 :: 113926993 :: 338241895 :: 666307205 :: 773529912 :: 1294757372 :: 1396182291 :: 1695183700 :: 1986661051 :: 2177026350 :: 2456956037 :: 2730485921 :: 2820302411 :: 3259730800 :: 3345764771 :: 3516065817 :: 3600352804 :: 4094571909 :: 275423344 :: 430227734 :: 506948616 :: 659060556 :: 883997877 :: 958139571 :: 1322822218 :: 1537002063 :: 1747873779 :: 1955562222 :: 2024104815 :: 2227730452 :: 2361852424 :: 2428436474 :: 2756734187 :: 3204031479 :: 3329325298 :: ([] : List Nat)) (1530014752 :: 828211200 :: 0 :: 0 :: 0 :: 0 :: 0 :: 0 :: 0 :: 0 :: 0 :: 0 :: 0 :: 0 :: 0 :: 48 :: 3246076791 :: 830177280 :: 4293215838 :: 2953592946 :: 198924639 :: 2820345111 :: 3347485296 :: 2826853188 :: 3435338391 :: 3871745284 :: 2654367665 :: 3791042449 :: 2720300637 :: 1418281944 :: 3109570451 :: 2444590498 :: 3114590575 :: 3565700386 :: 2987228506 :: 3849056514 :: 1789257485 :: 1173338137 :: 3007831890 :: 2112242862 :: 1376759632 :: 1858597344 :: 940721472 :: 67885475 :: 1021871598 :: 3245562311 :: 2449592619 :: 2613882041 :: 1232190351 :: 3438981608 :: 2246343053 :: 2677106116 :: 3021980972 :: 3142162988 :: 731902701 :: 117905183 :: 1470735078 :: 1950117945 :: 1841259474 :: 1758562528 :: 2543301281 :: 330839755 :: 327839580 :: 2324519839 :: ([] : List Nat)) = ((1116352408, 1530014752) :: (1899447441, 828211200) :: (3049323471, 0) :: (3921009573, 0) :: (961987163, 0) :: (1508970993, 0) :: (2453635748, 0) :: (2870763221, 0) :: (3624381080, 0) :: (310598401, 0) :: (607225278, 0) :: (1426881987, 0) :: (1925078388, 0) :: (2162078206, 0) :: (2614888103, 0) :: (3248222580, 48) :: (3835390401, 3246076791) :: (4022224774, 830177280) :: (264347078, 4293215838) :: (604807628, 2953592946) :: (770255983, 198924639) :: (1249150122, 2820345111) :: (1555081692, 3347485296) :: (1996064986, 2826853188) :: (2554220882, 3435338391) :: (2821834349, 3871745284) :: (2952996808, 2654367665) :: (3210313671, 3791042449) :: (3336571891, 2720300637) :: (3584528711, 1418281944) :: (113926993, 3109570451) :: (338241895, 2444590498) :: (666307205, 3114590575) :: (773529912, 3565700386) :: (1294757372, 2987228506) :: (1396182291, 3849056514) :: (1695183700, 1789257485) :: (1986661051, 1173338137) :: (2177026350, 3007831890) :: (2456956037, 2112242862) :: (2730485921, 1376759632) :: (2820302411, 1858597344) :: (3259730800, 940721472) :: (3345764771, 67885475) :: (3516065817, 1021871598) :: (3600352804, 3245562311) :: (4094571909, 2449592619) :: (275423344, 2613882041) :: (430227734, 1232190351) :: (506948616, 3438981608) :: (659060556, 2246343053) :: (883997877, 2677106116) :: (958139571, 3021980972) :: (1322822218, 3142162988) :: (1537002063, 731902701) :: (1747873779, 117905183) :: (1955562222, 1470735078) :: (2024104815, 1950117945) :: (2227730452, 1841259474) :: (2361852424, 1758562528) :: (2428436474, 2543301281) :: (2756734187, 330839755) :: (3204031479, 327839580) :: (3329325298, 2324519839) :: ([] : List (Nat × Nat))) := by decide
  have hfold : List.foldl compressStep (⟨1779033703, 3144134277, 1013904242, 2773480762, 1359893119, 2600822924, 528734635, 1541459225⟩ : SHAState) ((1116352408, 1530014752) :: (1899447441, 828211200) :: (3049323471, 0) :: (3921009573, 0) :: (961987163, 0) :: (1508970993, 0) :: (2453635748, 0) :: (2870763221, 0) :: (3624381080, 0) :: (310598401, 0) :: (607225278, 0) :: (1426881987, 0) :: (1925078388, 0) :: (2162078206, 0) :: (2614888103, 0) :: (3248222580, 48) :: (3835390401, 3246076791) :: (4022224774, 830177280) :: (264347078, 4293215838) :: (604807628, 2953592946) :: (770255983, 198924639) :: (1249150122, 2820345111) :: (1555081692, 3347485296) :: (1996064986, 2826853188) :: (2554220882, 3435338391) :: (2821834349, 3871745284) :: (2952996808, 2654367665) :: (3210313671, 3791042449) :: (3336571891, 2720300637) :: (3584528711, 1418281944) :: (113926993, 3109570451) :: (338241895, 2444590498) :: (666307205, 3114590575) :: (773529912, 3565700386) :: (1294757372, 2987228506) :: (1396182291, 3849056514) :: (1695183700, 1789257485) :: (1986661051, 1173338137) :: (2177026350, 3007831890) :: (2456956037, 2112242862) :: (2730485921, 1376759632) :: (2820302411, 1858597344) :: (3259730800, 940721472) :: (3345764771, 67885475) :: (3516065817, 1021871598) :: (3600352804, 3245562311) :: (4094571909, 2449592619) :: (275423344, 2613882041) :: (430227734, 1232190351) :: (506948616, 3438981608) :: (659060556, 2246343053) :: (883997877, 2677106116) :: (958139571, 3021980972) :: (1322822218, 3142162988) :: (1537002063, 731902701) :: (1747873779, 117905183) :: (1955562222, 1470735078) :: (2024104815, 1950117945) :: (2227730452, 1841259474) :: (2361852424, 1758562528) :: (2428436474, 2543301281) :: (2756734187, 330839755) :: (3204031479, 327839580) :: (3329325298, 2324519839) :: ([] : List (Nat × Nat))) = (⟨3101557440, 989390695, 1133533126, 3930941896, 1849264297, 1780799068, 1193198187, 829159376⟩ : SHAState) := by
    rfl
  have hblk : processBlock (⟨1779033703, 3144134277, 1013904242, 2773480762, 1359893119, 2600822924, 528734635, 1541459225⟩ : SHAState) (1530014752 :: 828211200 :: 0 :: 0 :: 0 :: 0 :: 0 :: 0 :: 0 :: 0 :: 0 :: 0 :: 0 :: 0 :: 0 :: 48 :: ([] : List Nat)) = (⟨585623847, 4133524972, 2147437368, 2409455362, 3209157416, 86654696, 1721932822, 2370618601⟩ : SHAState) := by
    simp only [processBlock, sha256K_eval, hsch, hzip, hfold]
    rfl
  have hW : sha256Words (91 :: 50 :: 44 :: 32 :: 49 :: 93 :: ([] : List Nat)) = (585623847 :: 4133524972 :: 2147437368 :: 2409455362 :: 3209157416 :: 86654696 :: 1721932822 :: 2370618601 :: ([] : List Nat)) := by
    simp only [sha256Words, hpad, hch, List.foldl_cons, List.foldl_nil,
      hw16, shaInit_eval, hblk]
  rw [sha256Hex, hu, hW]
  decide

set_option maxRecDepth 8000 in
/-- hashlib digest of the serialization '[[true], [1]]', evaluated in stages (a
one-shot kernel reduction of SHA-256 recurses too deeply). -/
theorem sha256Hex_evalC : sha256Hex "[[true], [1]]" = "9f582066d060cc4138ce78248ffcf19a5860bc6e15d382afce6dee718ca7bae5" := by
  have hu : utf8 "[[true], [1]]" = (91 :: 91 :: 116 :: 114 :: 117 :: 101 :: 93 :: 44 :: 32 :: 91 :: 49 :: 93 :: 93 :: ([] : List Nat)) := by decide
  have hpad : padMessage (91 :: 91 :: 116 :: 114 :: 117 :: 101 :: 93 :: 44 :: 32 :: 91 :: 49 :: 93 :: 93 :: ([] : List Nat)) = (91 :: 91 :: 116 :: 114 :: 117 :: 101 :: 93 :: 44 :: 32 :: 91 :: 49 :: 93 :: 93 :: 128 :: 0 :: 0 :: 0 :: 0 :: 0 :: 0 :: 0 :: 0 :: 0 :: 0 :: 0 :: 0 :: 0 :: 0 :: 0 :: 0 :: 0 :: 0 :: 0 :: 0 :: 0 :: 0 :: 0 :: 0 :: 0 :: 0 :: 0 :: 0 :: 0 :: 0 :: 0 :: 0 :: 0 :: 0 :: 0 :: 0 :: 0 :: 0 :: 0 :: 0 :: 0 :: 0 :: 0 :: 0 :: 0 :: 0 :: 0 :: 0 :: 0 :: 104 :: ([] : List Nat)) := by decide
  have hch : chunksOf 63 (91 :: 91 :: 116 :: 114 :: 117 :: 101 :: 93 :: 44 :: 32 :: 91 :: 49 :: 93 :: 93 :: 128 :: 0 :: 0 :: 0 :: 0 :: 0 :: 0 :: 0 :: 0 :: 0 :: 0 :: 0 :: 0 :: 0 :: 0 :: 0 :: 0 :: 0 :: 0 :: 0 :: 0 :: 0 :: 0 :: 0 :: 0 :: 0 :: 0 :: 0 :: 0 :: 0 :: 0 :: 0 :: 0 :: 0 :: 0 :: 0 :: 0 :: 0 :: 0 :: 0 :: 0 :: 0 :: 0 :: 0 :: 0 :: 0 :: 0 :: 0 :: 0 :: 0 :: 104 :: ([] : List Nat)) = [(91 :: 91 :: 116 :: 114 :: 117 :: 101 :: 93 :: 44 :: 32 :: 91 :: 49 :: 93 :: 93 :: 128 :: 0 :: 0 :: 0 :: 0 :: 0 :: 0 :: 0 :: 0 :: 0 :: 0 :: 0 :: 0 :: 0 :: 0 :: 0 :: 0 :: 0 :: 0 :: 0 :: 0 :: 0 :: 0 :: 0 :: 0 :: 0 :: 0 :: 0 :: 0 :: 0 :: 0 :: 0 :: 0 :: 0 :: 0 :: 0 :: 0 :: 0 :: 0 :: 0 :: 0 :: 0 :: 0 :: 0 :: 0 :: 0 :: 0 :: 0 :: 0 :: 0 :: 104 :: ([] : List Nat))] := by decide
  have hw16 : (chunksOf 3 (91 :: 91 :: 116 :: 114 :: 117 :: 101 :: 93 :: 44 :: 32 :: 91 :: 49 :: 93 :: 93 :: 128 :: 0 :: 0 :: 0 :: 0 :: 0 :: 0 :: 0 :: 0 :: 0 :: 0 :: 0 :: 0 :: 0 :: 0 :: 0 :: 0 :: 0 :: 0 :: 0 :: 0 :: 0 :: 0 :: 0 :: 0 :: 0 :: 0 :: 0 :: 0 :: 0 :: 0 :: 0 :: 0 :: 0 :: 0 :: 0 :: 0 :: 0 :: 0 :: 0 :: 0 :: 0 :: 0 :: 0 :: 0 :: 0 :: 0 :: 0 :: 0 :: 0 :: 104 :: ([] : List Nat))).map wordOfBytes = (1532720242 :: 1969577260 :: 542847325 :: 1568669696 :: 0 :: 0 :: 0 :: 0 :: 0 :: 0 :: 0 :: 0 :: 0 :: 0 :: 0 :: 104 :: ([] : List Nat)) := by
    decide
  have hsch : schedule (1532720242 :: 1969577260 :: 542847325 :: 1568669696 :: 0 :: 0 :: 0 :: 0 :: 0 :: 0 :: 0 :: 0 :: 0 :: 0 :: 0 :: 104 :: ([] : List Nat)) = (1532720242 :: 1969577260 :: 542847325 :: 1568669696 :: 0 :: 0 :: 0 :: 0 :: 0 :: 0 :: 0 :: 0 :: 0 :: 0 :: 0 :: 104 :: 1550381240 :: 3887789451 :: 2445445186 :: 2177720727 :: 353200763 :: 484000647 :: 410495973 :: 3860679775 :: 138618986 :: 2707427552 :: 1929885562 :: 525436691 :: 1244133781 :: 199484424 :: 3122778645 :: 3722903090 :: 2274014828 :: 817261149 :: 642652016 :: 1920197083 :: 1200894127 :: 2274147681 :: 2227880671 :: 1441231920 :: 1130724728 :: 865199906 :: 982507022 :: 336942541 :: 3471239816 :: 3653102642 :: 2042344093 :: 3512415871 :: 2432763974 :: 3395544073 :: 542084995 :: 711495800 :: 1412625379 :: 2057905991 :: 886700696 :: 1173547594 :: 196681688 :: 1761998976 :: 3739754121 :: 1584784841 :: 1538977966 :: 910516143 :: 236505586 :: 3193424492 :: ([] : List Nat)) := by decide
  have hzip : List.zip (1116352408 :: 1899447441 :: 3049323471 :: 3921009573 :: 961987163 :: 1508970993 :: 2453635748 :: 2870763221 :: 3624381080 :: 310598401 :: 607225278 :: 1426881987 :: 1925078388 :: 2162078206 :: 2614888103 :: 3248222580 :: 3835390401 :: 4022224774 :: 264347078 :: 604807628 :: 770255983 :: 1249150122 :: 1555081692 :: 1996064986 :: 2554220882 :: 2821834349 :: 2952996808 :: 3210313671 :: 3336571891 :: 3584528711 :: 113926993 :: 338241895 :: 666307205 :: 773529912 :: 1294757372 :: 1396182291 :: 1695183700 :: 1986661051 :: 2177026350 :: 2456956037 :: 2730485921 :: 2820302411 :: 3259730800 :: 3345764771 :: 3516065817 :: 3600352804 :: 4094571909 :: 275423344 :: 430227734 :: 506948616 :: 659060556 :: 883997877 :: 958139571 :: 1322822218 :: 1537002063 :: 1747873779 :: 1955562222 :: 2024104815 :: 2227730452 :: 2361852424 :: 2428436474 :: 2756734187 :: 3204031479 :: 3329325298 :: ([] : List Nat)) (1532720242 :: 1969577260 :: 542847325 :: 1568669696 :: 0 :: 0 :: 0 :: 0 :: 0 :: 0 :: 0 :: 0 :: 0 :: 0 :: 0 :: 104 :: 1550381240 :: 3887789451 :: 2445445186 :: 2177720727 :: 353200763 :: 484000647 :: 410495973 :: 3860679775 :: 138618986 :: 2707427552 :: 1929885562 :: 525436691 :: 1244133781 :: 199484424 :: 3122778645 :: 3722903090 :: 2274014828 :: 817261149 :: 642652016 :: 1920197083 :: 1200894127 :: 2274147681 :: 2227880671 :: 1441231920 :: 1130724728 :: 865199906 :: 982507022 :: 336942541 :: 3471239816 :: 3653102642 :: 2042344093 :: 3512415871 :: 2432763974 :: 3395544073 :: 542084995 :: 711495800 :: 1412625379 :: 2057905991 :: 886700696 :: 1173547594 :: 196681688 :: 1761998976 :: 3739754121 :: 1584784841 :: 1538977966 :: 910516143 :: 236505586 :: 3193424492 :: ([] : List Nat)) = ((1116352408, 1532720242) :: (1899447441, 1969577260) :: (3049323471, 542847325) :: (3921009573, 1568669696) :: (961987163, 0) :: (1508970993, 0) :: (2453635748, 0) :: (2870763221, 0) :: (3624381080, 0) :: (310598401, 0) :: (607225278, 0) :: (1426881987, 0) :: (1925078388, 0) :: (2162078206, 0) :: (2614888103, 0) :: (3248222580, 104) :: (3835390401, 1550381240) :: (4022224774, 3887789451) :: (264347078, 2445445186) :: (604807628, 2177720727) :: (770255983, 353200763) :: (1249150122, 484000647) :: (1555081692, 410495973) :: (1996064986, 3860679775) :: (2554220882, 138618986) :: (2821834349, 2707427552) :: (2952996808, 1929885562) :: (3210313671, 525436691) :: (3336571891, 1244133781) :: (3584528711, 199484424) :: (113926993, 3122778645) :: (338241895, 3722903090) :: (666307205, 2274014828) :: (773529912, 817261149) :: (1294757372, 642652016) :: (1396182291, 1920197083) :: (1695183700, 1200894127) :: (1986661051, 2274147681) :: (2177026350, 2227880671) :: (2456956037, 1441231920) :: (2730485921, 1130724728) :: (2820302411, 865199906) :: (3259730800, 982507022) :: (3345764771, 336942541) :: (3516065817, 3471239816) :: (3600352804, 3653102642) :: (4094571909, 2042344093) :: (275423344, 3512415871) :: (430227734, 2432763974) :: (506948616, 3395544073) :: (659060556, 542084995) :: (883997877, 711495800) :: (958139571, 1412625379) :: (1322822218, 2057905991) :: (1537002063, 886700696) :: (1747873779, 1173547594) :: (1955562222, 196681688) :: (2024104815, 1761998976) :: (2227730452, 3739754121) :: (2361852424, 1584784841) :: (2428436474, 1538977966) :: (2756734187, 910516143) :: (3204031479, 236505586) :: (3329325298, 3193424492) :: ([] : List (Nat × Nat))) := by decide
  have hfold : List.foldl compressStep (⟨1779033703, 3144134277, 1013904242, 2773480762, 1359893119, 2600822924, 528734635, 1541459225⟩ : SHAState) ((1116352408, 1532720242) :: (1899447441, 1969577260) :: (3049323471, 542847325) :: (3921009573, 1568669696) :: (961987163, 0) :: (1508970993, 0) :: (2453635748, 0) :: (2870763221, 0) :: (3624381080, 0) :: (310598401, 0) :: (607225278, 0) :: (1426881987, 0) :: (1925078388, 0) :: (2162078206, 0) :: (2614888103, 0) :: (3248222580, 104) :: (3835390401, 1550381240) :: (4022224774, 3887789451) :: (264347078, 2445445186) :: (604807628, 2177720727) :: (770255983, 353200763) :: (1249150122, 484000647) :: (1555081692, 410495973) :: (1996064986, 3860679775) :: (2554220882, 138618986) :: (2821834349, 2707427552) :: (2952996808, 1929885562) :: (3210313671, 525436691) :: (3336571891, 1244133781) :: (3584528711, 199484424) :: (113926993, 3122778645) :: (338241895, 3722903090) :: (666307205, 2274014828) :: (773529912, 817261149) :: (1294757372, 642652016) :: (1396182291, 1920197083) :: (1695183700, 1200894127) :: (1986661051, 2274147681) :: (2177026350, 2227880671) :: (2456956037, 1441231920) :: (2730485921, 1130724728) :: (2820302411, 865199906) :: (3259730800, 982507022) :: (3345764771, 336942541) :: (3516065817, 3471239816) :: (3600352804, 3653102642) :: (4094571909, 2042344093) :: (275423344, 3512415871) :: (430227734, 2432763974) :: (506948616, 3395544073) :: (659060556, 542084995) :: (883997877, 711495800) :: (958139571, 1412625379) :: (1322822218, 2057905991) :: (1537002063, 886700696) :: (1747873779, 1173547594) :: (1955562222, 196681688) :: (2024104815, 1761998976) :: (2227730452, 3739754121) :: (2361852424, 1584784841) :: (2428436474, 1538977966) :: (2756734187, 910516143) :: (3204031479, 236505586) :: (3329325298, 3193424492) :: ([] : List (Nat × Nat))) = (⟨894319103, 351870396, 4234118322, 3937205344, 122841583, 2060327459, 2934576326, 818343372⟩ : SHAState) := by
    rfl
  have hblk : processBlock (⟨1779033703, 3144134277, 1013904242, 2773480762, 1359893119, 2600822924, 528734635, 1541459225⟩ : SHAState) (1532720242 :: 1969577260 :: 542847325 :: 1568669696 :: 0 :: 0 :: 0 :: 0 :: 0 :: 0 :: 0 :: 0 :: 0 :: 0 :: 0 :: 104 :: ([] : List Nat)) = (⟨2673352806, 3496004673, 953055268, 2415718810, 1482734702, 366183087, 3463310961, 2359802597⟩ : SHAState) := by
    simp only [processBlock, sha256K_eval, hsch, hzip, hfold]
    rfl
  have hW : sha256Words (91 :: 91 :: 116 :: 114 :: 117 :: 101 :: 93 :: 44 :: 32 :: 91 :: 49 :: 93 :: 93 :: ([] : List Nat)) = (2673352806 :: 3496004673 :: 953055268 :: 2415718810 :: 1482734702 :: 366183087 :: 3463310961 :: 2359802597 :: ([] : List Nat)) := by
    simp only [sha256Words, hpad, hch, List.foldl_cons, List.foldl_nil,
      hw16, shaInit_eval, hblk]
  rw [sha256Hex, hu, hW]
  decide

set_option maxRecDepth 8000 in
/-- hashlib digest of the serialization '[[1], [true]]', evaluated in stages (a
one-shot kernel reduction of SHA-256 recurses too deeply). -/
theorem sha256Hex_evalD : sha256Hex "[[1], [true]]" = "02d37490914580f6663b01db9ae369ed50fb35c50ef0c3b26f89eca2d119e50a" := by
  have hu : utf8 "[[1], [true]]" = (91 :: 91 :: 49 :: 93 :: 44 :: 32 :: 91 :: 116 :: 114 :: 117 :: 101 :: 93 :: 93 :: ([] : List Nat)) := by decide
  have hpad : padMessage (91 :: 91 :: 49 :: 93 :: 44 :: 32 :: 91 :: 116 :: 114 :: 117 :: 101 :: 93 :: 93 :: ([] : List Nat)) = (91 :: 91 :: 49 :: 93 :: 44 :: 32 :: 91 :: 116 :: 114 :: 117 :: 101 :: 93 :: 93 :: 128 :: 0 :: 0 :: 0 :: 0 :: 0 :: 0 :: 0 :: 0 :: 0 :: 0 :: 0 :: 0 :: 0 :: 0 :: 0 :: 0 :: 0 :: 0 :: 0 :: 0 :: 0 :: 0 :: 0 :: 0 :: 0 :: 0 :: 0 :: 0 :: 0 :: 0 :: 0 :: 0 :: 0 :: 0 :: 0 :: 0 :: 0 :: 0 :: 0 :: 0 :: 0 :: 0 :: 0 :: 0 :: 0 :: 0 :: 0 :: 0 :: 0 :: 104 :: ([] : List Nat)) := by decide
  have hch : chunksOf 63 (91 :: 91 :: 49 :: 93 :: 44 :: 32 :: 91 :: 116 :: 114 :: 117 :: 101 :: 93 :: 93 :: 128 :: 0 :: 0 :: 0 :: 0 :: 0 :: 0 :: 0 :: 0 :: 0 :: 0 :: 0 :: 0 :: 0 :: 0 :: 0 :: 0 :: 0 :: 0 :: 0 :: 0 :: 0 :: 0 :: 0 :: 0 :: 0 :: 0 :: 0 :: 0 :: 0 :: 0 :: 0 :: 0 :: 0 :: 0 :: 0 :: 0 :: 0 :: 0 :: 0 :: 0 :: 0 :: 0 :: 0 :: 0 :: 0 :: 0 :: 0 :: 0 :: 0 :: 104 :: ([] : List Nat)) = [(91 :: 91 :: 49 :: 93 :: 44 :: 32 :: 91 :: 116 :: 114 :: 117 :: 101 :: 93 :: 93 :: 128 :: 0 :: 0 :: 0 :: 0 :: 0 :: 0 :: 0 :: 0 :: 0 :: 0 :: 0 :: 0 :: 0 :: 0 :: 0 :: 0 :: 0 :: 0 :: 0 :: 0 :: 0 :: 0 :: 0 :: 0 :: 0 :: 0 :: 0 :: 0 :: 0 :: 0 :: 0 :: 0 :: 0 :: 0 :: 0 :: 0 :: 0 :: 0 :: 0 :: 0 :: 0 :: 0 :: 0 :: 0 :: 0 :: 0 :: 0 :: 0 :: 0 :: 104 :: ([] : List Nat))] := by decide
  have hw16 : (chunksOf 3 (91 :: 91 :: 49 :: 93 :: 44 :: 32 :: 91 :: 116 :: 114 :: 117 :: 101 :: 93 :: 93 :: 128 :: 0 :: 0 :: 0 :: 0 :: 0 :: 0 :: 0 :: 0 :: 0 :: 0 :: 0 :: 0 :: 0 :: 0 :: 0 :: 0 :: 0 :: 0 :: 0 :: 0 :: 0 :: 0 :: 0 :: 0 :: 0 :: 0 :: 0 :: 0 :: 0 :: 0 :: 0 :: 0 :: 0 :: 0 :: 0 :: 0 :: 0 :: 0 :: 0 :: 0 :: 0 :: 0 :: 0 :: 0 :: 0 :: 0 :: 0 :: 0 :: 0 :: 104 :: ([] : List Nat))).map wordOfBytes = (1532703069 :: 740318068 :: 1920296285 :: 1568669696 :: 0 :: 0 :: 0 :: 0 :: 0 :: 0 :: 0 :: 0 :: 0 :: 0 :: 0 :: 104 :: ([] : List Nat)) := by
    decide
  have hsch : schedule (1532703069 :: 740318068 :: 1920296285 :: 1568669696 :: 0 :: 0 :: 0 :: 0 :: 0 :: 0 :: 0 :: 0 :: 0 :: 0 :: 0 :: 104 :: ([] : List Nat)) = (1532703069 :: 740318068 :: 1920296285 :: 1568669696 :: 0 :: 0 :: 0 :: 0 :: 0 :: 0 :: 0 :: 0 :: 0 :: 0 :: 0 :: 104 :: 1448899117 :: 441874032 :: 885461942 :: 1399888892 :: 1805708607 :: 1586855920 :: 1797435655 :: 1718481908 :: 688916169 :: 2086942781 :: 1462276519 :: 111605231 :: 3112700741 :: 258898753 :: 996933112 :: 1757931563 :: 3538997064 :: 682021368 :: 2384445262 :: 145647305 :: 1477446727 :: 1236588109 :: 1956927549 :: 3256782501 :: 1949705983 :: 22900055 :: 2604049539 :: 407615792 :: 2807538987 :: 942708702 :: 3311904809 :: 3997348656 :: 917134921 :: 917494736 :: 369254868 :: 1296677372 :: 3008122502 :: 1566710391 :: 34931863 :: 3237773352 :: 3275537919 :: 2767287680 :: 1063721883 :: 182465707 :: 300736275 :: 4164174754 :: 1269605085 :: 1581576730 :: ([] : List Nat)) := by decide
  have hzip : List.zip (1116352408 :: 1899447441 :: 3049323471 :: 3921009573 :: 961987163 :: 1508970993 :: 2453635748 :: 2870763221 :: 3624381080 :: 310598401 :: 607225278 :: 1426881987 :: 1925078388 :: 2162078206 :: 2614888103 :: 3248222580 :: 3835390401 :: 4022224774 :: 264347078 :: 604807628 :: 770255983 :: 1249150122 :: 1555081692 :: 1996064986 :: 2554220882 :: 2821834349 :: 2952996808 :: 3210313671 :: 3336571891 :: 3584528711 :: 113926993 :: 338241895 :: 666307205 :: 773529912 :: 1294757372 :: 1396182291 :: 1695183700 :: 1986661051 :: 2177026350 :: 2456956037 :: 2730485921 :: 2820302411 :: 3259730800 :: 3345764771 :: 3516065817 :: 3600352804 :: 4094571909 :: 275423344 :: 430227734 :: 506948616 :: 659060556 :: 883997877 :: 958139571 :: 1322822218 :: 1537002063 :: 1747873779 :: 1955562222 :: 2024104815 :: 2227730452 :: 2361852424 :: 2428436474 :: 2756734187 :: 3204031479 :: 3329325298 :: ([] : List Nat)) (1532703069 :: 740318068 :: 1920296285 :: 1568669696 :: 0 :: 0 :: 0 :: 0 :: 0 :: 0 :: 0 :: 0 :: 0 :: 0 :: 0 :: 104 :: 1448899117 :: 441874032 :: 885461942 :: 1399888892 :: 1805708607 :: 1586855920 :: 1797435655 :: 1718481908 :: 688916169 :: 2086942781 :: 1462276519 :: 111605231 :: 3112700741 :: 258898753 :: 996933112 :: 1757931563 :: 3538997064 :: 682021368 :: 2384445262 :: 145647305 :: 1477446727 :: 1236588109 :: 1956927549 :: 3256782501 :: 1949705983 :: 22900055 :: 2604049539 :: 407615792 :: 2807538987 :: 942708702 :: 3311904809 :: 3997348656 :: 917134921 :: 917494736 :: 369254868 :: 1296677372 :: 3008122502 :: 1566710391 :: 34931863 :: 3237773352 :: 3275537919 :: 2767287680 :: 1063721883 :: 182465707 :: 300736275 :: 4164174754 :: 1269605085 :: 1581576730 :: ([] : List Nat)) = ((1116352408, 1532703069) :: (1899447441, 740318068) :: (3049323471, 1920296285) :: (3921009573, 1568669696) :: (961987163, 0) :: (1508970993, 0) :: (2453635748, 0) :: (2870763221, 0) :: (3624381080, 0) :: (310598401, 0) :: (607225278, 0) :: (1426881987, 0) :: (1925078388, 0) :: (2162078206, 0) :: (2614888103, 0) :: (3248222580, 104) :: (3835390401, 1448899117) :: (4022224774, 441874032) :: (264347078, 885461942) :: (604807628, 1399888892) :: (770255983, 1805708607) :: (1249150122, 1586855920) :: (1555081692, 1797435655) :: (1996064986, 1718481908) :: (2554220882, 688916169) :: (2821834349, 2086942781) :: (2952996808, 1462276519) :: (3210313671, 111605231) :: (3336571891, 3112700741) :: (3584528711, 258898753) :: (113926993, 996933112) :: (338241895, 1757931563) :: (666307205, 3538997064) :: (773529912, 682021368) :: (1294757372, 2384445262) :: (1396182291, 145647305) :: (1695183700, 1477446727) :: (1986661051, 1236588109) :: (2177026350, 1956927549) :: (2456956037, 3256782501) :: (2730485921, 1949705983) :: (2820302411, 22900055) :: (3259730800, 2604049539) :: (3345764771, 407615792) :: (3516065817, 2807538987) :: (3600352804, 942708702) :: (4094571909, 3311904809) :: (275423344, 3997348656) :: (430227734, 917134921) :: (506948616, 917494736) :: (659060556, 369254868) :: (883997877, 1296677372) :: (958139571, 3008122502) :: (1322822218, 1566710391) :: (1537002063, 34931863) :: (1747873779, 3237773352) :: (1955562222, 3275537919) :: (2024104815, 2767287680) :: (2227730452, 1063721883) :: (2361852424, 182465707) :: (2428436474, 300736275) :: (2756734187, 4164174754) :: (3204031479, 1269605085) :: (3329325298, 1581576730) :: ([] : List (Nat × Nat))) := by decide
  have hfold : List.foldl compressStep (⟨1779033703, 3144134277, 1013904242, 2773480762, 1359893119, 2600822924, 528734635, 1541459225⟩ : SHAState) ((1116352408, 1532703069) :: (1899447441, 740318068) :: (3049323471, 1920296285) :: (3921009573, 1568669696) :: (961987163, 0) :: (1508970993, 0) :: (2453635748, 0) :: (2870763221, 0) :: (3624381080, 0) :: (310598401, 0) :: (607225278, 0) :: (1426881987, 0) :: (1925078388, 0) :: (2162078206, 0) :: (2614888103, 0) :: (3248222580, 104) :: (3835390401, 1448899117) :: (4022224774, 441874032) :: (264347078, 885461942) :: (604807628, 1399888892) :: (770255983, 1805708607) :: (1249150122, 1586855920) :: (1555081692, 1797435655) :: (1996064986, 1718481908) :: (2554220882, 688916169) :: (2821834349, 2086942781) :: (2952996808, 1462276519) :: (3210313671, 111605231) :: (3336571891, 3112700741) :: (3584528711, 258898753) :: (113926993, 996933112) :: (338241895, 1757931563) :: (666307205, 3538997064) :: (773529912, 682021368) :: (1294757372, 2384445262) :: (1396182291, 145647305) :: (1695183700, 1477446727) :: (1986661051, 1236588109) :: (2177026350, 1956927549) :: (2456956037, 3256782501) :: (2730485921, 1949705983) :: (2820302411, 22900055) :: (3259730800, 2604049539) :: (3345764771, 407615792) :: (3516065817, 2807538987) :: (3600352804, 942708702) :: (4094571909, 3311904809) :: (275423344, 3997348656) :: (430227734, 917134921) :: (506948616, 917494736) :: (659060556, 369254868) :: (883997877, 1296677372) :: (958139571, 3008122502) :: (1322822218, 1566710391) :: (1537002063, 34931863) :: (1747873779, 3237773352) :: (1955562222, 3275537919) :: (2024104815, 2767287680) :: (2227730452, 1063721883) :: (2361852424, 182465707) :: (2428436474, 300736275) :: (2756734187, 4164174754) :: (3204031479, 1269605085) :: (3329325298, 1581576730) :: ([] : List (Nat × Nat))) = (⟨2563345961, 3588084337, 701238889, 4120081587, 4293714758, 1944804134, 1342575351, 1966675953⟩ : SHAState) := by
    rfl
  have hblk : processBlock (⟨1779033703, 3144134277, 1013904242, 2773480762, 1359893119, 2600822924, 528734635, 1541459225⟩ : SHAState) (1532703069 :: 740318068 :: 1920296285 :: 1568669696 :: 0 :: 0 :: 0 :: 0 :: 0 :: 0 :: 0 :: 0 :: 0 :: 0 :: 0 :: 104 :: ([] : List Nat)) = (⟨47412368, 2437251318, 1715143131, 2598595053, 1358640581, 250659762, 1871309986, 3508135178⟩ : SHAState) := by
    simp only [processBlock, sha256K_eval, hsch, hzip, hfold]
    rfl
  have hW : sha256Words (91 :: 91 :: 49 :: 93 :: 44 :: 32 :: 91 :: 116 :: 114 :: 117 :: 101 :: 93 :: 93 :: ([] : List Nat)) = (47412368 :: 2437251318 :: 1715143131 :: 2598595053 :: 1358640581 :: 250659762 :: 1871309986 :: 3508135178 :: ([] : List Nat)) := by
    simp only [sha256Words, hpad, hch, List.foldl_cons, List.foldl_nil,
      hw16, shaInit_eval, hblk]
  rw [sha256Hex, hu, hW]
  decide


/-!  ### Claim C8: order policy  -/

/-- Claim C8, original form, counterexample: permutation invariance of the
order-insensitive mode fails on tied, non-identical elements.  [true] and
[1] compare equal under Python ==, so the sort keeps whichever input order
it is given and the two serializations (then the digests) differ. -/
theorem C8_counterexample :
    ¬(∀ v₁ v₂ : JVal, PEq v₁ v₂ → jsonHash v₁ true = jsonHash v₂ true) := by
  intro hall
  have hpeq : PEq (JVal.arr [JVal.arr [JVal.bool true], JVal.arr [JVal.int 1]])
      (JVal.arr [JVal.arr [JVal.int 1], JVal.arr [JVal.bool true]]) :=
    PEq.arr
      (PListEq.cons
        (PEq.arr (PListEq.cons (PEq.bool true) PListEq.nil) (List.Perm.refl _))
        (PListEq.cons
          (PEq.arr (PListEq.cons (PEq.int 1) PListEq.nil) (List.Perm.refl _))
          PListEq.nil))
      (List.Perm.swap _ _ _)
  have h := hall _ _ hpeq
  have hq : pyEq (JVal.arr [JVal.bool true]) (JVal.arr [JVal.int 1]) = true := by
    simp [pyEq, pyEqList]
  have hq' : pyEq (JVal.arr [JVal.int 1]) (JVal.arr [JVal.bool true]) = true := by
    simp [pyEq, pyEqList]
  have hcmp : tcmp (JVal.arr [JVal.bool true]) (JVal.arr [JVal.int 1]) = .ok .eq := by
    rw [tcmp, if_neg (by simp only [tagOf]; exact lt_irrefl _),
      if_neg (by simp only [tagOf]; exact lt_irrefl _), if_pos hq]
  have hcmp' : tcmp (JVal.arr [JVal.int 1]) (JVal.arr [JVal.bool true]) = .ok .eq := by
    rw [tcmp, if_neg (by simp only [tagOf]; exact lt_irrefl _),
      if_neg (by simp only [tagOf]; exact lt_irrefl _), if_pos hq']
  have hA : substElem true (JVal.arr [JVal.bool true]) =
      .ok (JVal.arr [JVal.bool true]) := by
    simp [substElem, sortListF, substL, pySorted, pairsComparableB, isortLe, insertLe]
  have hB : substElem true (JVal.arr [JVal.int 1]) = .ok (JVal.arr [JVal.int 1]) := by
    simp [substElem, sortListF, substL, pySorted, pairsComparableB, isortLe, insertLe]
  have hskl : sortKeyLe (JVal.arr [JVal.bool true]) (JVal.arr [JVal.int 1]) = true := by
    simp [sortKeyLe, hcmp]
  have hskl' : sortKeyLe (JVal.arr [JVal.int 1]) (JVal.arr [JVal.bool true]) = true := by
    simp [sortKeyLe, hcmp']
  have hsl : sortListF true [JVal.arr [JVal.bool true], JVal.arr [JVal.int 1]] =
      .ok [JVal.arr [JVal.bool true], JVal.arr [JVal.int 1]] := by
    simp [sortListF, substL, hA, hB, pySorted, pairsComparableB, hcmp,
      Except.isOk, Except.toBool, isortLe, insertLe, hskl]
  have hsl' : sortListF true [JVal.arr [JVal.int 1], JVal.arr [JVal.bool true]] =
      .ok [JVal.arr [JVal.int 1], JVal.arr [JVal.bool true]] := by
    simp [sortListF, substL, hA, hB, pySorted, pairsComparableB, hcmp',
      Except.isOk, Except.toBool, isortLe, insertLe, hskl']
  simp only [jsonHash, hashList, hsl, hsl'] at h
  have hd1 : dumps (JVal.arr [JVal.arr [JVal.bool true], JVal.arr [JVal.int 1]]) =
      "[[true], [1]]" := by
    simp only [dumps, dumpsList]
    decide
  have hd2 : dumps (JVal.arr [JVal.arr [JVal.int 1], JVal.arr [JVal.bool true]]) =
      "[[1], [true]]" := by
    simp only [dumps, dumpsList]
    decide
  rw [hd1, hd2, sha256Hex_evalC, sha256Hex_evalD] at h
  exact absurd (Except.ok.inj h) (by decide)

/-- Claim C8 (amended): with the order-insensitive policy the digest is
invariant under permuting any sequence's elements at any depth, provided
every sequence's rewritten elements are pairwise comparable and tied only
when identical (on ties, e.g. [true] vs [1], CPython's stable sort keeps
the input order and the digest depends on it); with the order-sensitive
policy, reordering a sequence of distinct elements changes the digest, as
it does on the concrete reordering [1,2] vs [2,1]. -/
theorem C8_order_policy :
    (∀ v₁ v₂ : JVal, PEq v₁ v₂ → goodSortV v₁ = true →
        jsonHash v₁ true = jsonHash v₂ true) ∧
      jsonHash (JVal.arr [JVal.int 1, JVal.int 2]) false ≠
        jsonHash (JVal.arr [JVal.int 2, JVal.int 1]) false := by
  constructor
  · exact fun v₁ v₂ h hg => jsonHash_peq h hg
  · intro h
    have hsl : sortListF false [JVal.int 1, JVal.int 2] =
        .ok [JVal.int 1, JVal.int 2] := by
      simp [sortListF, substL, substElem]
    have hsl' : sortListF false [JVal.int 2, JVal.int 1] =
        .ok [JVal.int 2, JVal.int 1] := by
      simp [sortListF, substL, substElem]
    simp only [jsonHash, hashList, hsl, hsl'] at h
    have hd1 : dumps (JVal.arr [JVal.int 1, JVal.int 2]) = "[1, 2]" := by
      simp only [dumps, dumpsList]
      decide
    have hd2 : dumps (JVal.arr [JVal.int 2, JVal.int 1]) = "[2, 1]" := by
      simp only [dumps, dumpsList]
      decide
    rw [hd1, hd2, sha256Hex_evalA, sha256Hex_evalB] at h
    exact absurd (Except.ok.inj h) (by decide)

/-- Claim C8 witness: a concrete permuted pair in the order-insensitive
mode, with the goodness hypotheses discharged by evaluation. -/
theorem C8_witness :
    jsonHash (JVal.arr [JVal.int 1, JVal.int 2]) true =
      jsonHash (JVal.arr [JVal.int 2, JVal.int 1]) true := by
  refine C8_order_policy.1 _ _ ?_ ?_
  · exact PEq.arr
      (PListEq.cons (PEq.int 1) (PListEq.cons (PEq.int 2) PListEq.nil))
      (List.Perm.swap _ _ _)
  · have hq : pyEq (JVal.int 1) (JVal.int 2) = false := by simp [pyEq]
    have hl : pyLt (JVal.int 1) (JVal.int 2) = .ok true := by simp [pyLt]
    have hcmp : tcmp (JVal.int 1) (JVal.int 2) = .ok .lt := by
      rw [tcmp, if_neg (by simp only [tagOf]; exact lt_irrefl _),
        if_neg (by simp only [tagOf]; exact lt_irrefl _), hq,
        if_neg Bool.false_ne_true]
      simp [hl]
    have hsub : substL true [JVal.int 1, JVal.int 2] =
        .ok [JVal.int 1, JVal.int 2] := by
      simp [substL, substElem]
    simp [goodSortV, goodSortList, hsub, goodPairsB, goodPair, hcmp]

/-!  ### Claim C7: order-sensitive hashing is total and canonical  -/

mutual

theorem substElem_false_total (v : JVal) : ∃ w, substElem false v = .ok w := by
  cases v with
  | obj es =>
    obtain ⟨es', h⟩ := substEntries_false_total es
    exact ⟨.str ("dict-" ++ sha256Hex (dumps (.obj (sortEntries es')))), by
      simp only [substElem, hashDict, h]⟩
  | arr l =>
    obtain ⟨l', h⟩ := substL_false_total l
    refine ⟨.arr l', ?_⟩
    have hs : sortListF false l = .ok l' := by
      simp only [sortListF, h]
      rw [if_neg Bool.false_ne_true]
    simp only [substElem, hs]
  | null => exact ⟨.null, by simp [substElem]⟩
  | bool b => exact ⟨.bool b, by simp [substElem]⟩
  | int n => exact ⟨.int n, by simp [substElem]⟩
  | str s => exact ⟨.str s, by simp [substElem]⟩

theorem substL_false_total (l : List JVal) : ∃ l', substL false l = .ok l' := by
  cases l with
  | nil => exact ⟨[], by simp [substL]⟩
  | cons v t =>
    obtain ⟨w, hv⟩ := substElem_false_total v
    obtain ⟨t', ht⟩ := substL_false_total t
    exact ⟨w :: t', by simp only [substL, hv, ht]⟩

theorem substEntries_false_total (es : List (String × JVal)) :
    ∃ es', substEntries false es = .ok es' := by
  cases es with
  | nil => exact ⟨[], by simp [substEntries]⟩
  | cons kv t =>
    obtain ⟨k, v⟩ := kv
    obtain ⟨w, hv⟩ := substElem_false_total v
    obtain ⟨t', ht⟩ := substEntries_false_total t
    exact ⟨(k, w) :: t', by simp only [substEntries, hv, ht]⟩

end

theorem substEntries_forall₂ {sl : Bool} :
    ∀ {es es' : List (String × JVal)}, substEntries sl es = .ok es' →
      List.Forall₂ (fun e e' => e.1 = e'.1 ∧ substElem sl e.2 = .ok e'.2) es es' := by
  intro es
  induction es with
  | nil =>
    intro es' h
    simp only [substEntries] at h
    rw [← Except.ok.inj h]
    exact List.Forall₂.nil
  | cons kv t ih =>
    intro es' h
    obtain ⟨k, v⟩ := kv
    cases hv : substElem sl v with
    | error e =>
      simp only [substEntries, hv] at h
      exact Except.noConfusion h
    | ok v₂ =>
      cases ht : substEntries sl t with
      | error e =>
        simp only [substEntries, hv, ht] at h
        exact Except.noConfusion h
      | ok t₂ =>
        simp only [substEntries, hv, ht] at h
        rw [← Except.ok.inj h]
        exact List.Forall₂.cons ⟨rfl, hv⟩ (ih ht)

theorem substEntries_of_forall₂ {sl : Bool} :
    ∀ {es es' : List (String × JVal)},
      List.Forall₂ (fun e e' => e.1 = e'.1 ∧ substElem sl e.2 = .ok e'.2) es es' →
      substEntries sl es = .ok es' := by
  intro es
  induction es with
  | nil =>
    intro es' h
    cases h
    simp [substEntries]
  | cons kv t ih =>
    intro es' h
    cases h with
    | cons hh htail =>
      rename_i e' t₂
      obtain ⟨k, v⟩ := kv
      obtain ⟨hk, hv⟩ := hh
      have he : (k, e'.2) = e' := Prod.ext hk rfl
      simp only [substEntries, hv, ih htail, he]

theorem insertLe_forall₂ {α : Type} (le : α → α → Bool) (R : α → α → Prop)
    (hle : ∀ a a' b b', R a a' → R b b' → le a b = le a' b') :
    ∀ {a a' : α} {l l' : List α}, R a a' → List.Forall₂ R l l' →
      List.Forall₂ R (insertLe le a l) (insertLe le a' l') := by
  intro a a' l l' ha hl
  induction hl with
  | nil => exact List.Forall₂.cons ha List.Forall₂.nil
  | cons hb htail ih =>
    rename_i b b' t t'
    simp only [insertLe]
    rw [hle a a' b b' ha hb]
    by_cases hab : le a' b' = true
    · rw [if_pos hab, if_pos hab]
      exact List.Forall₂.cons ha (List.Forall₂.cons hb htail)
    · rw [if_neg hab, if_neg hab]
      exact List.Forall₂.cons hb ih

theorem isortLe_forall₂ {α : Type} (le : α → α → Bool) (R : α → α → Prop)
    (hle : ∀ a a' b b', R a a' → R b b' → le a b = le a' b') :
    ∀ {l l' : List α}, List.Forall₂ R l l' →
      List.Forall₂ R (isortLe le l) (isortLe le l') := by
  intro l l' h
  induction h with
  | nil => exact List.Forall₂.nil
  | cons ha htail ih =>
    simp only [isortLe]
    exact insertLe_forall₂ le R hle ha ih

theorem sortEntries_subst_comm {sl : Bool} {es es' : List (String × JVal)}
    (h : substEntries sl es = .ok es') :
    substEntries sl (sortEntries es) = .ok (sortEntries es') := by
  apply substEntries_of_forall₂
  rw [sortEntries, sortEntries]
  apply isortLe_forall₂ entryLe _ ?_ (substEntries_forall₂ h)
  intro a a' b b' hra hrb
  simp only [entryLe, hra.1, hrb.1]

theorem insertLe_pairwise {α : Type} (le : α → α → Bool)
    (htot : ∀ a b, le a b = true ∨ le b a = true)
    (htr : ∀ a b c, le a b = true → le b c = true → le a c = true) :
    ∀ (a : α) (l : List α), l.Pairwise (fun x y => le x y = true) →
      (insertLe le a l).Pairwise (fun x y => le x y = true) := by
  intro a l
  induction l with
  | nil =>
    intro _
    exact List.pairwise_singleton _ _
  | cons b t ih =>
    intro hp
    rw [List.pairwise_cons] at hp
    obtain ⟨hbt, hpt⟩ := hp
    rw [insertLe]
    by_cases hab : le a b = true
    · rw [if_pos hab, List.pairwise_cons]
      constructor
      · intro x hx
        rcases List.mem_cons.mp hx with hxb | hxt
        · rw [hxb]; exact hab
        · exact htr a b x hab (hbt x hxt)
      · rw [List.pairwise_cons]
        exact ⟨hbt, hpt⟩
    · rw [if_neg hab, List.pairwise_cons]
      have hba : le b a = true := (htot a b).resolve_left hab
      constructor
      · intro x hx
        rcases List.mem_cons.mp ((insertLe_perm le a t).subset hx) with hxa | hxt
        · rw [hxa]; exact hba
        · exact hbt x hxt
      · exact ih hpt

theorem isortLe_pairwise {α : Type} (le : α → α → Bool)
    (htot : ∀ a b, le a b = true ∨ le b a = true)
    (htr : ∀ a b c, le a b = true → le b c = true → le a c = true) :
    ∀ l : List α, (isortLe le l).Pairwise (fun x y => le x y = true) := by
  intro l
  induction l with
  | nil => exact List.Pairwise.nil
  | cons a t ih =>
    rw [isortLe]
    exact insertLe_pairwise le htot htr a (isortLe le t) ih

theorem isortLe_eq_of_pairwise {α : Type} (le : α → α → Bool) :
    ∀ l : List α, l.Pairwise (fun x y => le x y = true) → isortLe le l = l := by
  intro l
  induction l with
  | nil => intro _; rfl
  | cons a t ih =>
    intro hp
    rw [List.pairwise_cons] at hp
    obtain ⟨hat, hpt⟩ := hp
    rw [isortLe, ih hpt]
    cases t with
    | nil => rfl
    | cons b t2 => rw [insertLe, if_pos (hat b (List.mem_cons_self b t2))]

theorem sortEntries_idem (es : List (String × JVal)) :
    sortEntries (sortEntries es) = sortEntries es := by
  show isortLe entryLe (isortLe entryLe es) = isortLe entryLe es
  apply isortLe_eq_of_pairwise
  apply isortLe_pairwise
  · intro a b
    rcases le_total a.1 b.1 with h | h
    · exact Or.inl (decide_eq_true h)
    · exact Or.inr (decide_eq_true h)
  · intro a b c h1 h2
    exact decide_eq_true (le_trans (of_decide_eq_true h1) (of_decide_eq_true h2))

theorem substL_canon_pointwise :
    ∀ l : List JVal, (∀ v ∈ l, substElem false (canonKeys v) = substElem false v) →
      substL false (canonList l) = substL false l := by
  intro l
  induction l with
  | nil => intro _; simp [canonList]
  | cons v t ih =>
    intro h
    simp only [canonList, substL, h v (List.mem_cons_self v t),
      ih fun x hx => h x (List.mem_cons_of_mem v hx)]

theorem substEntries_canon_pointwise :
    ∀ es : List (String × JVal),
      (∀ k v, (k, v) ∈ es → substElem false (canonKeys v) = substElem false v) →
      substEntries false (canonEntries es) = substEntries false es := by
  intro es
  induction es with
  | nil => intro _; simp [canonEntries]
  | cons kv t ih =>
    intro h
    obtain ⟨k, v⟩ := kv
    simp only [canonEntries, substEntries, h k v (List.mem_cons_self _ _),
      ih fun x w hm => h x w (List.mem_cons_of_mem _ hm)]

theorem canon_subst_bounded :
    ∀ n : Nat,
      (∀ es : List (String × JVal), sizeOf es ≤ n →
          hashDict false es = hashDict false (sortEntries (canonEntries es))) ∧
        (∀ v : JVal, sizeOf v ≤ n →
          substElem false v = substElem false (canonKeys v)) := by
  intro n
  induction n with
  | zero =>
    constructor
    · intro es hsz
      exfalso
      cases es <;> simp_arith at hsz
    · intro v hsz
      exfalso
      cases v <;> simp_arith at hsz
  | succ n ih =>
    constructor
    · intro es hsz
      obtain ⟨es', hes⟩ := substEntries_false_total es
      have hvals : ∀ k v, (k, v) ∈ es →
          substElem false (canonKeys v) = substElem false v := by
        intro k v hm
        have h1 := sizeOf_snd_lt_of_mem hm
        exact (ih.2 v (by omega)).symm
      have hcan : substEntries false (canonEntries es) = .ok es' := by
        rw [substEntries_canon_pointwise es hvals]
        exact hes
      have hsorted : substEntries false (sortEntries (canonEntries es)) =
          .ok (sortEntries es') := sortEntries_subst_comm hcan
      simp only [hashDict, hes, hsorted, sortEntries_idem]
    · intro v hsz
      cases v with
      | null => simp [canonKeys]
      | bool b => simp [canonKeys]
      | int i => simp [canonKeys]
      | str s => simp [canonKeys]
      | obj es =>
        have hszes : sizeOf es ≤ n := by
          have hs := JVal.obj.sizeOf_spec es
          omega
        have hd := ih.1 es hszes
        simp only [canonKeys, substElem, hd]
      | arr l =>
        have hL : substL false (canonList l) = substL false l := by
          apply substL_canon_pointwise
          intro x hx
          have h1 := List.sizeOf_lt_of_mem hx
          have h2 := JVal.arr.sizeOf_spec l
          exact (ih.2 x (by omega)).symm
        simp only [canonKeys, substElem, sortListF, hL]

theorem substElem_canon (v : JVal) :
    substElem false v = substElem false (canonKeys v) :=
  (canon_subst_bounded (sizeOf v)).2 v le_rfl

theorem hashDict_canon (es : List (String × JVal)) :
    hashDict false es = hashDict false (sortEntries (canonEntries es)) :=
  (canon_subst_bounded (sizeOf es)).1 es le_rfl

theorem jsonHash_canon (v : JVal) : jsonHash v false = jsonHash (canonKeys v) false := by
  cases v with
  | null => simp [canonKeys]
  | bool b => simp [canonKeys]
  | int i => simp [canonKeys]
  | str s => simp [canonKeys]
  | obj es =>
    simp only [canonKeys, jsonHash]
    exact hashDict_canon es
  | arr l =>
    have hL : substL false (canonList l) = substL false l := by
      apply substL_canon_pointwise
      intro x hx
      exact (substElem_canon x).symm
    simp only [canonKeys, jsonHash, hashList, sortListF, hL]

/-!  ### Digest format: 64 lowercase hex characters  -/

theorem hexLowerChar_hex (n : Nat) : isHexChar (hexLowerChar n) = true := by
  rw [hexLowerChar]
  have h : n % 16 < 16 := Nat.mod_lt _ (by norm_num)
  generalize hm : n % 16 = m at h ⊢
  interval_cases m <;> decide

theorem wordHex_length (w : Nat) : (wordHex w).length = 8 := rfl

theorem wordHex_hex (w : Nat) : (wordHex w).data.all isHexChar = true := by
  have hd : (wordHex w).data =
      (List.range 8).map fun i => hexLowerChar ((w >>> (28 - 4 * i)) % 16) := rfl
  rw [hd, List.all_eq_true]
  intro c hc
  obtain ⟨i, hmem, hceq⟩ := List.mem_map.mp hc
  rw [← hceq]
  exact hexLowerChar_hex _

theorem foldl_append_length :
    ∀ (l : List String) (acc : String), (∀ x ∈ l, x.length = 8) →
      (l.foldl (fun a b => a ++ b) acc).length = acc.length + 8 * l.length := by
  intro l
  induction l with
  | nil => intro acc _; simp
  | cons s t ih =>
    intro acc h
    rw [List.foldl_cons, ih (acc ++ s) fun x hx => h x (List.mem_cons_of_mem s hx),
      String.length_append, h s (List.mem_cons_self s t), List.length_cons]
    omega

theorem join_length_of_all8 (l : List String) (h : ∀ x ∈ l, x.length = 8) :
    (String.join l).length = 8 * l.length := by
  rw [String.join]
  have hf := foldl_append_length l "" h
  rw [hf]
  simp

theorem sha256Words_length (m : List Nat) : (sha256Words m).length = 8 := rfl

theorem sha256Hex_length (s : String) : (sha256Hex s).length = 64 := by
  rw [sha256Hex, join_length_of_all8]
  · rw [List.length_map, sha256Words_length]
  · intro x hx
    obtain ⟨w, hmem, hxeq⟩ := List.mem_map.mp hx
    rw [← hxeq]
    exact wordHex_length w

theorem foldl_append_hex :
    ∀ (l : List String) (acc : String), (∀ x ∈ l, x.data.all isHexChar = true) →
      acc.data.all isHexChar = true →
      ((l.foldl (fun a b => a ++ b) acc).data.all isHexChar) = true := by
  intro l
  induction l with
  | nil => intro acc _ h; exact h
  | cons s t ih =>
    intro acc h hacc
    rw [List.foldl_cons]
    apply ih
    · exact fun x hx => h x (List.mem_cons_of_mem s hx)
    · rw [String.data_append, List.all_append, Bool.and_eq_true]
      exact ⟨hacc, h s (List.mem_cons_self s t)⟩

theorem sha256Hex_hex (s : String) : (sha256Hex s).data.all isHexChar = true := by
  rw [sha256Hex, String.join]
  apply foldl_append_hex
  · intro x hx
    obtain ⟨w, hmem, hxeq⟩ := List.mem_map.mp hx
    rw [← hxeq]
    exact wordHex_hex w
  · rfl

theorem jsonHash_ok_shape {v : JVal} {sl : Bool} {d : String}
    (h : jsonHash v sl = .ok d) : ∃ s, d = sha256Hex s := by
  cases v with
  | obj es =>
    cases he : substEntries sl es with
    | error e =>
      simp only [jsonHash, hashDict, he] at h
      exact Except.noConfusion h
    | ok es' =>
      simp only [jsonHash, hashDict, he] at h
      exact ⟨_, (Except.ok.inj h).symm⟩
  | arr l =>
    cases hs : sortListF sl l with
    | error e =>
      simp only [jsonHash, hashList, hs] at h
      exact Except.noConfusion h
    | ok l' =>
      simp only [jsonHash, hashList, hs] at h
      exact ⟨_, (Except.ok.inj h).symm⟩
  | null =>
    simp only [jsonHash] at h
    exact ⟨_, (Except.ok.inj h).symm⟩
  | bool b =>
    simp only [jsonHash] at h
    exact ⟨_, (Except.ok.inj h).symm⟩
  | int n =>
    simp only [jsonHash] at h
    exact ⟨_, (Except.ok.inj h).symm⟩
  | str s =>
    simp only [jsonHash] at h
    exact ⟨_, (Except.ok.inj h).symm⟩

/-- Claim C7, original form, counterexample: in the order-insensitive mode
the hasher does not always produce a digest: sorting a sequence whose
elements have incomparable types ([1] vs ["a"], both tagged list, compared
elementwise int vs str) raises TypeError. -/
theorem C7_counterexample :
    jsonHash (JVal.arr [JVal.arr [JVal.int 1], JVal.arr [JVal.str "a"]]) true =
      .error .typeError := by
  have h1 : substElem true (JVal.arr [JVal.int 1]) = .ok (JVal.arr [JVal.int 1]) := by
    simp [substElem, sortListF, substL, pySorted, pairsComparableB, isortLe, insertLe]
  have h2 : substElem true (JVal.arr [JVal.str "a"]) =
      .ok (JVal.arr [JVal.str "a"]) := by
    simp [substElem, sortListF, substL, pySorted, pairsComparableB, isortLe, insertLe]
  have hq : pyEq (JVal.arr [JVal.int 1]) (JVal.arr [JVal.str "a"]) = false := by
    simp [pyEq, pyEqList]
  have hlt : pyLt (JVal.arr [JVal.int 1]) (JVal.arr [JVal.str "a"]) =
      .error .typeError := by
    simp [pyLt, pyLtList, pyEq]
  have hcmp : tcmp (JVal.arr [JVal.int 1]) (JVal.arr [JVal.str "a"]) =
      .error .typeError := by
    rw [tcmp, if_neg (by simp only [tagOf]; exact lt_irrefl _),
      if_neg (by simp only [tagOf]; exact lt_irrefl _), hq,
      if_neg Bool.false_ne_true]
    simp [hlt]
  have hpc : pairsComparableB [JVal.arr [JVal.int 1], JVal.arr [JVal.str "a"]] =
      false := by
    simp [pairsComparableB, hcmp, Except.isOk, Except.toBool]
  have hsl : sortListF true [JVal.arr [JVal.int 1], JVal.arr [JVal.str "a"]] =
      .error .typeError := by
    have hsub : substL true [JVal.arr [JVal.int 1], JVal.arr [JVal.str "a"]] =
        .ok [JVal.arr [JVal.int 1], JVal.arr [JVal.str "a"]] := by
      simp [substL, h1, h2]
    simp only [sortListF, hsub, if_true]
    rw [pySorted, hpc, if_neg Bool.false_ne_true]
  simp only [jsonHash, hashList, hsl]

/-- Claim C7 (amended): with the order-sensitive policy the hasher is
total and canonical — two trees with the same canonical form (mapping
entries sorted by key at every level, sequences and scalars taken
literally) always produce the same digest — and every digest either mode
ever produces is a 64-character lowercase-hexadecimal string.  In the
order-insensitive mode a digest is not always produced (see the
counterexample), so the equal-digest guarantee is stated for the
order-sensitive mode. -/
theorem C7_canonical_digest :
    (∀ v₁ v₂ : JVal, canonKeys v₁ = canonKeys v₂ →
        jsonHash v₁ false = jsonHash v₂ false) ∧
      ∀ (v : JVal) (sl : Bool) (d : String), jsonHash v sl = .ok d →
        d.length = 64 ∧ d.data.all isHexChar = true := by
  constructor
  · intro v₁ v₂ h
    rw [jsonHash_canon v₁, jsonHash_canon v₂, h]
  · intro v sl d h
    obtain ⟨s, rfl⟩ := jsonHash_ok_shape h
    exact ⟨sha256Hex_length s, sha256Hex_hex s⟩

/-- Claim C7 witness: two key-permuted mappings share one digest, and a
scalar hash is a 64-character hex string, at concrete inputs. -/
theorem C7_witness :
    jsonHash (JVal.obj [("b", JVal.int 1), ("a", JVal.int 2)]) false =
        jsonHash (JVal.obj [("a", JVal.int 2), ("b", JVal.int 1)]) false ∧
      ∀ d : String, jsonHash (JVal.int 5) false = .ok d →
        d.length = 64 ∧ d.data.all isHexChar = true := by
  constructor
  · apply C7_canonical_digest.1
    have e1 : entryLe ("b", JVal.int 1) ("a", JVal.int 2) = false := by
      simp [entryLe]
      decide
    have e2 : entryLe ("a", JVal.int 2) ("b", JVal.int 1) = true := by
      simp [entryLe]
      decide
    simp [canonKeys, canonEntries, sortEntries, isortLe, insertLe, e1, e2]
  · intro d h
    exact C7_canonical_digest.2 (JVal.int 5) false d h

end KTB
